import Mathlib

/-!
# Verification development for `thekb/chroma-takehome` (package `store`)

A shallow embedding of the permission-enforcing delegation layer
(`delegated_store.go`), the request types and their validation (`store.go`,
`errors.go`), the SQLite-backed store (`sqlite3_store.go`), the store factory
(`user_store_factory.go`) and the metadata store (`admin_store.go`).

Conventions.
* Go `int64`/`int` values are `Int`; none of the modelled code does arithmetic
  on them, so no wrap-around is involved.
* A Go `error` is a value of `Error`; a method returning `(T, error)` returns
  `Except Error T`, and a method that also changes state returns the new state
  next to it.
* The relational engine behind `database/sql` is outside the repository.  Its
  tables are modelled by `DB`.  The where-clauses of a request reach it as one
  text, joined by ` AND ` as they were written; the truth of that text on one
  row is the engine parameter `Engine.holds`.
-/

namespace Store

/-! ## Errors (`errors.go`) -/

/-- Go `error` values as the code builds them. -/
inductive Error where
  /-- `errors.New(msg)` -/
  | sentinel (msg : String)
  /-- `fmt.Errorf("%w: %s", inner, msg)` -/
  | wrap (inner : Error) (msg : String)
  /-- `fmt.Errorf(...)` without `%w` -/
  | errorf (msg : String)
  /-- an error reported by `database/sql` or the engine -/
  | engine (msg : String)
  /-- a failed type assertion such as `res[0]["token"].(string)`: a run-time
  panic in Go, kept as a value so that every function returns -/
  | typeAssertion (msg : String)
  deriving DecidableEq, Repr

/-- `errors.Is(e, target)`: `e` is `target` or wraps it. -/
def Error.Is : Error → Error → Bool
  | .wrap inner msg, target =>
      decide (Error.wrap inner msg = target) || Error.Is inner target
  | e, target => decide (e = target)

def ErrInvalidQueryOptions : Error := .sentinel "invalid query options"
def ErrInvalidExecOptions : Error := .sentinel "invalid exec options"
def ErrInvalidTableCreationOptions : Error := .sentinel "invalid table creation options"

def NewInvalidQueryOptions (msg : String) : Error := .wrap ErrInvalidQueryOptions msg
def NewInvalidExecOptions (msg : String) : Error := .wrap ErrInvalidExecOptions msg
def NewInvalidTableCreationOptions (msg : String) : Error :=
  .wrap ErrInvalidTableCreationOptions msg

/-- Equality of Go results `(T, error)` is decidable. -/
instance instDecidableEqResult {ε α : Type} [DecidableEq ε] [DecidableEq α] :
    DecidableEq (Except ε α)
  | .ok a, .ok b => if h : a = b then isTrue (by rw [h]) else isFalse (by intro h1; cases h1; exact h rfl)
  | .error a, .error b =>
      if h : a = b then isTrue (by rw [h]) else isFalse (by intro h1; cases h1; exact h rfl)
  | .ok _, .error _ => isFalse (by intro h; cases h)
  | .error _, .ok _ => isFalse (by intro h; cases h)

/-! ## Request types and validation (`store.go`) -/

/-- A Go `interface{}` cell value: an integer, a string, or nil. -/
inductive Value where
  | int (i : Int)
  | text (s : String)
  | null
  deriving DecidableEq, Repr

structure QueryOptions where
  TableName : String
  IncludeColumns : List String
  Where : List String
  Limit : Int
  deriving DecidableEq, Repr

/-- `QueryOptions.Validate`; `none` is Go's `nil` error. -/
def QueryOptions.Validate (o : QueryOptions) : Option Error :=
  if o.TableName = "" then some (NewInvalidQueryOptions "table name is empty")
  else none

def ExecTypeUpdate : String := "update"
def ExecTypeInsert : String := "insert"

structure FieldValue where
  Name : String
  Value : Value
  deriving DecidableEq, Repr

structure ExecOptions where
  /-- Go field `Type` (a reserved word here) -/
  Type_ : String
  TableName : String
  Values : List FieldValue
  Where : List String
  deriving DecidableEq, Repr

/-- `ExecOptions.Validate`; `none` is Go's `nil` error. -/
def ExecOptions.Validate (o : ExecOptions) : Option Error :=
  if ¬ (o.Type_ = ExecTypeInsert ∨ o.Type_ = ExecTypeUpdate) then
    some (NewInvalidExecOptions "invalid exec type")
  else if o.TableName = "" then
    some (NewInvalidExecOptions "table name is empty")
  else if o.Values.length = 0 then
    some (NewInvalidExecOptions "nothing to update")
  else if o.Type_ = ExecTypeUpdate ∧ o.Where.length = 0 then
    some (NewInvalidExecOptions "update without predicates not allowed")
  else none

/-- One result row: column name to value (`map[string]interface{}`), kept in
column order. -/
abbrev Row := List (String × Value)

/-- `QueryResult` is `[]map[string]interface{}`. -/
abbrev QueryResult := List Row

structure ExecResult where
  LastInsertId : Int
  RowsAffected : Int
  deriving DecidableEq, Repr

structure CreateTableOptions where
  TableName : String
  Definitions : List (List String)
  IfNotExists : Bool
  deriving DecidableEq, Repr

def CreateTableOptions.Validate (o : CreateTableOptions) : Option Error :=
  if o.TableName = "" then some (NewInvalidTableCreationOptions "table name is empty")
  else none

structure UserStoreOptions where
  DataSource : String
  ID : Int
  deriving DecidableEq, Repr

structure TablePermission where
  TableName : String
  Permission : String
  deriving DecidableEq, Repr

structure User where
  ID : Int
  UserName : String
  deriving DecidableEq, Repr

structure Table where
  ID : Int
  Name : String
  StoreID : Int
  deriving DecidableEq, Repr

structure UserOptions where
  Token : String
  deriving DecidableEq, Repr

/-! ## Permission names (`admin_store.go`) -/

def READ_ALL_PERMISSION : String := "READ_ALL"
def WRITE_ALL_PERMISSION : String := "WRITE_ALL"
def READ_RESTRICTED_PERMISSION : String := "READ_RESTRICTED"
def WRITE_RESTRICTED_PERMISSION : String := "WRITE_RESTRICTED"

def defaultPermissions : List String :=
  [READ_ALL_PERMISSION, WRITE_ALL_PERMISSION,
   READ_RESTRICTED_PERMISSION, WRITE_RESTRICTED_PERMISSION]

def global_tables_table : String := "global_tables"
def global_permissions : String := "global_permissions"
def global_users : String := "global_users"
def global_user_table_permission : String := "global_user_table_permission"

/-! ## Interfaces used by the delegation layer (`store.go`)

The delegation layer talks to its collaborators through Go interfaces.  A
backend and the factory act on state the layer does not own (the factory's
cache, the databases); that state is the type parameter `σ`, threaded
explicitly.  The three `AdminStore` lookups the layer uses only read the
catalog, so they are functions of the catalog as it stands when the request
arrives. -/

/-- Interface `UserStore`. -/
structure UserStore (σ : Type) where
  ID : Int
  Query : QueryOptions → σ → Except Error QueryResult × σ
  Exec : ExecOptions → σ → Except Error ExecResult × σ

/-- Interface `UserStoreFactory`. -/
structure UserStoreFactory (σ : Type) where
  New : UserStoreOptions → σ → Except Error (UserStore σ) × σ

/-- Interface `AdminStore`, restricted to the lookups `delegatedStore` calls. -/
structure AdminStore where
  GetTable : String → Except Error Table
  GetUser : String → Except Error User
  GetPermissionsForToken : String → Except Error (List TablePermission)

/-! ## The delegation layer (`delegated_store.go`) -/

structure delegatedStore (σ : Type) where
  as : AdminStore
  uo : UserOptions
  usf : UserStoreFactory σ

/-- `NewDelegatedStore`: the user options are Go's zero value. -/
def NewDelegatedStore {σ : Type} (as : AdminStore) (usf : UserStoreFactory σ) :
    delegatedStore σ :=
  { as := as, uo := { Token := "" }, usf := usf }

def delegatedStore.AsUser {σ : Type} (s : delegatedStore σ) (opts : UserOptions) :
    delegatedStore σ :=
  { as := s.as, uo := opts, usf := s.usf }

/-- A call the delegation layer makes on the factory or on a backend the
factory returned, with the argument it passes. -/
inductive Call where
  /-- `s.usf.New(ctx, opts)` -/
  | New (opts : UserStoreOptions)
  /-- `us.Query(ctx, opts)` on the backend whose `ID()` is `storeID` -/
  | Query (storeID : Int) (opts : QueryOptions)
  /-- `us.Exec(ctx, opts)` on the backend whose `ID()` is `storeID` -/
  | Exec (storeID : Int) (opts : ExecOptions)
  deriving DecidableEq, Repr

/-- What one request leaves behind: the value returned to the caller, the state
of the collaborators, and the calls made on them, in order. -/
structure Outcome (α σ : Type) where
  result : Except Error α
  state : σ
  calls : List Call

/-- The loop collecting `tablePerms`: the permission names of the grants whose
table name equals the requested table, in order. -/
def tablePermsOf (perms : List TablePermission) (tableName : String) : List String :=
  (perms.filter (fun perm => decide (tableName = perm.TableName))).map (·.Permission)

def hasReadPermission (tablePerms : List String) : Bool :=
  tablePerms.any (fun s =>
    decide (s = READ_ALL_PERMISSION) || decide (s = READ_RESTRICTED_PERMISSION))

def hasOnlyRestrictedReadPermission (tablePerms : List String) : Bool :=
  tablePerms.contains READ_RESTRICTED_PERMISSION && !tablePerms.contains READ_ALL_PERMISSION

def hasWritePermission (tablePerms : List String) : Bool :=
  tablePerms.any (fun s =>
    decide (s = WRITE_ALL_PERMISSION) || decide (s = WRITE_RESTRICTED_PERMISSION))

def hasOnlyRestrictedUpdatePermission (tablePerms : List String) : Bool :=
  tablePerms.contains WRITE_RESTRICTED_PERMISSION && !tablePerms.contains WRITE_ALL_PERMISSION

/-- `fmt.Sprintf("created_by = %d", id)`. -/
def ownerPredicate (id : Int) : String := "created_by = " ++ toString id

/-- The request as `Query` passes it on (the `if` on
`hasOnlyRestrictedReadPermission`): a user holding READ_RESTRICTED without
READ_ALL gets the ownership predicate appended to `Where`. -/
def rewriteQuery (opts : QueryOptions) (tablePerms : List String) (userID : Int) :
    QueryOptions :=
  if hasOnlyRestrictedReadPermission tablePerms then
    { opts with Where := opts.Where ++ [ownerPredicate userID] }
  else opts

/-- The request as `Exec` passes it on (the `switch opts.Type`): an insert gets
the field `created_by` appended to `Values`; an update by a user holding
WRITE_RESTRICTED without WRITE_ALL gets the ownership predicate appended to
`Where`; any other type is left as it is. -/
def rewriteExec (opts : ExecOptions) (tablePerms : List String) (userID : Int) :
    ExecOptions :=
  if opts.Type_ = ExecTypeInsert then
    { opts with Values := opts.Values ++ [{ Name := "created_by", Value := .int userID }] }
  else if opts.Type_ = ExecTypeUpdate then
    if hasOnlyRestrictedUpdatePermission tablePerms then
      { opts with Where := opts.Where ++ [ownerPredicate userID] }
    else opts
  else opts

/-- `delegatedStore.Query`. -/
def delegatedStore.Query {σ : Type} (s : delegatedStore σ) (opts : QueryOptions) (st : σ) :
    Outcome QueryResult σ :=
  match s.as.GetUser s.uo.Token with
  | .error err => ⟨.error err, st, []⟩
  | .ok user =>
  match s.as.GetTable opts.TableName with
  | .error err => ⟨.error err, st, []⟩
  | .ok table =>
  match s.as.GetPermissionsForToken s.uo.Token with
  | .error err => ⟨.error err, st, []⟩
  | .ok perms =>
  let tablePerms := tablePermsOf perms opts.TableName
  if tablePerms.length = 0 then
    ⟨.error (.errorf ("user with token '" ++ s.uo.Token ++ "' not allowed to access table '"
      ++ opts.TableName ++ "'")), st, []⟩
  else if !hasReadPermission tablePerms then
    ⟨.error (.errorf ("user with '" ++ s.uo.Token ++ "' token cannot perform this query action")),
      st, []⟩
  else
    let opts1 := rewriteQuery opts tablePerms user.ID
    let fo : UserStoreOptions := { DataSource := "", ID := table.StoreID }
    match s.usf.New fo st with
    | (.error err, st1) => ⟨.error err, st1, [.New fo]⟩
    | (.ok us, st1) =>
      ⟨(us.Query opts1 st1).1, (us.Query opts1 st1).2, [.New fo, .Query us.ID opts1]⟩

/-- `delegatedStore.Exec`. -/
def delegatedStore.Exec {σ : Type} (s : delegatedStore σ) (opts : ExecOptions) (st : σ) :
    Outcome ExecResult σ :=
  match s.as.GetUser s.uo.Token with
  | .error err => ⟨.error err, st, []⟩
  | .ok user =>
  match s.as.GetTable opts.TableName with
  | .error err => ⟨.error err, st, []⟩
  | .ok table =>
  match s.as.GetPermissionsForToken s.uo.Token with
  | .error err => ⟨.error err, st, []⟩
  | .ok perms =>
  let tablePerms := tablePermsOf perms opts.TableName
  if tablePerms.length = 0 then
    ⟨.error (.errorf ("user with token '" ++ s.uo.Token ++ "' not allowed to access table '"
      ++ opts.TableName ++ "'")), st, []⟩
  else if !hasWritePermission tablePerms then
    ⟨.error (.errorf ("user with token '" ++ s.uo.Token ++ "' cannot perform exec action")),
      st, []⟩
  else
    let opts1 := rewriteExec opts tablePerms user.ID
    let fo : UserStoreOptions := { DataSource := "", ID := table.StoreID }
    match s.usf.New fo st with
    | (.error err, st1) => ⟨.error err, st1, [.New fo]⟩
    | (.ok us, st1) =>
      ⟨(us.Exec opts1 st1).1, (us.Exec opts1 st1).2, [.New fo, .Exec us.ID opts1]⟩

/-! ## The relational engine (outside the repository)

`sqlite3Store` hands statements built by a query builder to `database/sql`.
The statements the code builds are modelled by what they say: the column list,
the table, the where text and the row limit of a `SELECT`; the columns and
values of an `INSERT`; the assignments and the where text of an `UPDATE`; the
column definitions of a `CREATE TABLE`.  The where text is what the builder
writes after `WHERE`: the clauses of the request as the caller or the code
wrote them, joined by ` AND `, with nothing put around a clause.

Modelled of the engine: tables with named columns, rows, automatic values and
uniqueness of an integer primary key, the errors for an unknown table or
column.  Not modelled: other column constraints, type affinity, and the grammar
of a where text: its truth on a row is the parameter `Engine.holds`, and the
failure of a statement whose where text the engine cannot parse has no
counterpart here. -/

/-- The engine's reading of a where text on one stored row. -/
structure Engine where
  holds : String → Row → Bool

/-- A stored table: its column definitions as given to `CREATE TABLE` (column
name first) and its rows, each row listing every column. -/
structure TableData where
  Definitions : List (List String)
  rows : List Row
  deriving DecidableEq, Repr

/-- A database: its tables by name. -/
abbrev DB := List (String × TableData)

def TableData.columns (t : TableData) : List String :=
  t.Definitions.filterMap List.head?

/-- A definition such as `["id", "integer", "not null", "primary key"]`. -/
def isIntegerPrimaryKey (d : List String) : Bool :=
  d.tail.contains "integer" && d.tail.contains "primary key"

def TableData.primaryKey (t : TableData) : Option String :=
  (t.Definitions.find? isIntegerPrimaryKey).bind List.head?

/-- Replace the table stored under `name`. -/
def DB.put : DB → String → TableData → DB
  | [], _, _ => []
  | (n, t) :: rest, name, t1 =>
      if n = name then (n, t1) :: rest else (n, t) :: DB.put rest name t1

/-- The text the builder writes after `WHERE`: `strings.Join(exprs, " AND ")`. -/
def whereText (where_ : List String) : String := " AND ".intercalate where_

/-- The row passes the `WHERE` of the statement: there is none for an empty
list, otherwise the engine reads the joined text. -/
def Engine.satisfies (E : Engine) (where_ : List String) (r : Row) : Bool :=
  where_.isEmpty || E.holds (whereText where_) r

/-- The columns of a stored row that a `SELECT` lists. -/
def project (cols : List String) (r : Row) : Row :=
  cols.map (fun c => (c, (r.lookup c).getD Value.null))

/-- `SELECT cols FROM table WHERE where_ [LIMIT n]`. -/
def Engine.select (E : Engine) (db : DB) (cols : List String) (table : String)
    (where_ : List String) (limit : Option Nat) : Except Error (List Row) :=
  match db.lookup table with
  | none => .error (.engine ("no such table: " ++ table))
  | some t =>
    if cols = [] then .error (.engine "syntax error")
    else
      match cols.find? (fun c => !t.columns.contains c) with
      | some c => .error (.engine ("no such column: " ++ c))
      | none =>
        let hits := t.rows.filter (E.satisfies where_)
        let hits := match limit with
          | some n => hits.take n
          | none => hits
        .ok (hits.map (project cols))

/-- The integer values a column takes in the stored rows. -/
def intValues (rows : List Row) (c : String) : List Int :=
  rows.filterMap (fun r => match r.lookup c with
    | some (Value.int i) => some i
    | _ => none)

/-- The next automatic row id: one more than the largest in use. -/
def nextId (t : TableData) : Int :=
  match t.primaryKey with
  | some k => (intValues t.rows k).foldl max 0 + 1
  | none => (t.rows.length : Int) + 1

/-- The row an `INSERT` with the given columns and values stores: the first
value given for a column, an automatic id for an integer primary key left out
or null, null for any other column left out. -/
def newRow (t : TableData) (given : List (String × Value)) : Row :=
  t.columns.map (fun c =>
    match given.lookup c with
    | some v =>
        if t.primaryKey = some c ∧ v = Value.null then (c, Value.int (nextId t)) else (c, v)
    | none =>
        if t.primaryKey = some c then (c, Value.int (nextId t)) else (c, Value.null))

/-- The row id of a freshly built row. -/
def rowIdOf (t : TableData) (r : Row) : Int :=
  match t.primaryKey with
  | some k =>
      match r.lookup k with
      | some (Value.int i) => i
      | _ => nextId t
  | none => nextId t

/-- `INSERT INTO table (cols) VALUES (vals)`; returns the last insert id. -/
def Engine.insert (db : DB) (table : String) (cols : List String) (vals : List Value) :
    Except Error (Int × DB) :=
  match db.lookup table with
  | none => .error (.engine ("no such table: " ++ table))
  | some t =>
    match cols.find? (fun c => !t.columns.contains c) with
    | some c => .error (.engine ("table " ++ table ++ " has no column named " ++ c))
    | none =>
      let r := newRow t (cols.zip vals)
      match t.primaryKey with
      | some k =>
          match r.lookup k with
          | some (Value.int i) =>
              if (intValues t.rows k).contains i then
                .error (.engine ("UNIQUE constraint failed: " ++ table ++ "." ++ k))
              else .ok (i, db.put table { t with rows := t.rows ++ [r] })
          | _ => .error (.engine "datatype mismatch")
      | none => .ok (rowIdOf t r, db.put table { t with rows := t.rows ++ [r] })

/-- The row after `SET c1 = v1, ..., cn = vn`; for a column assigned more than
once the last assignment stands. -/
def assignRow (assigns : List (String × Value)) (r : Row) : Row :=
  r.map (fun cv =>
    match assigns.reverse.lookup cv.1 with
    | some v => (cv.1, v)
    | none => cv)

/-- `UPDATE table SET assigns WHERE where_`; returns the rows affected. -/
def Engine.update (E : Engine) (db : DB) (table : String) (assigns : List (String × Value))
    (where_ : List String) : Except Error (Int × DB) :=
  match db.lookup table with
  | none => .error (.engine ("no such table: " ++ table))
  | some t =>
    match assigns.find? (fun a => !t.columns.contains a.1) with
    | some a => .error (.engine ("no such column: " ++ a.1))
    | none =>
      let rows1 := t.rows.map (fun r => if E.satisfies where_ r then assignRow assigns r else r)
      .ok (((t.rows.filter (E.satisfies where_)).length : Int),
           db.put table { t with rows := rows1 })

/-- `CREATE TABLE [IF NOT EXISTS] table (defs)`. -/
def Engine.createTable (db : DB) (table : String) (defs : List (List String))
    (ifNotExists : Bool) : Except Error DB :=
  match db.lookup table with
  | some _ =>
      if ifNotExists then .ok db
      else .error (.engine ("table " ++ table ++ " already exists"))
  | none => .ok (db ++ [(table, { Definitions := defs, rows := [] })])

/-! ## The SQLite-backed store (`sqlite3_store.go`) -/

/-- A `sqlite3Store`: its id and the database its connection reaches.  Every
store owns its database, as with the `:memory:` data source of the tests. -/
structure sqlite3Store where
  id : Int
  db : DB
  deriving DecidableEq, Repr

/-- `NewSQLite3Store`; `sqlOpen` is `sql.Open("sqlite3", ·)`: an error, or the
database found at the data source. -/
def NewSQLite3Store (sqlOpen : String → Except Error DB) (dataSource : String) (id : Int) :
    Except Error sqlite3Store :=
  match sqlOpen dataSource with
  | .error err => .error err
  | .ok db => .ok { id := id, db := db }

def sqlite3Store.ID (s : sqlite3Store) : Int := s.id

/-- `sqlite3Store.Query`. -/
def sqlite3Store.Query (E : Engine) (s : sqlite3Store) (opts : QueryOptions) :
    Except Error QueryResult :=
  match opts.Validate with
  | some err => .error err
  | none =>
    E.select s.db opts.IncludeColumns opts.TableName opts.Where
      (if opts.Limit > 0 then some opts.Limit.toNat else none)

/-- `sqlite3Store.Exec`.  The last branch is the `switch` falling through with
an empty statement; `Validate` has excluded it. -/
def sqlite3Store.Exec (E : Engine) (s : sqlite3Store) (opts : ExecOptions) :
    Except Error ExecResult × sqlite3Store :=
  match opts.Validate with
  | some err => (.error err, s)
  | none =>
    if opts.Type_ = ExecTypeInsert then
      match Engine.insert s.db opts.TableName (opts.Values.map (·.Name))
          (opts.Values.map (·.Value)) with
      | .error err => (.error err, s)
      | .ok (lastInsertId, db1) =>
          (.ok { LastInsertId := lastInsertId, RowsAffected := 0 }, { s with db := db1 })
    else if opts.Type_ = ExecTypeUpdate then
      match E.update s.db opts.TableName (opts.Values.map (fun v => (v.Name, v.Value)))
          opts.Where with
      | .error err => (.error err, s)
      | .ok (rowsAffected, db1) =>
          (.ok { LastInsertId := 0, RowsAffected := rowsAffected }, { s with db := db1 })
    else (.ok { LastInsertId := 0, RowsAffected := 0 }, s)

/-- `sqlite3Store.CreateTable`; `none` is Go's `nil` error. -/
def sqlite3Store.CreateTable (s : sqlite3Store) (opts : CreateTableOptions) :
    Option Error × sqlite3Store :=
  match opts.Validate with
  | some err => (some err, s)
  | none =>
    match Engine.createTable s.db opts.TableName opts.Definitions opts.IfNotExists with
    | .error err => (some err, s)
    | .ok db1 => (none, { s with db := db1 })

/-! ## The store factory (`user_store_factory.go`) -/

/-- Go `m[k]` on a map kept as an association list. -/
def mapGet {α : Type} : List (Int × α) → Int → Option α
  | [], _ => none
  | (k, v) :: rest, key => if k = key then some v else mapGet rest key

/-- Go `m[k] = v`: replace the entry under `k`, or add one. -/
def mapSet {α : Type} : List (Int × α) → Int → α → List (Int × α)
  | [], key, v => [(key, v)]
  | (k, w) :: rest, key, v =>
      if k = key then (k, v) :: rest else (k, w) :: mapSet rest key v

/-- The factory: its cache `stores`.  The mutex is not modelled; calls are
taken one at a time. -/
structure userStoreFactory where
  stores : List (Int × sqlite3Store)
  deriving DecidableEq, Repr

def NewUserStoreFactory : userStoreFactory := { stores := [] }

/-- `userStoreFactory.New`; `now` is the reading `time.Now().UnixNano()` gives
during the call. -/
def userStoreFactory.New (sqlOpen : String → Except Error DB) (f : userStoreFactory)
    (opts : UserStoreOptions) (now : Int) : Except Error sqlite3Store × userStoreFactory :=
  match mapGet f.stores opts.ID with
  | some us => (.ok us, f)
  | none =>
    match NewSQLite3Store sqlOpen opts.DataSource now with
    | .error err => (.error err, f)
    | .ok us => (.ok us, { stores := mapSet f.stores us.ID us })

/-- The `*sqlite3Store` the factory returns, seen through interface `UserStore`.
The pointer is the cache entry under `key`: what `Exec` does to the store is
seen by every later holder of that entry. -/
def sqlite3Store.handle (E : Engine) (key : Int) (us : sqlite3Store) :
    UserStore userStoreFactory :=
  { ID := us.ID
    Query := fun opts f => (us.Query E opts, f)
    Exec := fun opts f =>
      ((us.Exec E opts).1, { stores := mapSet f.stores key (us.Exec E opts).2 }) }

/-- The cache entry a backend returned by `New` is: the one under the requested
id on a hit, the one under the backend's own id on a miss. -/
def cacheKey (f : userStoreFactory) (id : Int) (us : sqlite3Store) : Int :=
  if (mapGet f.stores id).isSome then id else us.ID

/-- The factory seen through interface `UserStoreFactory`, during a request in
which the clock reads `now`. -/
def userStoreFactory.asFactory (E : Engine) (sqlOpen : String → Except Error DB) (now : Int) :
    UserStoreFactory userStoreFactory :=
  { New := fun opts f =>
      match userStoreFactory.New sqlOpen f opts now with
      | (.error err, f1) => (.error err, f1)
      | (.ok us, f1) =>
          (.ok (sqlite3Store.handle E (cacheKey f opts.ID us) us), f1) }

/-! ## The metadata store (`admin_store.go`) -/

/-- The `adminStore`: its catalog store and the data source for user stores.
The factory it shares with the delegation layer is passed where it is used. -/
structure adminStore where
  userStoreDataSource : String
  store : sqlite3Store
  deriving DecidableEq, Repr

/-- `fmt.Sprintf("name = '%s'", name)`. -/
def nameEquals (name : String) : String := "name = '" ++ name ++ "'"

/-- `fmt.Sprintf("token = '%s'", token)`. -/
def tokenEquals (token : String) : String := "token = '" ++ token ++ "'"

/-- `fmt.Sprintf("user_id = %d", id)`. -/
def userIdEquals (id : Int) : String := "user_id = " ++ toString id

/-- `adminStore.AddUser`; `token` is the value `xid.New().String()` yields
during the call. -/
def adminStore.AddUser (E : Engine) (s : adminStore) (userName : String) (token : String) :
    Except Error String × adminStore :=
  match s.store.Query E
      { TableName := global_users, IncludeColumns := ["name", "token"],
        Where := [nameEquals userName], Limit := 1 } with
  | .error err => (.error err, s)
  | .ok res =>
    if res.length = 1 then
      match res.head?.bind (fun r => r.lookup "token") with
      | some (Value.text t) => (.ok t, s)
      | _ => (.error (.typeAssertion "token is not a string"), s)
    else
      match s.store.Exec E
          { Type_ := ExecTypeInsert, TableName := global_users,
            Values := [{ Name := "name", Value := .text userName },
                       { Name := "token", Value := .text token }],
            Where := [] } with
      | (.error err, st) => (.error err, { s with store := st })
      | (.ok _, st) => (.ok token, { s with store := st })

/-- `adminStore.GetUser`. -/
def adminStore.GetUser (E : Engine) (s : adminStore) (token : String) : Except Error User :=
  match s.store.Query E
      { TableName := global_users, IncludeColumns := ["token", "id", "name"],
        Where := [tokenEquals token], Limit := 1 } with
  | .error err => .error err
  | .ok [] => .error (.errorf ("user with token '" ++ token ++ "' not found"))
  | .ok (r :: _) =>
    match r.lookup "id", r.lookup "name" with
    | some (Value.int id), some (Value.text name) => .ok { ID := id, UserName := name }
    | _, _ => .error (.typeAssertion "id is not an int64 or name is not a string")

/-- `adminStore.GetTable`. -/
def adminStore.GetTable (E : Engine) (s : adminStore) (tableName : String) :
    Except Error Table :=
  match s.store.Query E
      { TableName := global_tables_table, IncludeColumns := ["id", "name", "store_id"],
        Where := [nameEquals tableName], Limit := 1 } with
  | .error err => .error err
  | .ok [] => .error (.errorf ("table with name '" ++ tableName ++ "' not found"))
  | .ok (r :: _) =>
    match r.lookup "id", r.lookup "name", r.lookup "store_id" with
    | some (Value.int id), some (Value.text name), some (Value.int storeID) =>
        .ok { ID := id, Name := name, StoreID := storeID }
    | _, _, _ => .error (.typeAssertion "id, name or store_id has an unexpected type")

/-- The loop building `ret` in `GetPermissionsForToken`. -/
def toTablePermissions : List Row → Except Error (List TablePermission)
  | [] => .ok []
  | rec :: rest =>
    match rec.lookup "table_name", rec.lookup "permission" with
    | some (Value.text t), some (Value.text p) =>
        match toTablePermissions rest with
        | .error err => .error err
        | .ok ret => .ok ({ TableName := t, Permission := p } :: ret)
    | _, _ => .error (.typeAssertion "table_name or permission is not a string")

/-- `adminStore.GetPermissionsForToken`. -/
def adminStore.GetPermissionsForToken (E : Engine) (s : adminStore) (token : String) :
    Except Error (List TablePermission) :=
  match s.GetUser E token with
  | .error err => .error err
  | .ok user =>
    match s.store.Query E
        { TableName := global_user_table_permission,
          IncludeColumns := ["user_id", "table_name", "permission"],
          Where := [userIdEquals user.ID], Limit := 0 } with
    | .error err => .error err
    | .ok res => toTablePermissions res

/-- `fmt.Sprintf("table_name = '%s'", tableName)`. -/
def tableNameEquals (tableName : String) : String := "table_name = '" ++ tableName ++ "'"

/-- `fmt.Sprintf("permission = '%s'", permission)`. -/
def permissionEquals (permission : String) : String := "permission = '" ++ permission ++ "'"

/-- The error `AddPermission` returns for a permission outside
`defaultPermissions`. -/
def invalidPermission (permission : String) : Error :=
  .errorf ("invalid permission " ++ permission ++ ". should be one of '" ++
    ",".intercalate defaultPermissions ++ "'")

/-- `adminStore.AddPermission`; `none` is Go's `nil` error. -/
def adminStore.AddPermission (E : Engine) (s : adminStore) (userID : Int)
    (tableName permission : String) : Option Error × adminStore :=
  if !defaultPermissions.contains permission then (some (invalidPermission permission), s)
  else
    match s.store.Query E
        { TableName := global_user_table_permission,
          IncludeColumns := ["user_id", "table_name", "permission"],
          Where := [userIdEquals userID, tableNameEquals tableName,
                    permissionEquals permission],
          Limit := 1 } with
    | .error err => (some err, s)
    | .ok res =>
      if res.length = 1 then (none, s)
      else
        match s.store.Exec E
            { Type_ := ExecTypeInsert, TableName := global_user_table_permission,
              Values := [{ Name := "user_id", Value := .int userID },
                         { Name := "table_name", Value := .text tableName },
                         { Name := "permission", Value := .text permission }],
              Where := [] } with
        | (.error err, st) => (some err, { s with store := st })
        | (.ok _, st) => (none, { s with store := st })

/-- A call `adminStore.CreateTable` makes on a collaborator, with the argument
it passes. -/
inductive AdminCall where
  /-- `s.usf.New(ctx, opts)` -/
  | New (opts : UserStoreOptions)
  /-- `ustc.CreateTable(ctx, opts)` on the backend whose `ID()` is `storeID` -/
  | CreateTable (storeID : Int) (opts : CreateTableOptions)
  /-- `s.store.Exec(ctx, opts)` on the catalog store -/
  | Exec (opts : ExecOptions)
  deriving DecidableEq, Repr

/-- What `adminStore.CreateTable` leaves behind: the error returned (`none` is
`nil`), the metadata store, the factory, and the calls made, in order. -/
structure CreateTableOutcome where
  err : Option Error
  as : adminStore
  usf : userStoreFactory
  calls : List AdminCall
  deriving DecidableEq, Repr

/-- `adminStore.CreateTable`, with the factory `NewUserStoreFactory` builds: its
stores are `*sqlite3Store`, so the assertion `us.(UserTableCreatorStore)`
holds.  The backend is the cache entry under `cacheKey`; the table it gains is
written there.  `now` is the clock reading during the call. -/
def adminStore.CreateTable (E : Engine) (sqlOpen : String → Except Error DB) (s : adminStore)
    (f : userStoreFactory) (opts : CreateTableOptions) (now : Int) : CreateTableOutcome :=
  let fo : UserStoreOptions := { DataSource := s.userStoreDataSource, ID := 0 }
  match userStoreFactory.New sqlOpen f fo now with
  | (.error err, f1) => ⟨some err, s, f1, [.New fo]⟩
  | (.ok us, f1) =>
    let opts1 : CreateTableOptions :=
      { opts with Definitions := opts.Definitions ++ [["created_by", "integer"]] }
    match us.CreateTable opts1 with
    | (some err, us1) =>
        ⟨some err, s, { stores := mapSet f1.stores (cacheKey f 0 us) us1 },
          [.New fo, .CreateTable us.ID opts1]⟩
    | (none, us1) =>
      let eo : ExecOptions :=
        { Type_ := ExecTypeInsert, TableName := global_tables_table,
          Values := [{ Name := "name", Value := .text opts1.TableName },
                     { Name := "store_id", Value := .int us.ID }],
          Where := [] }
      ⟨match (s.store.Exec E eo).1 with
        | .error err => some err
        | .ok _ => none,
       { s with store := (s.store.Exec E eo).2 },
       { stores := mapSet f1.stores (cacheKey f 0 us) us1 },
       [.New fo, .CreateTable us.ID opts1, .Exec eo]⟩

/-- The loop of `init` over `defaultPermissions`: look the name up, insert it
when the lookup does not return one row. -/
def seedPermissions (E : Engine) : sqlite3Store → List String → Option Error × sqlite3Store
  | st, [] => (none, st)
  | st, perm :: rest =>
    match st.Query E
        { TableName := global_permissions, IncludeColumns := ["name"],
          Where := [nameEquals perm], Limit := 1 } with
    | .error err => (some err, st)
    | .ok res =>
      if res.length = 1 then seedPermissions E st rest
      else
        match st.Exec E
            { Type_ := ExecTypeInsert, TableName := global_permissions,
              Values := [{ Name := "name", Value := .text perm }], Where := [] } with
        | (.error err, st1) => (some err, st1)
        | (.ok _, st1) => seedPermissions E st1 rest

/-- `adminStore.init`; `none` is Go's `nil` error. -/
def adminStore.init (E : Engine) (s : adminStore) : Option Error × adminStore :=
  match s.store.CreateTable
      { TableName := global_tables_table,
        Definitions := [["id", "integer", "not null", "primary key"],
                        ["name", "text", "not null"], ["store_id", "integer", "not null"]],
        IfNotExists := true } with
  | (some err, st) => (some err, { s with store := st })
  | (none, st1) =>
    match st1.CreateTable
        { TableName := global_permissions,
          Definitions := [["name", "text", "primary key", "not null"]],
          IfNotExists := true } with
    | (some err, st) => (some err, { s with store := st })
    | (none, st2) =>
      match seedPermissions E st2 defaultPermissions with
      | (some err, st) => (some err, { s with store := st })
      | (none, st3) =>
        match st3.CreateTable
            { TableName := global_users,
              Definitions := [["id", "integer", "not null", "primary key"],
                              ["name", "text"], ["token", "text", "not null"]],
              IfNotExists := true } with
        | (some err, st) => (some err, { s with store := st })
        | (none, st4) =>
          match st4.CreateTable
              { TableName := global_user_table_permission,
                Definitions := [["user_id", "integer", "not null"],
                                ["table_name", "text", "not null"],
                                ["permission", "text", "not null"]],
                IfNotExists := true } with
          | (some err, st) => (some err, { s with store := st })
          | (none, st5) => (none, { s with store := st5 })

/-- `NewAdminStore`; `now` is the clock reading that becomes the catalog
store's id. -/
def NewAdminStore (E : Engine) (sqlOpen : String → Except Error DB)
    (adminDataSource userStoreDataSource : String) (now : Int) : Except Error adminStore :=
  match NewSQLite3Store sqlOpen adminDataSource now with
  | .error err => .error err
  | .ok store =>
    match adminStore.init E { userStoreDataSource := userStoreDataSource, store := store } with
    | (some err, _) => .error err
    | (none, as) => .ok as

/-- The metadata store seen through interface `AdminStore`. -/
def adminStore.asAdminStore (E : Engine) (s : adminStore) : AdminStore :=
  { GetTable := s.GetTable E
    GetUser := s.GetUser E
    GetPermissionsForToken := s.GetPermissionsForToken E }

/-! ## Vocabulary of the statements -/

/-- For the request at hand the token resolves to `user`, the table name
resolves to `table`, and `tablePerms` are the user's grants whose table name
equals the requested table. -/
def delegatedStore.Resolves {σ : Type} (s : delegatedStore σ) (tableName : String)
    (user : User) (table : Table) (tablePerms : List String) : Prop :=
  s.as.GetUser s.uo.Token = .ok user ∧ s.as.GetTable tableName = .ok table ∧
  ∃ perms, s.as.GetPermissionsForToken s.uo.Token = .ok perms ∧
    tablePermsOf perms tableName = tablePerms

/-- Among the grants `perms`, one is a grant of `permission` on the table
`tableName`. -/
def granted (perms : List TablePermission) (tableName permission : String) : Prop :=
  ∃ g ∈ perms, g.TableName = tableName ∧ g.Permission = permission

instance instDecidableGranted (perms : List TablePermission) (tableName permission : String) :
    Decidable (granted perms tableName permission) :=
  inferInstanceAs
    (Decidable (∃ g ∈ perms, g.TableName = tableName ∧ g.Permission = permission))

/-- For the request at hand the three lookups answer: the token is the token
of `user`, the table name is the name of `table`, and `perms` are all the
grants of the token, on whatever table. -/
def delegatedStore.Finds {σ : Type} (s : delegatedStore σ) (tableName : String)
    (user : User) (table : Table) (perms : List TablePermission) : Prop :=
  s.as.GetUser s.uo.Token = .ok user ∧ s.as.GetTable tableName = .ok table ∧
  s.as.GetPermissionsForToken s.uo.Token = .ok perms

/-- The column definitions `adminStore.init` gives the users catalog. -/
def usersDefinitions : List (List String) :=
  [["id", "integer", "not null", "primary key"], ["name", "text"], ["token", "text", "not null"]]

/-- The rows of the users catalog whose name is `n`. -/
def usersNamed (s : adminStore) (n : String) : List Row :=
  match s.store.db.lookup global_users with
  | some t => t.rows.filter (fun r => decide (r.lookup "name" = some (Value.text n)))
  | none => []

/-- The column definitions `adminStore.init` gives the tables catalog. -/
def tablesDefinitions : List (List String) :=
  [["id", "integer", "not null", "primary key"], ["name", "text", "not null"],
   ["store_id", "integer", "not null"]]

/-- The column definitions `adminStore.init` gives the grant catalog. -/
def grantsDefinitions : List (List String) :=
  [["user_id", "integer", "not null"], ["table_name", "text", "not null"],
   ["permission", "text", "not null"]]

/-- The rows of a catalog table of the metadata store (none when the table is
missing). -/
def catalogRows (s : adminStore) (table : String) : List Row :=
  match s.store.db.lookup table with
  | some t => t.rows
  | none => []

/-- The row carries the grant `(userID, tableName, permission)`. -/
def isGrant (userID : Int) (tableName permission : String) (r : Row) : Bool :=
  decide (r.lookup "user_id" = some (Value.int userID)) &&
  decide (r.lookup "table_name" = some (Value.text tableName)) &&
  decide (r.lookup "permission" = some (Value.text permission))

/-- The rows of the grant catalog that carry the given grant. -/
def grantsOf (s : adminStore) (userID : Int) (tableName permission : String) : List Row :=
  (catalogRows s global_user_table_permission).filter (isGrant userID tableName permission)

/-- The rows of the tables catalog whose name is `n`. -/
def tablesNamed (s : adminStore) (n : String) : List Row :=
  (catalogRows s global_tables_table).filter
    (fun r => decide (r.lookup "name" = some (Value.text n)))

/-- The argument of the factory call `adminStore.CreateTable` makes: the
configured data source and Go's zero id. -/
def createOptions (s : adminStore) : UserStoreOptions :=
  { DataSource := s.userStoreDataSource, ID := 0 }

/-- The request `adminStore.CreateTable` hands to the backend. -/
def withCreatedBy (opts : CreateTableOptions) : CreateTableOptions :=
  { TableName := opts.TableName
    Definitions := opts.Definitions ++ [["created_by", "integer"]]
    IfNotExists := opts.IfNotExists }

/-- A sequence of `adminStore.CreateTable` calls, each with the clock reading
during it; a call that returns an error does not stop the sequence. -/
def runCreateTable (E : Engine) (sqlOpen : String → Except Error DB) :
    adminStore × userStoreFactory → List (CreateTableOptions × Int) →
      adminStore × userStoreFactory
  | st, [] => st
  | st, (opts, now) :: rest =>
      runCreateTable E sqlOpen
        ((adminStore.CreateTable E sqlOpen st.1 st.2 opts now).as,
         (adminStore.CreateTable E sqlOpen st.1 st.2 opts now).usf) rest

/-- A sequence of `userStoreFactory.New` calls, each with the clock reading
during it. -/
def runNew (sqlOpen : String → Except Error DB) :
    userStoreFactory → List (UserStoreOptions × Int) → userStoreFactory
  | f, [] => f
  | f, (opts, now) :: rest => runNew sqlOpen (userStoreFactory.New sqlOpen f opts now).2 rest

/-- Along the sequence, every clock reading taken on a cache miss is an id the
cache does not hold yet. -/
def ClockFresh (sqlOpen : String → Except Error DB) :
    userStoreFactory → List (UserStoreOptions × Int) → Prop
  | _, [] => True
  | f, (opts, now) :: rest =>
      (mapGet f.stores opts.ID = none → mapGet f.stores now = none) ∧
      ClockFresh sqlOpen (userStoreFactory.New sqlOpen f opts now).2 rest

/-- Every cache entry sits under the id of its store, as `New` files it. -/
def WellKeyed (f : userStoreFactory) : Prop :=
  ∀ k us, mapGet f.stores k = some us → us.ID = k

/-- The database after `CREATE TABLE IF NOT EXISTS`: as it was when it holds the
table, with the empty table added otherwise. -/
def DB.ensure (db : DB) (table : String) (defs : List (List String)) : DB :=
  match db.lookup table with
  | some _ => db
  | none => db ++ [(table, { Definitions := defs, rows := [] })]

/-- The cell of the row under the column is a string. -/
def textAt (r : Row) (c : String) : Bool :=
  match r.lookup c with
  | some (Value.text _) => true
  | _ => false

/-- The column definitions `adminStore.init` gives the permissions catalog. -/
def permissionsDefinitions : List (List String) :=
  [["name", "text", "primary key", "not null"]]

/-- The row the seeding loop of `init` stores for a permission name. -/
def seedRow (p : String) : Row := [("name", .text p)]

/-- The rows of the permissions catalog whose name is `p`. -/
def permissionsNamed (s : adminStore) (p : String) : List Row :=
  (catalogRows s global_permissions).filter
    (fun r => decide (r.lookup "name" = some (Value.text p)))

/-- The rows of the grant catalog whose `user_id` is `userID`. -/
def grantsOfUser (s : adminStore) (userID : Int) : List Row :=
  (catalogRows s global_user_table_permission).filter
    (fun r => decide (r.lookup "user_id" = some (Value.int userID)))

/-- The grant row carries the pair `tp`: its table name and its permission. -/
def carries (r : Row) (tp : TablePermission) : Prop :=
  r.lookup "table_name" = some (Value.text tp.TableName) ∧
  r.lookup "permission" = some (Value.text tp.Permission)

/-- The error is one `fmt.Errorf` built without wrapping. -/
def Error.isErrorf : Error → Bool
  | .errorf _ => true
  | _ => false

/-- The delegation layer over the metadata lookups `as` and the SQLite-backed
factory, acting for the holder of `token` while the clock reads `now`. -/
def delegatedOver (E : Engine) (sqlOpen : String → Except Error DB) (now : Int)
    (as : AdminStore) (token : String) : delegatedStore userStoreFactory :=
  (NewDelegatedStore as (userStoreFactory.asFactory E sqlOpen now)).AsUser { Token := token }

/-- The argument of the factory call for a table: its recorded store id and no
data source. -/
def factoryOptions (table : Table) : UserStoreOptions :=
  { DataSource := "", ID := table.StoreID }

/-! ## Fixtures for the worked examples -/

/-- A token of a where text. -/
inductive Token where
  | name (s : String)
  | text (s : String)
  | number (i : Int)
  | equals
  | and
  | or
  deriving DecidableEq, Repr

/-- Where the reader of a where text stands: between tokens, in a name, in a
number, in a quoted string, or right after a quote met inside a string. -/
inductive Reading where
  | between
  | inName (seen : List Char)
  | inNumber (negative : Bool) (seen : List Char)
  | inText (seen : List Char)
  | afterQuote (seen : List Char)
  deriving DecidableEq, Repr

/-- The single quote that opens and closes a string. -/
def quote : Char := Char.ofNat 39

def isNameStart (c : Char) : Bool :=
  (97 ≤ c.toNat && c.toNat ≤ 122) || (65 ≤ c.toNat && c.toNat ≤ 90) || c.toNat = 95

def isDigit (c : Char) : Bool := 48 ≤ c.toNat && c.toNat ≤ 57

def isNameChar (c : Char) : Bool := isNameStart c || isDigit c

def upper (c : Char) : Char :=
  if 97 ≤ c.toNat && c.toNat ≤ 122 then Char.ofNat (c.toNat - 32) else c

/-- A finished word: one of the keywords `AND`, `OR` in any case, or a name. -/
def wordToken (seen : List Char) : Token :=
  if String.mk (seen.reverse.map upper) = "AND" then .and
  else if String.mk (seen.reverse.map upper) = "OR" then .or
  else .name (String.mk seen.reverse)

def numberToken (negative : Bool) (seen : List Char) : Token :=
  .number
    (if negative then - ((seen.reverse.foldl (fun n c => 10 * n + (c.toNat - 48)) 0 : Nat) : Int)
     else ((seen.reverse.foldl (fun n c => 10 * n + (c.toNat - 48)) 0 : Nat) : Int))

/-- One character read while between tokens; `none` for a character no token
starts with. -/
def stepBetween (c : Char) : Option (List Token × Reading) :=
  if c = ' ' then some ([], .between)
  else if c = '=' then some ([.equals], .between)
  else if c = quote then some ([], .inText [])
  else if c = '-' then some ([], .inNumber true [])
  else if isDigit c then some ([], .inNumber false [c])
  else if isNameStart c then some ([], .inName [c])
  else none

/-- One character read: the tokens it completes and where the reader stands
next.  Inside a string two quotes in a row stand for one quote. -/
def step : Reading → Char → Option (List Token × Reading)
  | .between, c => stepBetween c
  | .inName seen, c =>
      if isNameChar c then some ([], .inName (c :: seen))
      else (stepBetween c).map (fun p => (wordToken seen :: p.1, p.2))
  | .inNumber negative seen, c =>
      if isDigit c then some ([], .inNumber negative (c :: seen))
      else if seen = [] ∨ isNameStart c then none
      else (stepBetween c).map (fun p => (numberToken negative seen :: p.1, p.2))
  | .inText seen, c =>
      if c = quote then some ([], .afterQuote seen) else some ([], .inText (c :: seen))
  | .afterQuote seen, c =>
      if c = quote then some ([], .inText (c :: seen))
      else if isNameChar c then none
      else (stepBetween c).map (fun p => (.text (String.mk seen.reverse) :: p.1, p.2))

/-- The end of the text: a string still open is an error. -/
def finish : Reading → Option (List Token)
  | .between => some []
  | .inName seen => some [wordToken seen]
  | .inNumber negative seen => if seen = [] then none else some [numberToken negative seen]
  | .inText _ => none
  | .afterQuote seen => some [.text (String.mk seen.reverse)]

/-- The tokens of a text, `none` when it has none. -/
def tokens : Reading → List Char → Option (List Token)
  | rd, [] => finish rd
  | rd, c :: cs =>
      match step rd c with
      | none => none
      | some (out, rd1) =>
          match tokens rd1 cs with
          | none => none
          | some rest => some (out ++ rest)

/-- The stretches of tokens between the occurrences of `sep`. -/
def splitAtToken (sep : Token) : List Token → List (List Token)
  | [] => [[]]
  | t :: ts =>
      if t = sep then [] :: splitAtToken sep ts
      else
        match splitAtToken sep ts with
        | [] => [[t]]
        | g :: gs => (t :: g) :: gs

/-- The value of an operand on a row: the cell of a column, or a literal. -/
def operand (r : Row) : Token → Option Value
  | .name c => some ((r.lookup c).getD Value.null)
  | .text s => some (.text s)
  | .number i => some (.int i)
  | _ => none

/-- `<operand> = <operand>` holds when both sides are the same non-null
value. -/
def comparisonHolds (r : Row) : List Token → Bool
  | [a, .equals, b] =>
      match operand r a, operand r b with
      | some x, some y => decide (x ≠ Value.null) && decide (x = y)
      | _, _ => false
  | _ => false

/-- A where text read as SQL reads it: comparisons joined by `AND` and `OR`,
`AND` binding tighter than `OR`. -/
def textHolds (w : String) (r : Row) : Bool :=
  match tokens .between w.data with
  | none => false
  | some ts =>
      (splitAtToken .or ts).any (fun conj => (splitAtToken .and conj).all (comparisonHolds r))

/-- An engine for the examples.  It reads where texts made of comparisons
`<operand> = <operand>` joined by `AND` and `OR`; an operand is a column name, a
quoted string or an integer.  The examples use no other text; on one it says
that no row matches. -/
def eqEngine : Engine := { holds := textHolds }

/-- The user table of the tests, `foo(id, name)` with the system column
`created_by`, holding one row of user 1 and one row of user 2. -/
def fooTable : TableData :=
  { Definitions := [["id", "integer", "not null", "primary key"], ["name", "text"],
                    ["created_by", "integer"]]
    rows := [[("id", .int 1), ("name", .text "test1"), ("created_by", .int 1)],
             [("id", .int 2), ("name", .text "test2"), ("created_by", .int 2)]] }

/-- A backend with id 7 holding `foo`. -/
def fooStore : sqlite3Store := { id := 7, db := [("foo", fooTable)] }

/-- A factory whose cache holds `fooStore`. -/
def fooFactory : userStoreFactory := { stores := [(7, fooStore)] }

/-- A catalog: table `foo` on backend 7; users 1 and 2 with tokens `t1`, `t2`;
user 1 holds both restricted grants on `foo`, user 2 holds both unrestricted
grants. -/
def fooCatalog : adminStore :=
  { userStoreDataSource := ":memory:"
    store :=
      { id := 3
        db :=
          [(global_tables_table,
            { Definitions := [["id", "integer", "not null", "primary key"],
                              ["name", "text", "not null"], ["store_id", "integer", "not null"]]
              rows := [[("id", .int 1), ("name", .text "foo"), ("store_id", .int 7)]] }),
           (global_users,
            { Definitions := [["id", "integer", "not null", "primary key"], ["name", "text"],
                              ["token", "text", "not null"]]
              rows := [[("id", .int 1), ("name", .text "u1"), ("token", .text "t1")],
                       [("id", .int 2), ("name", .text "u2"), ("token", .text "t2")]] }),
           (global_user_table_permission,
            { Definitions := [["user_id", "integer", "not null"], ["table_name", "text", "not null"],
                              ["permission", "text", "not null"]]
              rows := [[("user_id", .int 1), ("table_name", .text "foo"),
                        ("permission", .text "WRITE_RESTRICTED")],
                       [("user_id", .int 1), ("table_name", .text "foo"),
                        ("permission", .text "READ_RESTRICTED")],
                       [("user_id", .int 2), ("table_name", .text "foo"),
                        ("permission", .text "WRITE_ALL")],
                       [("user_id", .int 2), ("table_name", .text "foo"),
                        ("permission", .text "READ_ALL")]] })] } }

/-- `sql.Open` for the examples: every data source opens an empty database. -/
def openEmpty : String → Except Error DB := fun _ => .ok []

/-- The delegation layer of the examples, acting for the holder of `token`. -/
def fooDelegated (token : String) : delegatedStore userStoreFactory :=
  (NewDelegatedStore (fooCatalog.asAdminStore eqEngine)
    (userStoreFactory.asFactory eqEngine openEmpty 99)).AsUser { Token := token }

/-- `sql.Open` failing on every data source. -/
def openFailing : String → Except Error DB :=
  fun _ => .error (.engine "unable to open database file")

/-- The catalog `init` leaves on an empty database: the four catalog tables and
the four permission names. -/
def emptyCatalog : adminStore :=
  (adminStore.init eqEngine
    { userStoreDataSource := ":memory:", store := { id := 3, db := [] } }).2

/-- The table creation of the tests. -/
def fooCreate : CreateTableOptions :=
  { TableName := "foo"
    Definitions := [["id", "integer", "not null", "primary key"], ["name", "text"]]
    IfNotExists := false }

/-- A catalog store an interrupted `init` left behind: the tables catalog, and
the permissions catalog holding two of the four names. -/
def halfCatalog : adminStore :=
  { userStoreDataSource := ":memory:"
    store :=
      { id := 3
        db :=
          [(global_tables_table, { Definitions := tablesDefinitions, rows := [] }),
           (global_permissions,
            { Definitions := permissionsDefinitions
              rows := [seedRow READ_ALL_PERMISSION, seedRow WRITE_ALL_PERMISSION] })] } }

/-- A catalog with grants on two tables: user 1 (token `t1`) holds READ_ALL on
`foo` and WRITE_RESTRICTED on `bar`, user 2 (token `t2`) holds WRITE_ALL on
`foo`. -/
def mixedCatalog : adminStore :=
  { userStoreDataSource := ":memory:"
    store :=
      { id := 3
        db :=
          [(global_users,
            { Definitions := usersDefinitions
              rows := [[("id", .int 1), ("name", .text "u1"), ("token", .text "t1")],
                       [("id", .int 2), ("name", .text "u2"), ("token", .text "t2")]] }),
           (global_user_table_permission,
            { Definitions := grantsDefinitions
              rows := [[("user_id", .int 1), ("table_name", .text "foo"),
                        ("permission", .text "READ_ALL")],
                       [("user_id", .int 2), ("table_name", .text "foo"),
                        ("permission", .text "WRITE_ALL")],
                       [("user_id", .int 1), ("table_name", .text "bar"),
                        ("permission", .text "WRITE_RESTRICTED")]] })] } }

/-- A catalog with two tables on backend 7 and five users, tokens `t3` to `t7`:
user 3 holds the restricted grants on `foo` and the unrestricted ones on `bar`;
user 4 holds grants on `bar` only; user 5 holds WRITE_ALL on `foo` and nothing
to read it; user 6 holds READ_ALL on `foo` and nothing to write it; user 7
holds all four grants on `foo`. -/
def sharedCatalog : adminStore :=
  { userStoreDataSource := ":memory:"
    store :=
      { id := 3
        db :=
          [(global_tables_table,
            { Definitions := tablesDefinitions
              rows := [[("id", .int 1), ("name", .text "foo"), ("store_id", .int 7)],
                       [("id", .int 2), ("name", .text "bar"), ("store_id", .int 7)]] }),
           (global_users,
            { Definitions := usersDefinitions
              rows := [[("id", .int 3), ("name", .text "u3"), ("token", .text "t3")],
                       [("id", .int 4), ("name", .text "u4"), ("token", .text "t4")],
                       [("id", .int 5), ("name", .text "u5"), ("token", .text "t5")],
                       [("id", .int 6), ("name", .text "u6"), ("token", .text "t6")],
                       [("id", .int 7), ("name", .text "u7"), ("token", .text "t7")]] }),
           (global_user_table_permission,
            { Definitions := grantsDefinitions
              rows := [[("user_id", .int 3), ("table_name", .text "foo"),
                        ("permission", .text "READ_RESTRICTED")],
                       [("user_id", .int 3), ("table_name", .text "foo"),
                        ("permission", .text "WRITE_RESTRICTED")],
                       [("user_id", .int 3), ("table_name", .text "bar"),
                        ("permission", .text "READ_ALL")],
                       [("user_id", .int 3), ("table_name", .text "bar"),
                        ("permission", .text "WRITE_ALL")],
                       [("user_id", .int 4), ("table_name", .text "bar"),
                        ("permission", .text "READ_ALL")],
                       [("user_id", .int 4), ("table_name", .text "bar"),
                        ("permission", .text "WRITE_ALL")],
                       [("user_id", .int 5), ("table_name", .text "foo"),
                        ("permission", .text "WRITE_ALL")],
                       [("user_id", .int 6), ("table_name", .text "foo"),
                        ("permission", .text "READ_ALL")],
                       [("user_id", .int 7), ("table_name", .text "foo"),
                        ("permission", .text "READ_RESTRICTED")],
                       [("user_id", .int 7), ("table_name", .text "foo"),
                        ("permission", .text "READ_ALL")],
                       [("user_id", .int 7), ("table_name", .text "foo"),
                        ("permission", .text "WRITE_RESTRICTED")],
                       [("user_id", .int 7), ("table_name", .text "foo"),
                        ("permission", .text "WRITE_ALL")]] })] } }

/-- The delegation layer over `sharedCatalog`, acting for the holder of
`token`. -/
def sharedDelegated (token : String) : delegatedStore userStoreFactory :=
  (NewDelegatedStore (sharedCatalog.asAdminStore eqEngine)
    (userStoreFactory.asFactory eqEngine openEmpty 99)).AsUser { Token := token }

/-- The grants of user 3 in `sharedCatalog`, in catalog order. -/
def grants3 : List TablePermission :=
  [{ TableName := "foo", Permission := "READ_RESTRICTED" },
   { TableName := "foo", Permission := "WRITE_RESTRICTED" },
   { TableName := "bar", Permission := "READ_ALL" },
   { TableName := "bar", Permission := "WRITE_ALL" }]

/-- The grants of user 4 in `sharedCatalog`: none on `foo`. -/
def grants4 : List TablePermission :=
  [{ TableName := "bar", Permission := "READ_ALL" },
   { TableName := "bar", Permission := "WRITE_ALL" }]

/-- The grants of user 5 in `sharedCatalog`. -/
def grants5 : List TablePermission := [{ TableName := "foo", Permission := "WRITE_ALL" }]

/-- The grants of user 6 in `sharedCatalog`. -/
def grants6 : List TablePermission := [{ TableName := "foo", Permission := "READ_ALL" }]

/-- The grants of user 7 in `sharedCatalog`: all four on `foo`. -/
def grants7 : List TablePermission :=
  [{ TableName := "foo", Permission := "READ_RESTRICTED" },
   { TableName := "foo", Permission := "READ_ALL" },
   { TableName := "foo", Permission := "WRITE_RESTRICTED" },
   { TableName := "foo", Permission := "WRITE_ALL" }]

/-- A name that closes the quote it is pasted into and goes on with `OR`. -/
def pastedName : String := "x' OR '1'='1"

/-- The double quote that opens and closes a quoted identifier. -/
def doubleQuote : String := String.singleton (Char.ofNat 34)

/-- A table name written as a quoted identifier, with single quotes inside. -/
def quotedCreate : CreateTableOptions :=
  { TableName := doubleQuote ++ "a' OR '1'='2" ++ doubleQuote
    Definitions := [["id", "integer", "not null", "primary key"], ["name", "text"]]
    IfNotExists := false }

/-- The unfiltered query of the tests. -/
def fooSelect : QueryOptions :=
  { TableName := "foo", IncludeColumns := ["id", "name"], Where := [], Limit := 0 }

/-- An insert whose field list names `created_by` itself, with the id of
another user. -/
def fooInsertSpoofed : ExecOptions :=
  { Type_ := ExecTypeInsert, TableName := "foo",
    Values := [{ Name := "name", Value := .text "x" }, { Name := "created_by", Value := .int 2 }],
    Where := [] }

/-- An update that assigns `created_by`. -/
def fooUpdateOwner : ExecOptions :=
  { Type_ := ExecTypeUpdate, TableName := "foo",
    Values := [{ Name := "created_by", Value := .int 2 }],
    Where := ["name = 'test1'"] }

/-- A query whose one where-clause holds an `OR`. -/
def fooSelectEscaping : QueryOptions :=
  { TableName := "foo", IncludeColumns := ["id", "name", "created_by"],
    Where := ["id = 2 OR id = 2"], Limit := 0 }

/-- An update whose one where-clause holds an `OR`: it names the row of user 2. -/
def fooUpdateEscaping : ExecOptions :=
  { Type_ := ExecTypeUpdate, TableName := "foo",
    Values := [{ Name := "name", Value := .text "test3" }],
    Where := ["name = 'test2' OR 1 = 0"] }

/-- The update of the tests: user 1 aims at the row of user 2. -/
def fooUpdateOther : ExecOptions :=
  { Type_ := ExecTypeUpdate, TableName := "foo",
    Values := [{ Name := "name", Value := .text "test3" }],
    Where := ["name = 'test2'"] }

/-! ## Lemmas on the permission tests -/

theorem hasReadPermission_iff (tp : List String) :
    hasReadPermission tp = true ↔
      READ_ALL_PERMISSION ∈ tp ∨ READ_RESTRICTED_PERMISSION ∈ tp := by
  unfold hasReadPermission
  simp only [List.any_eq_true, Bool.or_eq_true, decide_eq_true_eq]
  constructor
  · rintro ⟨x, hx, h | h⟩
    · exact Or.inl (h ▸ hx)
    · exact Or.inr (h ▸ hx)
  · rintro (h | h)
    · exact ⟨_, h, Or.inl rfl⟩
    · exact ⟨_, h, Or.inr rfl⟩

theorem hasWritePermission_iff (tp : List String) :
    hasWritePermission tp = true ↔
      WRITE_ALL_PERMISSION ∈ tp ∨ WRITE_RESTRICTED_PERMISSION ∈ tp := by
  unfold hasWritePermission
  simp only [List.any_eq_true, Bool.or_eq_true, decide_eq_true_eq]
  constructor
  · rintro ⟨x, hx, h | h⟩
    · exact Or.inl (h ▸ hx)
    · exact Or.inr (h ▸ hx)
  · rintro (h | h)
    · exact ⟨_, h, Or.inl rfl⟩
    · exact ⟨_, h, Or.inr rfl⟩

theorem hasOnlyRestrictedReadPermission_iff (tp : List String) :
    hasOnlyRestrictedReadPermission tp = true ↔
      READ_RESTRICTED_PERMISSION ∈ tp ∧ READ_ALL_PERMISSION ∉ tp := by
  unfold hasOnlyRestrictedReadPermission
  simp

theorem hasOnlyRestrictedUpdatePermission_iff (tp : List String) :
    hasOnlyRestrictedUpdatePermission tp = true ↔
      WRITE_RESTRICTED_PERMISSION ∈ tp ∧ WRITE_ALL_PERMISSION ∉ tp := by
  unfold hasOnlyRestrictedUpdatePermission
  simp

theorem length_ne_zero_of_mem {α : Type} {a : α} {l : List α} (h : a ∈ l) : l.length ≠ 0 := by
  cases l with
  | nil => cases h
  | cons b t => simp

/-- The rewrite of an update-shaped request. -/
theorem rewriteExec_update (opts : ExecOptions) (tp : List String) (userID : Int)
    (hupd : opts.Type_ = ExecTypeUpdate) :
    rewriteExec opts tp userID =
      if hasOnlyRestrictedUpdatePermission tp = true then
        { opts with Where := opts.Where ++ [ownerPredicate userID] }
      else opts := by
  have hni : ¬ opts.Type_ = ExecTypeInsert := by
    rw [hupd]; decide
  unfold rewriteExec
  rw [if_neg hni, if_pos hupd]

/-- The rewrite of an insert-shaped request. -/
theorem rewriteExec_insert (opts : ExecOptions) (tp : List String) (userID : Int)
    (hins : opts.Type_ = ExecTypeInsert) :
    rewriteExec opts tp userID =
      { opts with Values := opts.Values ++ [{ Name := "created_by", Value := .int userID }] } := by
  unfold rewriteExec
  rw [if_pos hins]

/-! ## What `Query` and `Exec` do once the lookups are known -/

/-- With the three lookups resolved and a read grant present, `Query` is the
dispatch step: one factory call, then the backend's `Query` on the rewritten
request. -/
theorem delegatedStore.Query_authorized {σ : Type} (s : delegatedStore σ)
    (opts : QueryOptions) (st : σ) (user : User) (table : Table) (tp : List String)
    (hres : s.Resolves opts.TableName user table tp)
    (hr : READ_ALL_PERMISSION ∈ tp ∨ READ_RESTRICTED_PERMISSION ∈ tp) :
    s.Query opts st =
      match s.usf.New (factoryOptions table) st with
      | (.error err, st1) => ⟨.error err, st1, [.New (factoryOptions table)]⟩
      | (.ok us, st1) =>
          ⟨(us.Query (rewriteQuery opts tp user.ID) st1).1,
           (us.Query (rewriteQuery opts tp user.ID) st1).2,
           [.New (factoryOptions table), .Query us.ID (rewriteQuery opts tp user.ID)]⟩ := by
  obtain ⟨hu, ht, perms, hp, rfl⟩ := hres
  have hne : (tablePermsOf perms opts.TableName).length ≠ 0 := by
    rcases hr with h | h <;> exact length_ne_zero_of_mem h
  have hr1 : hasReadPermission (tablePermsOf perms opts.TableName) = true :=
    (hasReadPermission_iff _).2 hr
  unfold delegatedStore.Query
  simp only [hu, ht, hp, hne, hr1, if_false, Bool.not_true, factoryOptions]
  rfl

/-- Without the lookups resolved to a read grant, `Query` returns an error,
leaves the state alone and calls nothing. -/
theorem delegatedStore.Query_unauthorized {σ : Type} (s : delegatedStore σ)
    (opts : QueryOptions) (st : σ)
    (h : ¬ ∃ user table tp, s.Resolves opts.TableName user table tp ∧
      (READ_ALL_PERMISSION ∈ tp ∨ READ_RESTRICTED_PERMISSION ∈ tp)) :
    ∃ err, (s.Query opts st).result = .error err ∧ (s.Query opts st).state = st ∧
      (s.Query opts st).calls = [] := by
  unfold delegatedStore.Query
  cases hu : s.as.GetUser s.uo.Token with
  | error e => exact ⟨e, rfl, rfl, rfl⟩
  | ok user =>
    cases ht : s.as.GetTable opts.TableName with
    | error e => exact ⟨e, rfl, rfl, rfl⟩
    | ok table =>
      cases hp : s.as.GetPermissionsForToken s.uo.Token with
      | error e => exact ⟨e, rfl, rfl, rfl⟩
      | ok perms =>
        simp only
        split
        · exact ⟨_, rfl, rfl, rfl⟩
        · split
          · exact ⟨_, rfl, rfl, rfl⟩
          · rename_i h1 h2
            exfalso
            apply h
            refine ⟨user, table, _, ⟨hu, ht, perms, hp, rfl⟩, ?_⟩
            apply (hasReadPermission_iff _).1
            simpa using h2

/-- With the three lookups resolved and a write grant present, `Exec` is the
dispatch step: one factory call, then the backend's `Exec` on the rewritten
request. -/
theorem delegatedStore.Exec_authorized {σ : Type} (s : delegatedStore σ)
    (opts : ExecOptions) (st : σ) (user : User) (table : Table) (tp : List String)
    (hres : s.Resolves opts.TableName user table tp)
    (hw : WRITE_ALL_PERMISSION ∈ tp ∨ WRITE_RESTRICTED_PERMISSION ∈ tp) :
    s.Exec opts st =
      match s.usf.New (factoryOptions table) st with
      | (.error err, st1) => ⟨.error err, st1, [.New (factoryOptions table)]⟩
      | (.ok us, st1) =>
          ⟨(us.Exec (rewriteExec opts tp user.ID) st1).1,
           (us.Exec (rewriteExec opts tp user.ID) st1).2,
           [.New (factoryOptions table), .Exec us.ID (rewriteExec opts tp user.ID)]⟩ := by
  obtain ⟨hu, ht, perms, hp, rfl⟩ := hres
  have hne : (tablePermsOf perms opts.TableName).length ≠ 0 := by
    rcases hw with h | h <;> exact length_ne_zero_of_mem h
  have hw1 : hasWritePermission (tablePermsOf perms opts.TableName) = true :=
    (hasWritePermission_iff _).2 hw
  unfold delegatedStore.Exec
  simp only [hu, ht, hp, hne, hw1, if_false, Bool.not_true, factoryOptions]
  rfl

/-- Without the lookups resolved to a write grant, `Exec` returns an error,
leaves the state alone and calls nothing. -/
theorem delegatedStore.Exec_unauthorized {σ : Type} (s : delegatedStore σ)
    (opts : ExecOptions) (st : σ)
    (h : ¬ ∃ user table tp, s.Resolves opts.TableName user table tp ∧
      (WRITE_ALL_PERMISSION ∈ tp ∨ WRITE_RESTRICTED_PERMISSION ∈ tp)) :
    ∃ err, (s.Exec opts st).result = .error err ∧ (s.Exec opts st).state = st ∧
      (s.Exec opts st).calls = [] := by
  unfold delegatedStore.Exec
  cases hu : s.as.GetUser s.uo.Token with
  | error e => exact ⟨e, rfl, rfl, rfl⟩
  | ok user =>
    cases ht : s.as.GetTable opts.TableName with
    | error e => exact ⟨e, rfl, rfl, rfl⟩
    | ok table =>
      cases hp : s.as.GetPermissionsForToken s.uo.Token with
      | error e => exact ⟨e, rfl, rfl, rfl⟩
      | ok perms =>
        simp only
        split
        · exact ⟨_, rfl, rfl, rfl⟩
        · split
          · exact ⟨_, rfl, rfl, rfl⟩
          · rename_i h1 h2
            exfalso
            apply h
            refine ⟨user, table, _, ⟨hu, ht, perms, hp, rfl⟩, ?_⟩
            apply (hasWritePermission_iff _).1
            simpa using h2

/-! ## The grants on the requested table -/

/-- The permission names `Query` and `Exec` collect for a table are those of
the grants whose table name is that table. -/
theorem mem_tablePermsOf (perms : List TablePermission) (tableName p : String) :
    p ∈ tablePermsOf perms tableName ↔ granted perms tableName p := by
  unfold tablePermsOf granted
  simp only [List.mem_map, List.mem_filter, decide_eq_true_eq]
  constructor
  · rintro ⟨g, ⟨hg, ht⟩, hp⟩
    exact ⟨g, hg, ht.symm, hp⟩
  · rintro ⟨g, hg, ht, hp⟩
    exact ⟨g, ⟨hg, ht.symm⟩, hp⟩

/-- The three lookups, with the grants narrowed to the table as the code
narrows them. -/
theorem delegatedStore.resolves_of_finds {σ : Type} (s : delegatedStore σ)
    (tableName : String) (user : User) (table : Table) (perms : List TablePermission)
    (h : s.Finds tableName user table perms) :
    s.Resolves tableName user table (tablePermsOf perms tableName) :=
  ⟨h.1, h.2.1, perms, h.2.2, rfl⟩

/-- Holding one of two permission names on the table, said of the collected
names and said of the grants. -/
theorem delegatedStore.resolves_iff_finds {σ : Type} (s : delegatedStore σ)
    (tableName a b : String) :
    (∃ user table tp, s.Resolves tableName user table tp ∧ (a ∈ tp ∨ b ∈ tp)) ↔
      ∃ user table perms, s.Finds tableName user table perms ∧
        (granted perms tableName a ∨ granted perms tableName b) := by
  constructor
  · rintro ⟨user, table, tp, ⟨hu, ht, perms, hp, rfl⟩, h⟩
    refine ⟨user, table, perms, ⟨hu, ht, hp⟩, ?_⟩
    rw [← mem_tablePermsOf, ← mem_tablePermsOf]
    exact h
  · rintro ⟨user, table, perms, hf, h⟩
    refine ⟨user, table, _, delegatedStore.resolves_of_finds s tableName user table perms hf, ?_⟩
    rw [mem_tablePermsOf, mem_tablePermsOf]
    exact h

/-- The rewrite of a query keeps the table name. -/
theorem rewriteQuery_TableName (opts : QueryOptions) (tp : List String) (userID : Int) :
    (rewriteQuery opts tp userID).TableName = opts.TableName := by
  unfold rewriteQuery
  split <;> rfl

/-- The rewrite of an exec request keeps the table name. -/
theorem rewriteExec_TableName (opts : ExecOptions) (tp : List String) (userID : Int) :
    (rewriteExec opts tp userID).TableName = opts.TableName := by
  unfold rewriteExec
  split_ifs <;> rfl

/-! ## The delegation layer: what is forwarded, and when -/

/-- for a `Query` that passes authorization (the lookups resolve and the
grants on the table hold READ_ALL or READ_RESTRICTED) and whose factory call
returns a backend, the backend is called with a request `fwd` whose `Where` is
the caller's `Where` followed by `created_by = <user id>` exactly when the
grants hold READ_RESTRICTED and not READ_ALL, whose `Where` is the caller's when
the grants hold READ_ALL, and whose `TableName`, `IncludeColumns` and `Limit`
are the caller's. -/
theorem delegatedStore.Query_forwarded {σ : Type} (s : delegatedStore σ)
    (opts : QueryOptions) (st : σ) (user : User) (table : Table) (tp : List String)
    (hres : s.Resolves opts.TableName user table tp)
    (hr : READ_ALL_PERMISSION ∈ tp ∨ READ_RESTRICTED_PERMISSION ∈ tp)
    (us : UserStore σ) (st1 : σ)
    (hnew : s.usf.New (factoryOptions table) st = (.ok us, st1)) :
    ∃ fwd : QueryOptions,
      (s.Query opts st).calls = [.New (factoryOptions table), .Query us.ID fwd] ∧
      (s.Query opts st).result = (us.Query fwd st1).1 ∧
      (fwd.Where = opts.Where ++ [ownerPredicate user.ID] ↔
        (READ_RESTRICTED_PERMISSION ∈ tp ∧ READ_ALL_PERMISSION ∉ tp)) ∧
      (READ_ALL_PERMISSION ∈ tp → fwd.Where = opts.Where) ∧
      fwd.TableName = opts.TableName ∧ fwd.IncludeColumns = opts.IncludeColumns ∧
      fwd.Limit = opts.Limit := by
  refine ⟨rewriteQuery opts tp user.ID, ?_, ?_, ?_, ?_, ?_, ?_, ?_⟩
  · rw [delegatedStore.Query_authorized s opts st user table tp hres hr, hnew]
  · rw [delegatedStore.Query_authorized s opts st user table tp hres hr, hnew]
  · unfold rewriteQuery
    by_cases h : hasOnlyRestrictedReadPermission tp = true
    · simp only [h, if_true, true_iff]
      exact (hasOnlyRestrictedReadPermission_iff tp).1 h
    · have h1 : ¬ (READ_RESTRICTED_PERMISSION ∈ tp ∧ READ_ALL_PERMISSION ∉ tp) :=
        fun hh => h ((hasOnlyRestrictedReadPermission_iff tp).2 hh)
      simp [h, h1]
  · intro ha
    unfold rewriteQuery
    have h : ¬ hasOnlyRestrictedReadPermission tp = true :=
      fun hh => ((hasOnlyRestrictedReadPermission_iff tp).1 hh).2 ha
    simp [h]
  · unfold rewriteQuery; split <;> rfl
  · unfold rewriteQuery; split <;> rfl
  · unfold rewriteQuery; split <;> rfl

/-- C2: for a `Query` that passes authorization (the three lookups answer and
the grants of the token hold READ_ALL or READ_RESTRICTED on the requested
table) and whose factory call returns a backend, the backend is called with a
request `fwd` whose `Where` is the caller's `Where` followed by the one text
`created_by = <user id>` exactly when the grants on that table hold
READ_RESTRICTED and not READ_ALL, whose `Where` is the caller's when they hold
READ_ALL, and whose `TableName`, `IncludeColumns` and `Limit` are the caller's.
Grants on other tables have no part in it. -/
theorem delegatedStore_Query_forwarded_request {σ : Type} (s : delegatedStore σ)
    (opts : QueryOptions) (st : σ) (user : User) (table : Table)
    (perms : List TablePermission)
    (hres : s.Finds opts.TableName user table perms)
    (hr : granted perms opts.TableName "READ_ALL" ∨
      granted perms opts.TableName "READ_RESTRICTED")
    (us : UserStore σ) (st1 : σ)
    (hnew : s.usf.New { DataSource := "", ID := table.StoreID } st = (.ok us, st1)) :
    ∃ fwd : QueryOptions,
      (s.Query opts st).calls =
        [.New { DataSource := "", ID := table.StoreID }, .Query us.ID fwd] ∧
      (s.Query opts st).result = (us.Query fwd st1).1 ∧
      (fwd.Where = opts.Where ++ ["created_by = " ++ toString user.ID] ↔
        (granted perms opts.TableName "READ_RESTRICTED" ∧
          ¬ granted perms opts.TableName "READ_ALL")) ∧
      (granted perms opts.TableName "READ_ALL" → fwd.Where = opts.Where) ∧
      fwd.TableName = opts.TableName ∧ fwd.IncludeColumns = opts.IncludeColumns ∧
      fwd.Limit = opts.Limit := by
  have hres1 := delegatedStore.resolves_of_finds s opts.TableName user table perms hres
  have hr1 : READ_ALL_PERMISSION ∈ tablePermsOf perms opts.TableName ∨
      READ_RESTRICTED_PERMISSION ∈ tablePermsOf perms opts.TableName := by
    rcases hr with h | h
    · exact Or.inl ((mem_tablePermsOf _ _ _).2 h)
    · exact Or.inr ((mem_tablePermsOf _ _ _).2 h)
  obtain ⟨fwd, h1, h2, h3, h4, h5, h6, h7⟩ :=
    delegatedStore.Query_forwarded s opts st user table _ hres1 hr1 us st1 hnew
  refine ⟨fwd, h1, h2, ?_, ?_, h5, h6, h7⟩
  · rw [← mem_tablePermsOf, ← mem_tablePermsOf]
    exact h3
  · intro ha
    exact h4 ((mem_tablePermsOf _ _ _).2 ha)

/-- C2 on the example: user 3 holds READ_RESTRICTED on `foo` and READ_ALL on
`bar` only, so the query on `foo` goes on with `created_by = 3`; user 6 holds
READ_ALL on `foo`, and user 7 holds READ_ALL and READ_RESTRICTED on `foo`, so
their queries go on as the caller wrote them. -/
theorem delegatedStore_Query_forwarded_request_witness :
    (∃ fwd : QueryOptions,
      ((sharedDelegated "t3").Query fooSelect fooFactory).calls =
        [.New { DataSource := "", ID := 7 }, .Query 7 fwd] ∧
      ((sharedDelegated "t3").Query fooSelect fooFactory).result =
        ((sqlite3Store.handle eqEngine 7 fooStore).Query fwd fooFactory).1 ∧
      (fwd.Where = fooSelect.Where ++ ["created_by = " ++ toString (3 : Int)] ↔
        (granted grants3 "foo" "READ_RESTRICTED" ∧ ¬ granted grants3 "foo" "READ_ALL")) ∧
      (granted grants3 "foo" "READ_ALL" → fwd.Where = fooSelect.Where) ∧
      fwd.TableName = fooSelect.TableName ∧ fwd.IncludeColumns = fooSelect.IncludeColumns ∧
      fwd.Limit = fooSelect.Limit) ∧
    ((sharedDelegated "t3").Query fooSelect fooFactory).calls =
      [.New { DataSource := "", ID := 7 },
       .Query 7 { TableName := "foo", IncludeColumns := ["id", "name"],
                  Where := ["created_by = 3"], Limit := 0 }] ∧
    (∃ fwd : QueryOptions,
      ((sharedDelegated "t6").Query fooSelect fooFactory).calls =
        [.New { DataSource := "", ID := 7 }, .Query 7 fwd] ∧
      ((sharedDelegated "t6").Query fooSelect fooFactory).result =
        ((sqlite3Store.handle eqEngine 7 fooStore).Query fwd fooFactory).1 ∧
      (fwd.Where = fooSelect.Where ++ ["created_by = " ++ toString (6 : Int)] ↔
        (granted grants6 "foo" "READ_RESTRICTED" ∧ ¬ granted grants6 "foo" "READ_ALL")) ∧
      (granted grants6 "foo" "READ_ALL" → fwd.Where = fooSelect.Where) ∧
      fwd.TableName = fooSelect.TableName ∧ fwd.IncludeColumns = fooSelect.IncludeColumns ∧
      fwd.Limit = fooSelect.Limit) ∧
    ((sharedDelegated "t6").Query fooSelect fooFactory).calls =
      [.New { DataSource := "", ID := 7 }, .Query 7 fooSelect] ∧
    sharedCatalog.GetPermissionsForToken eqEngine "t7" = .ok grants7 ∧
    ((sharedDelegated "t7").Query fooSelect fooFactory).calls =
      [.New { DataSource := "", ID := 7 }, .Query 7 fooSelect] :=
  ⟨delegatedStore_Query_forwarded_request (sharedDelegated "t3") fooSelect fooFactory
      { ID := 3, UserName := "u3" } { ID := 1, Name := "foo", StoreID := 7 } grants3
      ⟨by decide, by decide, by decide⟩ (Or.inr (by decide))
      (sqlite3Store.handle eqEngine 7 fooStore) fooFactory rfl,
    by decide,
    delegatedStore_Query_forwarded_request (sharedDelegated "t6") fooSelect fooFactory
      { ID := 6, UserName := "u6" } { ID := 1, Name := "foo", StoreID := 7 } grants6
      ⟨by decide, by decide, by decide⟩ (Or.inl (by decide))
      (sqlite3Store.handle eqEngine 7 fooStore) fooFactory rfl,
    by decide, by decide, by decide⟩

/-- C3, the code at an insert that names `created_by`: the field list handed to
the backend keeps the caller's `created_by = 2` and has the system's
`created_by = 1` after it, two fields of that name. -/
theorem delegatedStore_Exec_insert_keeps_caller_created_by :
    ((fooDelegated "t1").Exec fooInsertSpoofed fooFactory).calls =
      [.New { DataSource := "", ID := 7 },
       .Exec 7 { Type_ := "insert", TableName := "foo",
                 Values := [{ Name := "name", Value := .text "x" },
                            { Name := "created_by", Value := .int 2 },
                            { Name := "created_by", Value := .int 1 }],
                 Where := [] }] := by
  decide

/-- for an update-shaped `Exec` that passes authorization and whose factory
call returns a backend, the backend is called with a request `fwd` whose
`Where` is the caller's followed by `created_by = <user id>` if the grants hold
WRITE_RESTRICTED and not WRITE_ALL, is the caller's if the grants hold
WRITE_ALL, and whose `Type`, `TableName` and `Values` are the caller's. -/
theorem delegatedStore.Exec_update_forwarded {σ : Type} (s : delegatedStore σ)
    (opts : ExecOptions) (st : σ) (user : User) (table : Table) (tp : List String)
    (hres : s.Resolves opts.TableName user table tp)
    (hw : WRITE_ALL_PERMISSION ∈ tp ∨ WRITE_RESTRICTED_PERMISSION ∈ tp)
    (hupd : opts.Type_ = ExecTypeUpdate)
    (us : UserStore σ) (st1 : σ)
    (hnew : s.usf.New (factoryOptions table) st = (.ok us, st1)) :
    ∃ fwd : ExecOptions,
      (s.Exec opts st).calls = [.New (factoryOptions table), .Exec us.ID fwd] ∧
      (s.Exec opts st).result = (us.Exec fwd st1).1 ∧
      (WRITE_RESTRICTED_PERMISSION ∈ tp ∧ WRITE_ALL_PERMISSION ∉ tp →
        fwd.Where = opts.Where ++ [ownerPredicate user.ID]) ∧
      (WRITE_ALL_PERMISSION ∈ tp → fwd.Where = opts.Where) ∧
      fwd.Type_ = opts.Type_ ∧ fwd.TableName = opts.TableName ∧
      fwd.Values = opts.Values := by
  refine ⟨rewriteExec opts tp user.ID, ?_, ?_, ?_, ?_, ?_, ?_, ?_⟩
  · rw [delegatedStore.Exec_authorized s opts st user table tp hres hw, hnew]
  · rw [delegatedStore.Exec_authorized s opts st user table tp hres hw, hnew]
  · intro h
    rw [rewriteExec_update opts tp user.ID hupd,
      if_pos ((hasOnlyRestrictedUpdatePermission_iff tp).2 h)]
  · intro ha
    have h : ¬ hasOnlyRestrictedUpdatePermission tp = true :=
      fun hh => ((hasOnlyRestrictedUpdatePermission_iff tp).1 hh).2 ha
    rw [rewriteExec_update opts tp user.ID hupd, if_neg h]
  · rw [rewriteExec_update opts tp user.ID hupd]; split <;> rfl
  · rw [rewriteExec_update opts tp user.ID hupd]; split <;> rfl
  · rw [rewriteExec_update opts tp user.ID hupd]; split <;> rfl

/-- C4: for an update-shaped `Exec` that passes authorization (the three
lookups answer and the grants of the token hold WRITE_ALL or WRITE_RESTRICTED
on the requested table) and whose factory call returns a backend, the backend
is called with a request `fwd` whose `Where` is the caller's followed by the
one text `created_by = <user id>` if the grants on that table hold
WRITE_RESTRICTED and not WRITE_ALL, is the caller's if they hold WRITE_ALL, and
whose `Type`, `TableName` and `Values` are the caller's.  Grants on other
tables have no part in it. -/
theorem delegatedStore_Exec_update_forwarded_request {σ : Type} (s : delegatedStore σ)
    (opts : ExecOptions) (st : σ) (user : User) (table : Table)
    (perms : List TablePermission)
    (hres : s.Finds opts.TableName user table perms)
    (hw : granted perms opts.TableName "WRITE_ALL" ∨
      granted perms opts.TableName "WRITE_RESTRICTED")
    (hupd : opts.Type_ = "update")
    (us : UserStore σ) (st1 : σ)
    (hnew : s.usf.New { DataSource := "", ID := table.StoreID } st = (.ok us, st1)) :
    ∃ fwd : ExecOptions,
      (s.Exec opts st).calls =
        [.New { DataSource := "", ID := table.StoreID }, .Exec us.ID fwd] ∧
      (s.Exec opts st).result = (us.Exec fwd st1).1 ∧
      (granted perms opts.TableName "WRITE_RESTRICTED" ∧
          ¬ granted perms opts.TableName "WRITE_ALL" →
        fwd.Where = opts.Where ++ ["created_by = " ++ toString user.ID]) ∧
      (granted perms opts.TableName "WRITE_ALL" → fwd.Where = opts.Where) ∧
      fwd.Type_ = opts.Type_ ∧ fwd.TableName = opts.TableName ∧
      fwd.Values = opts.Values := by
  have hres1 := delegatedStore.resolves_of_finds s opts.TableName user table perms hres
  have hw1 : WRITE_ALL_PERMISSION ∈ tablePermsOf perms opts.TableName ∨
      WRITE_RESTRICTED_PERMISSION ∈ tablePermsOf perms opts.TableName := by
    rcases hw with h | h
    · exact Or.inl ((mem_tablePermsOf _ _ _).2 h)
    · exact Or.inr ((mem_tablePermsOf _ _ _).2 h)
  obtain ⟨fwd, h1, h2, h3, h4, h5, h6, h7⟩ :=
    delegatedStore.Exec_update_forwarded s opts st user table _ hres1 hw1 hupd us st1 hnew
  refine ⟨fwd, h1, h2, ?_, ?_, h5, h6, h7⟩
  · rintro ⟨hr, hna⟩
    exact h3 ⟨(mem_tablePermsOf _ _ _).2 hr, fun ha => hna ((mem_tablePermsOf _ _ _).1 ha)⟩
  · intro ha
    exact h4 ((mem_tablePermsOf _ _ _).2 ha)

/-- C4 on the example: user 3 holds WRITE_RESTRICTED on `foo` and WRITE_ALL on
`bar` only, so the update on `foo` goes on with `created_by = 3`; user 5 holds
WRITE_ALL on `foo`, and user 7 holds WRITE_ALL and WRITE_RESTRICTED on `foo`,
so their updates go on as the caller wrote them. -/
theorem delegatedStore_Exec_update_forwarded_request_witness :
    (∃ fwd : ExecOptions,
      ((sharedDelegated "t3").Exec fooUpdateOther fooFactory).calls =
        [.New { DataSource := "", ID := 7 }, .Exec 7 fwd] ∧
      ((sharedDelegated "t3").Exec fooUpdateOther fooFactory).result =
        ((sqlite3Store.handle eqEngine 7 fooStore).Exec fwd fooFactory).1 ∧
      (granted grants3 "foo" "WRITE_RESTRICTED" ∧ ¬ granted grants3 "foo" "WRITE_ALL" →
        fwd.Where = fooUpdateOther.Where ++ ["created_by = " ++ toString (3 : Int)]) ∧
      (granted grants3 "foo" "WRITE_ALL" → fwd.Where = fooUpdateOther.Where) ∧
      fwd.Type_ = fooUpdateOther.Type_ ∧ fwd.TableName = fooUpdateOther.TableName ∧
      fwd.Values = fooUpdateOther.Values) ∧
    ((sharedDelegated "t3").Exec fooUpdateOther fooFactory).calls =
      [.New { DataSource := "", ID := 7 },
       .Exec 7 { Type_ := "update", TableName := "foo",
                 Values := [{ Name := "name", Value := .text "test3" }],
                 Where := ["name = 'test2'", "created_by = 3"] }] ∧
    (∃ fwd : ExecOptions,
      ((sharedDelegated "t5").Exec fooUpdateOther fooFactory).calls =
        [.New { DataSource := "", ID := 7 }, .Exec 7 fwd] ∧
      ((sharedDelegated "t5").Exec fooUpdateOther fooFactory).result =
        ((sqlite3Store.handle eqEngine 7 fooStore).Exec fwd fooFactory).1 ∧
      (granted grants5 "foo" "WRITE_RESTRICTED" ∧ ¬ granted grants5 "foo" "WRITE_ALL" →
        fwd.Where = fooUpdateOther.Where ++ ["created_by = " ++ toString (5 : Int)]) ∧
      (granted grants5 "foo" "WRITE_ALL" → fwd.Where = fooUpdateOther.Where) ∧
      fwd.Type_ = fooUpdateOther.Type_ ∧ fwd.TableName = fooUpdateOther.TableName ∧
      fwd.Values = fooUpdateOther.Values) ∧
    ((sharedDelegated "t5").Exec fooUpdateOther fooFactory).calls =
      [.New { DataSource := "", ID := 7 }, .Exec 7 fooUpdateOther] ∧
    sharedCatalog.GetPermissionsForToken eqEngine "t7" = .ok grants7 ∧
    ((sharedDelegated "t7").Exec fooUpdateOther fooFactory).calls =
      [.New { DataSource := "", ID := 7 }, .Exec 7 fooUpdateOther] :=
  ⟨delegatedStore_Exec_update_forwarded_request (sharedDelegated "t3") fooUpdateOther fooFactory
      { ID := 3, UserName := "u3" } { ID := 1, Name := "foo", StoreID := 7 } grants3
      ⟨by decide, by decide, by decide⟩ (Or.inr (by decide)) rfl
      (sqlite3Store.handle eqEngine 7 fooStore) fooFactory rfl,
    by decide,
    delegatedStore_Exec_update_forwarded_request (sharedDelegated "t5") fooUpdateOther fooFactory
      { ID := 5, UserName := "u5" } { ID := 1, Name := "foo", StoreID := 7 } grants5
      ⟨by decide, by decide, by decide⟩ (Or.inl (by decide)) rfl
      (sqlite3Store.handle eqEngine 7 fooStore) fooFactory rfl,
    by decide, by decide, by decide⟩

/-- C5, the code at an update that assigns `created_by`: the assignment reaches
the backend as the caller wrote it, and the row user 1 created is stored with
`created_by = 2` afterwards. -/
theorem delegatedStore_Exec_update_assigns_created_by :
    ((fooDelegated "t1").Exec fooUpdateOwner fooFactory).calls =
      [.New { DataSource := "", ID := 7 },
       .Exec 7 { Type_ := "update", TableName := "foo",
                 Values := [{ Name := "created_by", Value := .int 2 }],
                 Where := ["name = 'test1'", "created_by = 1"] }] ∧
    ((fooDelegated "t1").Exec fooUpdateOwner fooFactory).result =
      .ok { LastInsertId := 0, RowsAffected := 1 } ∧
    ((fooDelegated "t1").Exec fooUpdateOwner fooFactory).state =
      { stores := [(7, { id := 7, db := [("foo", { fooTable with
          rows := [[("id", .int 1), ("name", .text "test1"), ("created_by", .int 2)],
                   [("id", .int 2), ("name", .text "test2"), ("created_by", .int 2)]] })] })] } := by
  decide

/-- `Query` goes on to the factory and the backend exactly when the token
resolves to a user, the table name resolves to a table, and the user's grants
on that table hold READ_ALL or READ_RESTRICTED.  In that case the factory is
asked for the table's store id and the backend it returns is called with the
rewritten request, whose answer is the result.  In every other case `Query`
returns an error, the state is untouched and neither the factory nor a backend
is called. -/
theorem delegatedStore.Query_forwards_iff {σ : Type} (s : delegatedStore σ)
    (opts : QueryOptions) (st : σ) :
    ((s.Query opts st).calls ≠ [] ↔
      ∃ user table tp, s.Resolves opts.TableName user table tp ∧
        (READ_ALL_PERMISSION ∈ tp ∨ READ_RESTRICTED_PERMISSION ∈ tp)) ∧
    (∀ user table tp, s.Resolves opts.TableName user table tp →
      (READ_ALL_PERMISSION ∈ tp ∨ READ_RESTRICTED_PERMISSION ∈ tp) →
      (s.Query opts st).calls.head? = some (.New (factoryOptions table)) ∧
      ∀ us st1, s.usf.New (factoryOptions table) st = (.ok us, st1) →
        (s.Query opts st).calls =
          [.New (factoryOptions table), .Query us.ID (rewriteQuery opts tp user.ID)] ∧
        (s.Query opts st).result = (us.Query (rewriteQuery opts tp user.ID) st1).1 ∧
        (s.Query opts st).state = (us.Query (rewriteQuery opts tp user.ID) st1).2) ∧
    ((¬ ∃ user table tp, s.Resolves opts.TableName user table tp ∧
        (READ_ALL_PERMISSION ∈ tp ∨ READ_RESTRICTED_PERMISSION ∈ tp)) →
      ∃ err, (s.Query opts st).result = .error err ∧ (s.Query opts st).state = st ∧
        (s.Query opts st).calls = []) := by
  have key : ∀ user table tp, s.Resolves opts.TableName user table tp →
      (READ_ALL_PERMISSION ∈ tp ∨ READ_RESTRICTED_PERMISSION ∈ tp) →
      (s.Query opts st).calls.head? = some (.New (factoryOptions table)) ∧
      ∀ us st1, s.usf.New (factoryOptions table) st = (.ok us, st1) →
        (s.Query opts st).calls =
          [.New (factoryOptions table), .Query us.ID (rewriteQuery opts tp user.ID)] ∧
        (s.Query opts st).result = (us.Query (rewriteQuery opts tp user.ID) st1).1 ∧
        (s.Query opts st).state = (us.Query (rewriteQuery opts tp user.ID) st1).2 := by
    intro user table tp hres hr
    rw [delegatedStore.Query_authorized s opts st user table tp hres hr]
    constructor
    · rcases hn : s.usf.New (factoryOptions table) st with ⟨r, st1⟩
      cases r <;> rfl
    · intro us st1 hnew
      rw [hnew]
      exact ⟨rfl, rfl, rfl⟩
  refine ⟨⟨?_, ?_⟩, key, delegatedStore.Query_unauthorized s opts st⟩
  · intro hc
    by_contra hn
    obtain ⟨_, _, _, h0⟩ := delegatedStore.Query_unauthorized s opts st hn
    exact hc h0
  · rintro ⟨user, table, tp, hres, hr⟩ h0
    have h1 := (key user table tp hres hr).1
    rw [h0] at h1
    cases h1

/-- `Exec` goes on to the factory and the backend exactly when the token
resolves to a user, the table name resolves to a table, and the user's grants
on that table hold WRITE_ALL or WRITE_RESTRICTED.  In that case the factory is
asked for the table's store id and the backend it returns is called with the
rewritten request, whose answer is the result.  In every other case `Exec`
returns an error, the state is untouched and neither the factory nor a backend
is called. -/
theorem delegatedStore.Exec_forwards_iff {σ : Type} (s : delegatedStore σ)
    (opts : ExecOptions) (st : σ) :
    ((s.Exec opts st).calls ≠ [] ↔
      ∃ user table tp, s.Resolves opts.TableName user table tp ∧
        (WRITE_ALL_PERMISSION ∈ tp ∨ WRITE_RESTRICTED_PERMISSION ∈ tp)) ∧
    (∀ user table tp, s.Resolves opts.TableName user table tp →
      (WRITE_ALL_PERMISSION ∈ tp ∨ WRITE_RESTRICTED_PERMISSION ∈ tp) →
      (s.Exec opts st).calls.head? = some (.New (factoryOptions table)) ∧
      ∀ us st1, s.usf.New (factoryOptions table) st = (.ok us, st1) →
        (s.Exec opts st).calls =
          [.New (factoryOptions table), .Exec us.ID (rewriteExec opts tp user.ID)] ∧
        (s.Exec opts st).result = (us.Exec (rewriteExec opts tp user.ID) st1).1 ∧
        (s.Exec opts st).state = (us.Exec (rewriteExec opts tp user.ID) st1).2) ∧
    ((¬ ∃ user table tp, s.Resolves opts.TableName user table tp ∧
        (WRITE_ALL_PERMISSION ∈ tp ∨ WRITE_RESTRICTED_PERMISSION ∈ tp)) →
      ∃ err, (s.Exec opts st).result = .error err ∧ (s.Exec opts st).state = st ∧
        (s.Exec opts st).calls = []) := by
  have key : ∀ user table tp, s.Resolves opts.TableName user table tp →
      (WRITE_ALL_PERMISSION ∈ tp ∨ WRITE_RESTRICTED_PERMISSION ∈ tp) →
      (s.Exec opts st).calls.head? = some (.New (factoryOptions table)) ∧
      ∀ us st1, s.usf.New (factoryOptions table) st = (.ok us, st1) →
        (s.Exec opts st).calls =
          [.New (factoryOptions table), .Exec us.ID (rewriteExec opts tp user.ID)] ∧
        (s.Exec opts st).result = (us.Exec (rewriteExec opts tp user.ID) st1).1 ∧
        (s.Exec opts st).state = (us.Exec (rewriteExec opts tp user.ID) st1).2 := by
    intro user table tp hres hw
    rw [delegatedStore.Exec_authorized s opts st user table tp hres hw]
    constructor
    · rcases hn : s.usf.New (factoryOptions table) st with ⟨r, st1⟩
      cases r <;> rfl
    · intro us st1 hnew
      rw [hnew]
      exact ⟨rfl, rfl, rfl⟩
  refine ⟨⟨?_, ?_⟩, key, delegatedStore.Exec_unauthorized s opts st⟩
  · intro hc
    by_contra hn
    obtain ⟨_, _, _, h0⟩ := delegatedStore.Exec_unauthorized s opts st hn
    exact hc h0
  · rintro ⟨user, table, tp, hres, hw⟩ h0
    have h1 := (key user table tp hres hw).1
    rw [h0] at h1
    cases h1

/-- C7: `Query` goes on to the factory and the backend exactly when the token
resolves to a user, the table name resolves to a table, and the grants of the
token hold READ_ALL or READ_RESTRICTED on the requested table.  In that case
the factory is asked for the table's store id, and the backend it returns is
called with a request for that table, whose answer is the result.  In every
other case (grants on other tables only, or WRITE grants only, included)
`Query` returns an error, the state is untouched and neither the factory nor a
backend is called. -/
theorem delegatedStore_Query_forwards_iff_authorized {σ : Type} (s : delegatedStore σ)
    (opts : QueryOptions) (st : σ) :
    ((s.Query opts st).calls ≠ [] ↔
      ∃ user table perms, s.Finds opts.TableName user table perms ∧
        (granted perms opts.TableName "READ_ALL" ∨
          granted perms opts.TableName "READ_RESTRICTED")) ∧
    (∀ user table perms, s.Finds opts.TableName user table perms →
      (granted perms opts.TableName "READ_ALL" ∨
        granted perms opts.TableName "READ_RESTRICTED") →
      (s.Query opts st).calls.head? = some (.New { DataSource := "", ID := table.StoreID }) ∧
      ∀ us st1, s.usf.New { DataSource := "", ID := table.StoreID } st = (.ok us, st1) →
        ∃ fwd : QueryOptions, fwd.TableName = opts.TableName ∧
          (s.Query opts st).calls =
            [.New { DataSource := "", ID := table.StoreID }, .Query us.ID fwd] ∧
          (s.Query opts st).result = (us.Query fwd st1).1 ∧
          (s.Query opts st).state = (us.Query fwd st1).2) ∧
    ((¬ ∃ user table perms, s.Finds opts.TableName user table perms ∧
        (granted perms opts.TableName "READ_ALL" ∨
          granted perms opts.TableName "READ_RESTRICTED")) →
      ∃ err, (s.Query opts st).result = .error err ∧ (s.Query opts st).state = st ∧
        (s.Query opts st).calls = []) := by
  obtain ⟨hiff, hkey, hno⟩ := delegatedStore.Query_forwards_iff s opts st
  have hbridge := delegatedStore.resolves_iff_finds s opts.TableName
    READ_ALL_PERMISSION READ_RESTRICTED_PERMISSION
  refine ⟨hiff.trans hbridge, ?_, ?_⟩
  · intro user table perms hf hg
    have hres := delegatedStore.resolves_of_finds s opts.TableName user table perms hf
    have hr : READ_ALL_PERMISSION ∈ tablePermsOf perms opts.TableName ∨
        READ_RESTRICTED_PERMISSION ∈ tablePermsOf perms opts.TableName := by
      rw [mem_tablePermsOf, mem_tablePermsOf]
      exact hg
    obtain ⟨h1, h2⟩ := hkey user table _ hres hr
    refine ⟨h1, ?_⟩
    intro us st1 hnew
    obtain ⟨h3, h4, h5⟩ := h2 us st1 hnew
    exact ⟨_, rewriteQuery_TableName opts _ user.ID, h3, h4, h5⟩
  · intro hn
    exact hno (fun h => hn (hbridge.1 h))

/-- C7 on the example, the query on `foo`: the holder of `t3` (READ_RESTRICTED
on `foo`) is forwarded; the holder of `t4` (grants on `bar` only), the holder
of `t5` (WRITE_ALL on `foo` only) and an unknown token are turned away before
anything is called, and so is the holder of `t3` asking for an unknown
table. -/
theorem delegatedStore_Query_forwards_iff_authorized_witness :
    ((sharedDelegated "t3").Query fooSelect fooFactory).calls ≠ [] ∧
    (∃ err, ((sharedDelegated "t4").Query fooSelect fooFactory).result = .error err ∧
        ((sharedDelegated "t4").Query fooSelect fooFactory).state = fooFactory ∧
        ((sharedDelegated "t4").Query fooSelect fooFactory).calls = []) ∧
    (∃ err, ((sharedDelegated "t5").Query fooSelect fooFactory).result = .error err ∧
        ((sharedDelegated "t5").Query fooSelect fooFactory).state = fooFactory ∧
        ((sharedDelegated "t5").Query fooSelect fooFactory).calls = []) ∧
    (∃ err, ((sharedDelegated "nobody").Query fooSelect fooFactory).result = .error err ∧
        ((sharedDelegated "nobody").Query fooSelect fooFactory).state = fooFactory ∧
        ((sharedDelegated "nobody").Query fooSelect fooFactory).calls = []) ∧
    (∃ err, ((sharedDelegated "t3").Query { fooSelect with TableName := "baz" }
          fooFactory).result = .error err ∧
        ((sharedDelegated "t3").Query { fooSelect with TableName := "baz" }
          fooFactory).state = fooFactory ∧
        ((sharedDelegated "t3").Query { fooSelect with TableName := "baz" }
          fooFactory).calls = []) ∧
    sharedCatalog.GetPermissionsForToken eqEngine "t4" = .ok grants4 ∧
    ((sharedDelegated "t4").Query fooSelect fooFactory).calls = [] ∧
    ((sharedDelegated "t5").Query fooSelect fooFactory).calls = [] :=
  ⟨(delegatedStore_Query_forwards_iff_authorized (sharedDelegated "t3") fooSelect
      fooFactory).1.2
      ⟨{ ID := 3, UserName := "u3" }, { ID := 1, Name := "foo", StoreID := 7 }, grants3,
        ⟨by decide, by decide, by decide⟩, Or.inr (by decide)⟩,
   (delegatedStore_Query_forwards_iff_authorized (sharedDelegated "t4") fooSelect
      fooFactory).2.2 (by
        rintro ⟨user, table, perms, ⟨_, _, hp⟩, hg⟩
        have h : (sharedDelegated "t4").as.GetPermissionsForToken
            (sharedDelegated "t4").uo.Token = .ok grants4 := by decide
        rw [h] at hp
        cases hp
        revert hg
        decide),
   (delegatedStore_Query_forwards_iff_authorized (sharedDelegated "t5") fooSelect
      fooFactory).2.2 (by
        rintro ⟨user, table, perms, ⟨_, _, hp⟩, hg⟩
        have h : (sharedDelegated "t5").as.GetPermissionsForToken
            (sharedDelegated "t5").uo.Token = .ok grants5 := by decide
        rw [h] at hp
        cases hp
        revert hg
        decide),
   (delegatedStore_Query_forwards_iff_authorized (sharedDelegated "nobody") fooSelect
      fooFactory).2.2 (by
        rintro ⟨user, table, perms, ⟨hu, _, _⟩, _⟩
        have h : (sharedDelegated "nobody").as.GetUser (sharedDelegated "nobody").uo.Token =
            .error (.errorf "user with token 'nobody' not found") := by decide
        rw [h] at hu
        cases hu),
   (delegatedStore_Query_forwards_iff_authorized (sharedDelegated "t3")
      { fooSelect with TableName := "baz" } fooFactory).2.2 (by
        rintro ⟨user, table, perms, ⟨_, ht, _⟩, _⟩
        have h : (sharedDelegated "t3").as.GetTable "baz" =
            .error (.errorf "table with name 'baz' not found") := by decide
        rw [h] at ht
        cases ht),
   by decide, by decide, by decide⟩

/-- C8: `Exec` goes on to the factory and the backend exactly when the token
resolves to a user, the table name resolves to a table, and the grants of the
token hold WRITE_ALL or WRITE_RESTRICTED on the requested table.  In that case
the factory is asked for the table's store id, and the backend it returns is
called with a request for that table, whose answer is the result.  In every
other case (grants on other tables only, or READ grants only, included)
`Exec` returns an error, the state is untouched and neither the factory nor a
backend is called. -/
theorem delegatedStore_Exec_forwards_iff_authorized {σ : Type} (s : delegatedStore σ)
    (opts : ExecOptions) (st : σ) :
    ((s.Exec opts st).calls ≠ [] ↔
      ∃ user table perms, s.Finds opts.TableName user table perms ∧
        (granted perms opts.TableName "WRITE_ALL" ∨
          granted perms opts.TableName "WRITE_RESTRICTED")) ∧
    (∀ user table perms, s.Finds opts.TableName user table perms →
      (granted perms opts.TableName "WRITE_ALL" ∨
        granted perms opts.TableName "WRITE_RESTRICTED") →
      (s.Exec opts st).calls.head? = some (.New { DataSource := "", ID := table.StoreID }) ∧
      ∀ us st1, s.usf.New { DataSource := "", ID := table.StoreID } st = (.ok us, st1) →
        ∃ fwd : ExecOptions, fwd.TableName = opts.TableName ∧
          (s.Exec opts st).calls =
            [.New { DataSource := "", ID := table.StoreID }, .Exec us.ID fwd] ∧
          (s.Exec opts st).result = (us.Exec fwd st1).1 ∧
          (s.Exec opts st).state = (us.Exec fwd st1).2) ∧
    ((¬ ∃ user table perms, s.Finds opts.TableName user table perms ∧
        (granted perms opts.TableName "WRITE_ALL" ∨
          granted perms opts.TableName "WRITE_RESTRICTED")) →
      ∃ err, (s.Exec opts st).result = .error err ∧ (s.Exec opts st).state = st ∧
        (s.Exec opts st).calls = []) := by
  obtain ⟨hiff, hkey, hno⟩ := delegatedStore.Exec_forwards_iff s opts st
  have hbridge := delegatedStore.resolves_iff_finds s opts.TableName
    WRITE_ALL_PERMISSION WRITE_RESTRICTED_PERMISSION
  refine ⟨hiff.trans hbridge, ?_, ?_⟩
  · intro user table perms hf hg
    have hres := delegatedStore.resolves_of_finds s opts.TableName user table perms hf
    have hr : WRITE_ALL_PERMISSION ∈ tablePermsOf perms opts.TableName ∨
        WRITE_RESTRICTED_PERMISSION ∈ tablePermsOf perms opts.TableName := by
      rw [mem_tablePermsOf, mem_tablePermsOf]
      exact hg
    obtain ⟨h1, h2⟩ := hkey user table _ hres hr
    refine ⟨h1, ?_⟩
    intro us st1 hnew
    obtain ⟨h3, h4, h5⟩ := h2 us st1 hnew
    exact ⟨_, rewriteExec_TableName opts _ user.ID, h3, h4, h5⟩
  · intro hn
    exact hno (fun h => hn (hbridge.1 h))

/-- C8 on the example, the update on `foo`: the holder of `t3`
(WRITE_RESTRICTED on `foo`) is forwarded; the holder of `t4` (grants on `bar`
only), the holder of `t6` (READ_ALL on `foo` only) and an unknown token are
turned away before anything is called, and so is the holder of `t3` asking for
an unknown table. -/
theorem delegatedStore_Exec_forwards_iff_authorized_witness :
    ((sharedDelegated "t3").Exec fooUpdateOther fooFactory).calls ≠ [] ∧
    (∃ err, ((sharedDelegated "t4").Exec fooUpdateOther fooFactory).result = .error err ∧
        ((sharedDelegated "t4").Exec fooUpdateOther fooFactory).state = fooFactory ∧
        ((sharedDelegated "t4").Exec fooUpdateOther fooFactory).calls = []) ∧
    (∃ err, ((sharedDelegated "t6").Exec fooUpdateOther fooFactory).result = .error err ∧
        ((sharedDelegated "t6").Exec fooUpdateOther fooFactory).state = fooFactory ∧
        ((sharedDelegated "t6").Exec fooUpdateOther fooFactory).calls = []) ∧
    (∃ err, ((sharedDelegated "nobody").Exec fooUpdateOther fooFactory).result = .error err ∧
        ((sharedDelegated "nobody").Exec fooUpdateOther fooFactory).state = fooFactory ∧
        ((sharedDelegated "nobody").Exec fooUpdateOther fooFactory).calls = []) ∧
    (∃ err, ((sharedDelegated "t3").Exec { fooUpdateOther with TableName := "baz" }
          fooFactory).result = .error err ∧
        ((sharedDelegated "t3").Exec { fooUpdateOther with TableName := "baz" }
          fooFactory).state = fooFactory ∧
        ((sharedDelegated "t3").Exec { fooUpdateOther with TableName := "baz" }
          fooFactory).calls = []) ∧
    sharedCatalog.GetPermissionsForToken eqEngine "t4" = .ok grants4 ∧
    ((sharedDelegated "t4").Exec fooUpdateOther fooFactory).calls = [] ∧
    ((sharedDelegated "t6").Exec fooUpdateOther fooFactory).calls = [] :=
  ⟨(delegatedStore_Exec_forwards_iff_authorized (sharedDelegated "t3") fooUpdateOther
      fooFactory).1.2
      ⟨{ ID := 3, UserName := "u3" }, { ID := 1, Name := "foo", StoreID := 7 }, grants3,
        ⟨by decide, by decide, by decide⟩, Or.inr (by decide)⟩,
   (delegatedStore_Exec_forwards_iff_authorized (sharedDelegated "t4") fooUpdateOther
      fooFactory).2.2 (by
        rintro ⟨user, table, perms, ⟨_, _, hp⟩, hg⟩
        have h : (sharedDelegated "t4").as.GetPermissionsForToken
            (sharedDelegated "t4").uo.Token = .ok grants4 := by decide
        rw [h] at hp
        cases hp
        revert hg
        decide),
   (delegatedStore_Exec_forwards_iff_authorized (sharedDelegated "t6") fooUpdateOther
      fooFactory).2.2 (by
        rintro ⟨user, table, perms, ⟨_, _, hp⟩, hg⟩
        have h : (sharedDelegated "t6").as.GetPermissionsForToken
            (sharedDelegated "t6").uo.Token = .ok grants6 := by decide
        rw [h] at hp
        cases hp
        revert hg
        decide),
   (delegatedStore_Exec_forwards_iff_authorized (sharedDelegated "nobody") fooUpdateOther
      fooFactory).2.2 (by
        rintro ⟨user, table, perms, ⟨hu, _, _⟩, _⟩
        have h : (sharedDelegated "nobody").as.GetUser (sharedDelegated "nobody").uo.Token =
            .error (.errorf "user with token 'nobody' not found") := by decide
        rw [h] at hu
        cases hu),
   (delegatedStore_Exec_forwards_iff_authorized (sharedDelegated "t3")
      { fooUpdateOther with TableName := "baz" } fooFactory).2.2 (by
        rintro ⟨user, table, perms, ⟨_, ht, _⟩, _⟩
        have h : (sharedDelegated "t3").as.GetTable "baz" =
            .error (.errorf "table with name 'baz' not found") := by decide
        rw [h] at ht
        cases ht),
   by decide, by decide, by decide⟩

/-! ## Validation of exec requests -/

/-- C9: `ExecOptions.Validate` returns an error exactly when the type is
neither "insert" nor "update", or the table name is empty, or the value list is
empty, or the type is "update" and the where list is empty; otherwise it
returns nil.  Every error it returns wraps `ErrInvalidExecOptions`, and
`sqlite3Store.Exec` returns that error whatever the engine and the database,
leaving the store as it was. -/
theorem ExecOptions_Validate_iff (o : ExecOptions) :
    ((∃ err, o.Validate = some err) ↔
      (¬ (o.Type_ = "insert" ∨ o.Type_ = "update") ∨ o.TableName = "" ∨ o.Values = [] ∨
        (o.Type_ = "update" ∧ o.Where = []))) ∧
    (¬ (¬ (o.Type_ = "insert" ∨ o.Type_ = "update") ∨ o.TableName = "" ∨ o.Values = [] ∨
        (o.Type_ = "update" ∧ o.Where = [])) → o.Validate = none) ∧
    (∀ err, o.Validate = some err → err.Is ErrInvalidExecOptions = true) ∧
    (∀ (E : Engine) (s : sqlite3Store) (err : Error), o.Validate = some err →
      sqlite3Store.Exec E s o = (.error err, s)) := by
  have hiff : (∃ err, o.Validate = some err) ↔
      (¬ (o.Type_ = "insert" ∨ o.Type_ = "update") ∨ o.TableName = "" ∨ o.Values = [] ∨
        (o.Type_ = "update" ∧ o.Where = [])) := by
    unfold ExecOptions.Validate ExecTypeInsert ExecTypeUpdate
    simp only [List.length_eq_zero]
    by_cases h1 : o.Type_ = "insert" ∨ o.Type_ = "update"
    · by_cases h2 : o.TableName = ""
      · simp [h1, h2]
      · by_cases h3 : o.Values = []
        · simp [h1, h2, h3]
        · by_cases h4 : o.Type_ = "update" ∧ o.Where = []
          · simp [h1, h2, h3, h4]
          · simp only [h1, h2, h3, h4, not_true_eq_false, if_false, or_self, not_false_eq_true,
              or_false, false_or]
            simp
    · simp [h1]
  refine ⟨hiff, ?_, ?_, ?_⟩
  · intro hn
    cases hv : o.Validate with
    | none => rfl
    | some err => exact absurd (hiff.1 ⟨err, hv⟩) hn
  · intro err herr
    unfold ExecOptions.Validate at herr
    split_ifs at herr <;> (cases herr; rfl)
  · intro E s err herr
    unfold sqlite3Store.Exec
    rw [herr]

/-- C9 on an example: an update without predicates is rejected with an error
wrapping `ErrInvalidExecOptions`, and the store is left as it was. -/
theorem ExecOptions_Validate_iff_witness :
    (∃ err, ({ fooUpdateOther with Where := [] } : ExecOptions).Validate = some err) ∧
    sqlite3Store.Exec eqEngine fooStore { fooUpdateOther with Where := [] } =
      (.error (NewInvalidExecOptions "update without predicates not allowed"), fooStore) :=
  ⟨(ExecOptions_Validate_iff { fooUpdateOther with Where := [] }).1.2
      (Or.inr (Or.inr (Or.inr ⟨rfl, rfl⟩))),
   (ExecOptions_Validate_iff { fooUpdateOther with Where := [] }).2.2.2 eqEngine fooStore _
      (by decide)⟩

/-! ## Rows a restricted reader can see -/

theorem lookup_project (cols : List String) (r : Row) (c : String) (hc : c ∈ cols) :
    (project cols r).lookup c = some ((r.lookup c).getD Value.null) := by
  unfold project
  induction cols with
  | nil => cases hc
  | cons d rest ih =>
    by_cases hd : c = d
    · subst hd
      simp [List.lookup]
    · have hc1 : c ∈ rest := by
        rcases List.mem_cons.1 hc with h | h
        · exact absurd h hd
        · exact h
      have hbeq : (c == d) = false := by simpa using hd
      simp only [List.map_cons, List.lookup, hbeq]
      exact ih hc1

/-- C1, the code at a where-clause that holds an `OR`: user 1 holds
READ_RESTRICTED and not READ_ALL on `foo`, whose second row belongs to user 2.
The request reaches the backend with `created_by = 1` after the caller's
clause; the builder joins the two into `id = 2 OR id = 2 AND created_by = 1`,
in which `AND` binds first, and the row of user 2 is returned to user 1. -/
theorem delegatedStore_Query_restricted_returns_foreign_row :
    fooCatalog.GetPermissionsForToken eqEngine "t1" =
      .ok [{ TableName := "foo", Permission := "WRITE_RESTRICTED" },
           { TableName := "foo", Permission := "READ_RESTRICTED" }] ∧
    fooCatalog.GetUser eqEngine "t1" = .ok { ID := 1, UserName := "u1" } ∧
    ((fooDelegated "t1").Query fooSelectEscaping fooFactory).calls =
      [.New { DataSource := "", ID := 7 },
       .Query 7 { TableName := "foo", IncludeColumns := ["id", "name", "created_by"],
                  Where := ["id = 2 OR id = 2", "created_by = 1"], Limit := 0 }] ∧
    whereText ["id = 2 OR id = 2", "created_by = 1"] =
      "id = 2 OR id = 2 AND created_by = 1" ∧
    ((fooDelegated "t1").Query fooSelectEscaping fooFactory).result =
      .ok [[("id", .int 2), ("name", .text "test2"), ("created_by", .int 2)]] := by
  decide

/-! ## Rows a restricted writer can change -/

theorem DB.lookup_put (db : DB) (name : String) (t1 : TableData) (n : String) :
    (db.put name t1).lookup n =
      if n = name then (db.lookup name).map (fun _ => t1) else db.lookup n := by
  induction db with
  | nil => simp [DB.put, List.lookup]
  | cons e rest ih =>
    obtain ⟨k, t⟩ := e
    unfold DB.put
    by_cases hk : k = name
    · subst hk
      by_cases hn : n = k
      · subst hn
        simp [List.lookup]
      · have hb : (n == k) = false := by simpa using hn
        simp [List.lookup, hb, hn]
    · rw [if_neg hk]
      have hb : (name == k) = false := by simpa using fun h => hk h.symm
      by_cases hn : n = name
      · subst hn
        simp only [List.lookup, hb, if_true]
        rw [ih, if_pos rfl]
      · by_cases hnk : n = k
        · subst hnk
          simp [List.lookup, hn]
        · have hb2 : (n == k) = false := by simpa using hnk
          simp only [List.lookup, hb2, hn, if_false]
          rw [ih, if_neg hn]

/-- C6, the code at a where-clause that holds an `OR`: user 1 holds
WRITE_RESTRICTED and not WRITE_ALL on `foo`, whose second row belongs to
user 2.  The update reaches the backend with `created_by = 1` after the
caller's clause; the builder joins the two into
`name = 'test2' OR 1 = 0 AND created_by = 1`, in which `AND` binds first; one
row is affected, and it is the row of user 2, renamed. -/
theorem delegatedStore_Exec_restricted_changes_foreign_row :
    fooCatalog.GetPermissionsForToken eqEngine "t1" =
      .ok [{ TableName := "foo", Permission := "WRITE_RESTRICTED" },
           { TableName := "foo", Permission := "READ_RESTRICTED" }] ∧
    fooCatalog.GetUser eqEngine "t1" = .ok { ID := 1, UserName := "u1" } ∧
    ((fooDelegated "t1").Exec fooUpdateEscaping fooFactory).calls =
      [.New { DataSource := "", ID := 7 },
       .Exec 7 { Type_ := "update", TableName := "foo",
                 Values := [{ Name := "name", Value := .text "test3" }],
                 Where := ["name = 'test2' OR 1 = 0", "created_by = 1"] }] ∧
    whereText ["name = 'test2' OR 1 = 0", "created_by = 1"] =
      "name = 'test2' OR 1 = 0 AND created_by = 1" ∧
    ((fooDelegated "t1").Exec fooUpdateEscaping fooFactory).result =
      .ok { LastInsertId := 0, RowsAffected := 1 } ∧
    ((fooDelegated "t1").Exec fooUpdateEscaping fooFactory).state =
      { stores := [(7, { id := 7, db := [("foo", { fooTable with
          rows := [[("id", .int 1), ("name", .text "test1"), ("created_by", .int 1)],
                   [("id", .int 2), ("name", .text "test3"), ("created_by", .int 2)]] })] })] } := by
  decide

/-! ## Lemmas on the engine -/

theorem foldl_max_ge (l : List Int) (a : Int) :
    a ≤ l.foldl max a ∧ ∀ x ∈ l, x ≤ l.foldl max a := by
  induction l generalizing a with
  | nil => simp
  | cons b rest ih =>
    simp only [List.foldl_cons]
    obtain ⟨h1, h2⟩ := ih (max a b)
    refine ⟨le_trans (le_max_left a b) h1, ?_⟩
    intro x hx
    rcases List.mem_cons.1 hx with h | h
    · subst h
      exact le_trans (le_max_right a x) h1
    · exact h2 x h

/-- The automatic id is not in use. -/
theorem nextId_not_mem (t : TableData) (k : String) (hk : t.primaryKey = some k) :
    ¬ nextId t ∈ intValues t.rows k := by
  intro h
  unfold nextId at h
  rw [hk] at h
  simp only at h
  have := (foldl_max_ge (intValues t.rows k) 0).2 _ h
  omega

theorem satisfies_singleton (E : Engine) (w : String) (r : Row) :
    E.satisfies [w] r = E.holds w r := rfl

/-! ## Names pasted into a lookup -/

/-- C10, the code at a name that closes its quote: the catalog holds users `u1`
and `u2` and no user of the name `x' OR '1'='1`.  The lookup text is
`name = 'x' OR '1'='1'`, which holds on every row, so `AddUser` returns the
token of `u1` and stores nothing, the first time and the second: after both
calls the catalog holds no row with the name. -/
theorem adminStore_AddUser_pasted_name :
    usersNamed fooCatalog pastedName = [] ∧
    nameEquals pastedName = "name = 'x' OR '1'='1'" ∧
    fooCatalog.GetUser eqEngine "t1" = .ok { ID := 1, UserName := "u1" } ∧
    fooCatalog.AddUser eqEngine pastedName "t8" = (.ok "t1", fooCatalog) ∧
    (fooCatalog.AddUser eqEngine pastedName "t8").2.AddUser eqEngine pastedName "t9" =
      (.ok "t1", fooCatalog) ∧
    usersNamed ((fooCatalog.AddUser eqEngine pastedName "t8").2.AddUser eqEngine pastedName
      "t9").2 pastedName = [] := by
  decide

/-- C11, the code at a table name that closes its quote: in the catalog user 2
holds READ_ALL on `foo` and nobody holds a grant on the table named
`x' OR '1'='1`.  The lookup text is
`user_id = 1 AND table_name = 'x' OR '1'='1' AND permission = 'READ_ALL'`, which
holds on the row of user 2, so `AddPermission` for user 1 returns nil and
stores nothing, the first time and the second: the triple is in the catalog
not once but never. -/
theorem adminStore_AddPermission_pasted_name :
    grantsOf fooCatalog 1 pastedName "READ_ALL" = [] ∧
    whereText [userIdEquals 1, tableNameEquals pastedName, permissionEquals "READ_ALL"] =
      "user_id = 1 AND table_name = 'x' OR '1'='1' AND permission = 'READ_ALL'" ∧
    fooCatalog.AddPermission eqEngine 1 pastedName "READ_ALL" = (none, fooCatalog) ∧
    (fooCatalog.AddPermission eqEngine 1 pastedName "READ_ALL").2.AddPermission eqEngine 1
      pastedName "READ_ALL" = (none, fooCatalog) ∧
    grantsOf ((fooCatalog.AddPermission eqEngine 1 pastedName "READ_ALL").2.AddPermission
      eqEngine 1 pastedName "READ_ALL").2 1 pastedName "READ_ALL" = [] ∧
    grantsOf fooCatalog 2 "foo" "READ_ALL" =
      [[("user_id", .int 2), ("table_name", .text "foo"),
        ("permission", .text "READ_ALL")]] := by
  decide

/-! ## The store factory -/

/-- C19: when `opts.ID` is a key of the cache, `New` returns the cached backend
with a nil error and leaves the cache as it was, whatever `sql.Open` and the
clock would give: no backend is created. -/
theorem userStoreFactory_New_hit (f : userStoreFactory) (opts : UserStoreOptions)
    (us : sqlite3Store) (h : mapGet f.stores opts.ID = some us) :
    ∀ (sqlOpen : String → Except Error DB) (now : Int),
      userStoreFactory.New sqlOpen f opts now = (.ok us, f) := by
  intro sqlOpen now
  unfold userStoreFactory.New
  rw [h]

/-- C19 on the example: id 7 is cached; even a failing `sql.Open` is not
reached. -/
theorem userStoreFactory_New_hit_witness :
    userStoreFactory.New openFailing fooFactory { DataSource := "", ID := 7 } 99 =
      (.ok fooStore, fooFactory) :=
  userStoreFactory_New_hit fooFactory { DataSource := "", ID := 7 } fooStore (by decide)
    openFailing 99

/-- C20: when `opts.ID` is not cached and creating the backend fails, `New`
returns that error with no store and the cache is as it was before. -/
theorem userStoreFactory_New_create_fails (sqlOpen : String → Except Error DB)
    (f : userStoreFactory) (opts : UserStoreOptions) (now : Int) (err : Error)
    (hmiss : mapGet f.stores opts.ID = none)
    (hfail : NewSQLite3Store sqlOpen opts.DataSource now = .error err) :
    userStoreFactory.New sqlOpen f opts now = (.error err, f) := by
  unfold userStoreFactory.New
  rw [hmiss, hfail]

/-- C20 on the example: id 8 is not cached and `sql.Open` fails. -/
theorem userStoreFactory_New_create_fails_witness :
    userStoreFactory.New openFailing fooFactory { DataSource := "x", ID := 8 } 99 =
      (.error (.engine "unable to open database file"), fooFactory) :=
  userStoreFactory_New_create_fails openFailing fooFactory { DataSource := "x", ID := 8 } 99 _
    (by decide) (by decide)

/-! ## Errors of the SQLite-backed store -/

/-- An error of `sqlite3Store.Query` is a validation error or an engine error,
never a plain `fmt.Errorf`. -/
theorem sqlite3Store.Query_error_not_errorf (E : Engine) (s : sqlite3Store)
    (opts : QueryOptions) (err : Error) (h : s.Query E opts = .error err) :
    err.isErrorf = false := by
  unfold sqlite3Store.Query at h
  cases hv : opts.Validate with
  | some e =>
    rw [hv] at h
    unfold QueryOptions.Validate at hv
    split at hv
    · cases hv; cases h; rfl
    · cases hv
  | none =>
    rw [hv] at h
    unfold Engine.select at h
    simp only at h
    split at h
    · cases h; rfl
    · split at h
      · cases h; rfl
      · split at h
        · cases h; rfl
        · cases h

/-- When `sqlite3Store.Exec` returns an error the store is as it was, and the
error is a validation error or an engine error. -/
theorem sqlite3Store.Exec_error (E : Engine) (s : sqlite3Store) (opts : ExecOptions)
    (err : Error) (h : (s.Exec E opts).1 = .error err) :
    (s.Exec E opts).2 = s ∧ err.isErrorf = false := by
  unfold sqlite3Store.Exec at h ⊢
  cases hv : opts.Validate with
  | some e =>
    rw [hv] at h
    simp only at h ⊢
    refine ⟨trivial, ?_⟩
    cases h
    unfold ExecOptions.Validate at hv
    split_ifs at hv <;> (cases hv; rfl)
  | none =>
    rw [hv] at h
    simp only at h ⊢
    split_ifs at h ⊢ with h1 h2
    · cases hi : Engine.insert s.db opts.TableName (opts.Values.map (·.Name))
          (opts.Values.map (·.Value)) with
      | error e =>
        rw [hi] at h
        simp only at h ⊢
        refine ⟨trivial, ?_⟩
        cases h
        unfold Engine.insert at hi
        simp only at hi
        split at hi
        · cases hi; rfl
        · split at hi
          · cases hi; rfl
          · split at hi
            · split at hi
              · split_ifs at hi
                cases hi; rfl
              · cases hi; rfl
            · cases hi
      | ok p =>
        rw [hi] at h
        cases h
    · cases hu : E.update s.db opts.TableName (opts.Values.map (fun v => (v.Name, v.Value)))
          opts.Where with
      | error e =>
        rw [hu] at h
        simp only at h ⊢
        refine ⟨trivial, ?_⟩
        cases h
        unfold Engine.update at hu
        simp only at hu
        split at hu
        · cases hu; rfl
        · split at hu
          · cases hu; rfl
          · cases hu
      | ok p =>
        rw [hu] at h
        cases h

/-! ## `AddPermission`: validation -/

/-- Past its validation `AddPermission` returns only errors of the catalog
store. -/
theorem adminStore.AddPermission_error_not_errorf (E : Engine) (s : adminStore)
    (userID : Int) (tableName permission : String) (h : permission ∈ defaultPermissions)
    (err : Error) (herr : (s.AddPermission E userID tableName permission).1 = some err) :
    err.isErrorf = false := by
  unfold adminStore.AddPermission at herr
  have hc : defaultPermissions.contains permission = true := by simpa using h
  simp only [hc, Bool.not_true, Bool.false_eq_true, if_false] at herr
  split at herr
  · rename_i e hq
    simp only [Option.some.injEq] at herr
    subst herr
    exact sqlite3Store.Query_error_not_errorf E s.store _ _ hq
  · split_ifs at herr
    split at herr
    · rename_i e st hx
      simp only [Option.some.injEq] at herr
      subst herr
      exact (sqlite3Store.Exec_error E s.store _ e (by rw [hx])).2
    · cases herr

/-- C12: for a permission string outside the four names `AddPermission` returns
the invalid-permission error whatever the engine and the catalog, which it
leaves as it was (nothing is queried or written); the four names are exactly
the valid ones, and for each of them the invalid-permission error is not
returned. -/
theorem adminStore_AddPermission_validation (userID : Int) (tableName permission : String) :
    (permission ∈ defaultPermissions ↔
      (permission = "READ_ALL" ∨ permission = "WRITE_ALL" ∨
        permission = "READ_RESTRICTED" ∨ permission = "WRITE_RESTRICTED")) ∧
    (permission ∉ defaultPermissions → ∀ (E : Engine) (s : adminStore),
      s.AddPermission E userID tableName permission = (some (invalidPermission permission), s)) ∧
    (permission ∈ defaultPermissions → ∀ (E : Engine) (s : adminStore),
      (s.AddPermission E userID tableName permission).1 ≠
        some (invalidPermission permission)) := by
  refine ⟨?_, ?_, ?_⟩
  · simp [defaultPermissions, READ_ALL_PERMISSION, WRITE_ALL_PERMISSION,
      READ_RESTRICTED_PERMISSION, WRITE_RESTRICTED_PERMISSION]
  · intro h E s
    unfold adminStore.AddPermission
    have hc : defaultPermissions.contains permission = false := by simpa using h
    simp only [hc, Bool.not_false, if_true]
  · intro h E s herr
    have h1 := adminStore.AddPermission_error_not_errorf E s userID tableName permission h _ herr
    cases h1

/-- C12 on the example: `READ` is rejected without touching the catalog;
`READ_ALL` is accepted and granted. -/
theorem adminStore_AddPermission_validation_witness :
    emptyCatalog.AddPermission eqEngine 1 "foo" "READ" =
      (some (invalidPermission "READ"), emptyCatalog) ∧
    (emptyCatalog.AddPermission eqEngine 1 "foo" "READ_ALL").1 = none :=
  ⟨(adminStore_AddPermission_validation 1 "foo" "READ").2.1 (by decide) eqEngine emptyCatalog,
   by decide⟩

/-! ## `CreateTable` of the metadata store -/

/-- `CreateTable` when the factory fails. -/
theorem adminStore.CreateTable_of_new_error (E : Engine)
    (sqlOpen : String → Except Error DB) (s : adminStore) (f : userStoreFactory)
    (opts : CreateTableOptions) (now : Int) (err : Error) (f1 : userStoreFactory)
    (hn : userStoreFactory.New sqlOpen f (createOptions s) now = (.error err, f1)) :
    s.CreateTable E sqlOpen f opts now = ⟨some err, s, f1, [.New (createOptions s)]⟩ := by
  unfold adminStore.CreateTable
  simp only [createOptions] at hn
  simp only [hn]
  rfl

/-- `CreateTable` when the backend refuses the table. -/
theorem adminStore.CreateTable_of_backend_error (E : Engine)
    (sqlOpen : String → Except Error DB) (s : adminStore) (f : userStoreFactory)
    (opts : CreateTableOptions) (now : Int) (us : sqlite3Store) (f1 : userStoreFactory)
    (hn : userStoreFactory.New sqlOpen f (createOptions s) now = (.ok us, f1))
    (err : Error) (us1 : sqlite3Store)
    (hc : us.CreateTable (withCreatedBy opts) = (some err, us1)) :
    s.CreateTable E sqlOpen f opts now =
      ⟨some err, s, { stores := mapSet f1.stores (cacheKey f 0 us) us1 },
        [.New (createOptions s), .CreateTable us.ID (withCreatedBy opts)]⟩ := by
  unfold adminStore.CreateTable
  simp only [createOptions] at hn
  simp only [withCreatedBy] at hc
  simp only [hn, hc]
  rfl

/-- `CreateTable` when the backend has created the table: the catalog insert
decides the outcome. -/
theorem adminStore.CreateTable_of_backend_ok (E : Engine)
    (sqlOpen : String → Except Error DB) (s : adminStore) (f : userStoreFactory)
    (opts : CreateTableOptions) (now : Int) (us : sqlite3Store) (f1 : userStoreFactory)
    (hn : userStoreFactory.New sqlOpen f (createOptions s) now = (.ok us, f1))
    (us1 : sqlite3Store) (hc : us.CreateTable (withCreatedBy opts) = (none, us1)) :
    s.CreateTable E sqlOpen f opts now =
      ⟨match (s.store.Exec E
            { Type_ := ExecTypeInsert, TableName := global_tables_table,
              Values := [{ Name := "name", Value := .text opts.TableName },
                         { Name := "store_id", Value := .int us.ID }],
              Where := [] }).1 with
        | .error err => some err
        | .ok _ => none,
       { userStoreDataSource := s.userStoreDataSource
         store := (s.store.Exec E
            { Type_ := ExecTypeInsert, TableName := global_tables_table,
              Values := [{ Name := "name", Value := .text opts.TableName },
                         { Name := "store_id", Value := .int us.ID }],
              Where := [] }).2 },
       { stores := mapSet f1.stores (cacheKey f 0 us) us1 },
       [.New (createOptions s), .CreateTable us.ID (withCreatedBy opts),
        .Exec { Type_ := ExecTypeInsert, TableName := global_tables_table,
                Values := [{ Name := "name", Value := .text opts.TableName },
                           { Name := "store_id", Value := .int us.ID }],
                Where := [] }]⟩ := by
  unfold adminStore.CreateTable
  simp only [createOptions] at hn
  simp only [withCreatedBy] at hc
  simp only [hn, hc]
  rfl

/-- C16: whenever the factory returns a backend, `adminStore.CreateTable` calls
that backend's `CreateTable` once, with the caller's table name and
`IfNotExists` and with the caller's definitions followed by exactly one more,
`["created_by", "integer"]`; when the factory fails no backend is called. -/
theorem adminStore_CreateTable_appends_created_by (E : Engine)
    (sqlOpen : String → Except Error DB) (s : adminStore) (f : userStoreFactory)
    (opts : CreateTableOptions) (now : Int) :
    (∀ us f1, userStoreFactory.New sqlOpen f (createOptions s) now = (.ok us, f1) →
      ∃ rest, (s.CreateTable E sqlOpen f opts now).calls =
          .New (createOptions s) ::
          .CreateTable us.ID
            { TableName := opts.TableName
              Definitions := opts.Definitions ++ [["created_by", "integer"]]
              IfNotExists := opts.IfNotExists } :: rest ∧
        ∀ c ∈ rest, ∃ eo, c = AdminCall.Exec eo) ∧
    (∀ err f1, userStoreFactory.New sqlOpen f (createOptions s) now = (.error err, f1) →
      (s.CreateTable E sqlOpen f opts now).calls = [.New (createOptions s)]) := by
  constructor
  · intro us f1 hnew
    rcases hc : us.CreateTable (withCreatedBy opts) with ⟨r, us1⟩
    cases r with
    | some err =>
      rw [adminStore.CreateTable_of_backend_error E sqlOpen s f opts now us f1 hnew err us1 hc]
      exact ⟨[], rfl, by simp⟩
    | none =>
      rw [adminStore.CreateTable_of_backend_ok E sqlOpen s f opts now us f1 hnew us1 hc]
      exact ⟨_, rfl, by simp⟩
  · intro err f1 hnew
    rw [adminStore.CreateTable_of_new_error E sqlOpen s f opts now err f1 hnew]

/-- C16 on the example: the backend created for `foo` is handed the two
definitions of the caller and `created_by` after them. -/
theorem adminStore_CreateTable_appends_created_by_witness :
    (emptyCatalog.CreateTable eqEngine openEmpty NewUserStoreFactory fooCreate 5).calls.take 2 =
      [.New { DataSource := ":memory:", ID := 0 },
       .CreateTable 5
          { TableName := "foo"
            Definitions := [["id", "integer", "not null", "primary key"], ["name", "text"],
                            ["created_by", "integer"]]
            IfNotExists := false }] := by
  obtain ⟨rest, h, _⟩ := (adminStore_CreateTable_appends_created_by eqEngine openEmpty
    emptyCatalog NewUserStoreFactory fooCreate 5).1 { id := 5, db := [] }
    { stores := [(5, { id := 5, db := [] })] } (by decide)
  rw [h]
  rfl

/-- When `CreateTable` returns an error the metadata store is as it was. -/
theorem adminStore.CreateTable_error_keeps_catalog (E : Engine)
    (sqlOpen : String → Except Error DB) (s : adminStore) (f : userStoreFactory)
    (opts : CreateTableOptions) (now : Int) (err : Error)
    (herr : (s.CreateTable E sqlOpen f opts now).err = some err) :
    (s.CreateTable E sqlOpen f opts now).as = s := by
  rcases hn : userStoreFactory.New sqlOpen f (createOptions s) now with ⟨r, f1⟩
  cases r with
  | error e => rw [adminStore.CreateTable_of_new_error E sqlOpen s f opts now e f1 hn]
  | ok us =>
    rcases hc : us.CreateTable (withCreatedBy opts) with ⟨r, us1⟩
    cases r with
    | some e =>
      rw [adminStore.CreateTable_of_backend_error E sqlOpen s f opts now us f1 hn e us1 hc]
    | none =>
      rw [adminStore.CreateTable_of_backend_ok E sqlOpen s f opts now us f1 hn us1 hc] at herr ⊢
      simp only at herr ⊢
      split at herr
      · rename_i e hx
        rw [(sqlite3Store.Exec_error E s.store _ e hx).1]
      · cases herr

/-- C17: `CreateTable` with an empty table name returns an error and adds no
row to the tables catalog; once the factory has returned a backend that error
is the validation error, which wraps `ErrInvalidTableCreationOptions`.  More
generally, whenever `CreateTable` returns an error (an empty name, a failing
backend create, or any other), the metadata store, its tables catalog
included, is as it was. -/
theorem adminStore_CreateTable_empty_name (E : Engine)
    (sqlOpen : String → Except Error DB) (s : adminStore) (f : userStoreFactory)
    (opts : CreateTableOptions) (now : Int) :
    (opts.TableName = "" →
      ∃ err, (s.CreateTable E sqlOpen f opts now).err = some err ∧
        (s.CreateTable E sqlOpen f opts now).as = s ∧
        (∀ us f1, userStoreFactory.New sqlOpen f (createOptions s) now = (.ok us, f1) →
          err = NewInvalidTableCreationOptions "table name is empty" ∧
          err.Is ErrInvalidTableCreationOptions = true)) ∧
    (∀ err, (s.CreateTable E sqlOpen f opts now).err = some err →
      (s.CreateTable E sqlOpen f opts now).as = s ∧
      catalogRows (s.CreateTable E sqlOpen f opts now).as global_tables_table =
        catalogRows s global_tables_table) := by
  constructor
  · intro hname
    have hv : ∀ us : sqlite3Store,
        us.CreateTable (withCreatedBy opts) =
          (some (NewInvalidTableCreationOptions "table name is empty"), us) := by
      intro us
      unfold sqlite3Store.CreateTable CreateTableOptions.Validate withCreatedBy
      simp [hname]
    rcases hn : userStoreFactory.New sqlOpen f (createOptions s) now with ⟨r, f1⟩
    cases r with
    | error e =>
      rw [adminStore.CreateTable_of_new_error E sqlOpen s f opts now e f1 hn]
      exact ⟨e, rfl, rfl, fun us f2 h => by cases h⟩
    | ok us =>
      rw [adminStore.CreateTable_of_backend_error E sqlOpen s f opts now us f1 hn _ us (hv us)]
      exact ⟨_, rfl, rfl, fun us2 f2 _ => ⟨rfl, rfl⟩⟩
  · intro err herr
    have h := adminStore.CreateTable_error_keeps_catalog E sqlOpen s f opts now err herr
    exact ⟨h, by rw [h]⟩

/-- C17 on the example: an empty name on the initialised catalog. -/
theorem adminStore_CreateTable_empty_name_witness :
    ∃ err, (emptyCatalog.CreateTable eqEngine openEmpty NewUserStoreFactory
        { fooCreate with TableName := "" } 5).err = some err ∧
      (emptyCatalog.CreateTable eqEngine openEmpty NewUserStoreFactory
        { fooCreate with TableName := "" } 5).as = emptyCatalog ∧
      (∀ us f1, userStoreFactory.New openEmpty NewUserStoreFactory
          (createOptions emptyCatalog) 5 = (.ok us, f1) →
        err = NewInvalidTableCreationOptions "table name is empty" ∧
        err.Is ErrInvalidTableCreationOptions = true) :=
  (adminStore_CreateTable_empty_name eqEngine openEmpty emptyCatalog NewUserStoreFactory
    { fooCreate with TableName := "" } 5).1 rfl

/-! ## The cache over a sequence of `New` calls -/

theorem mapGet_mapSet {α : Type} (l : List (Int × α)) (key : Int) (v : α) (k : Int) :
    mapGet (mapSet l key v) k = if k = key then some v else mapGet l k := by
  induction l with
  | nil =>
    unfold mapSet mapGet
    by_cases h : key = k
    · subst h; simp
    · have h1 : ¬ k = key := fun hh => h hh.symm
      simp [h, h1, mapGet]
  | cons e rest ih =>
    obtain ⟨k0, w⟩ := e
    unfold mapSet
    by_cases h0 : k0 = key
    · subst h0
      by_cases hk : k = k0
      · subst hk; simp [mapGet]
      · have hk1 : ¬ k0 = k := fun hh => hk hh.symm
        simp [mapGet, hk, hk1]
    · rw [if_neg h0]
      by_cases hk0 : k0 = k
      · subst hk0
        have : ¬ k0 = key := h0
        simp [mapGet, this]
      · simp only [mapGet, hk0, if_false]
        exact ih

/-- One `New` call whose clock reading, on a miss, is not yet a key keeps every
cache entry. -/
theorem userStoreFactory.New_keeps_entries (sqlOpen : String → Except Error DB)
    (f : userStoreFactory) (opts : UserStoreOptions) (now : Int)
    (hfresh : mapGet f.stores opts.ID = none → mapGet f.stores now = none)
    (k : Int) (us : sqlite3Store) (hk : mapGet f.stores k = some us) :
    mapGet (userStoreFactory.New sqlOpen f opts now).2.stores k = some us := by
  unfold userStoreFactory.New
  cases hhit : mapGet f.stores opts.ID with
  | some us0 => exact hk
  | none =>
    simp only
    unfold NewSQLite3Store
    cases ho : sqlOpen opts.DataSource with
    | error e => exact hk
    | ok db =>
      simp only [sqlite3Store.ID]
      rw [mapGet_mapSet]
      have hne : ¬ k = now := by
        intro h
        subst h
        rw [hfresh hhit] at hk
        cases hk
      rw [if_neg hne]
      exact hk

/-- C18 (amended): over every sequence of `New` calls in which each clock
reading taken on a cache miss is not already a key of the cache, an id that is
a key of the cache maps to the same backend after all the calls: no entry is
removed or replaced. -/
theorem userStoreFactory_New_keeps_cache (sqlOpen : String → Except Error DB)
    (f : userStoreFactory) (calls : List (UserStoreOptions × Int))
    (hfresh : ClockFresh sqlOpen f calls) (k : Int) (us : sqlite3Store)
    (hk : mapGet f.stores k = some us) :
    mapGet (runNew sqlOpen f calls).stores k = some us := by
  induction calls generalizing f with
  | nil => exact hk
  | cons c rest ih =>
    obtain ⟨opts, now⟩ := c
    obtain ⟨h1, h2⟩ := hfresh
    exact ih _ h2 (userStoreFactory.New_keeps_entries sqlOpen f opts now h1 k us hk)

/-- C18 on the example: a miss at clock reading 99 followed by a hit leave the
backend cached under 7 in place. -/
theorem userStoreFactory_New_keeps_cache_witness :
    mapGet (runNew openEmpty fooFactory
      [({ DataSource := "", ID := 8 }, 99), ({ DataSource := "", ID := 7 }, 100)]).stores 7 =
      some fooStore :=
  userStoreFactory_New_keeps_cache openEmpty fooFactory
    [({ DataSource := "", ID := 8 }, 99), ({ DataSource := "", ID := 7 }, 100)]
    ⟨by decide, by decide, trivial⟩ 7 fooStore (by decide)

/-- C18, the claim as stated fails: with `fooStore` cached under 7, a miss for
id 8 while the clock reads 7 files the new, empty backend under 7; the entry
for 7 is replaced and the id assigned is one the cache already held. -/
theorem userStoreFactory_New_clock_collision :
    mapGet fooFactory.stores 7 = some fooStore ∧
    (userStoreFactory.New openEmpty fooFactory { DataSource := "", ID := 8 } 7).1 =
      .ok { id := 7, db := [] } ∧
    mapGet (runNew openEmpty fooFactory [({ DataSource := "", ID := 8 }, 7)]).stores 7 =
      some { id := 7, db := [] } ∧
    mapGet (runNew openEmpty fooFactory [({ DataSource := "", ID := 8 }, 7)]).stores 7 ≠
      some fooStore := by
  decide

/-! ## The grant catalog -/

theorem grants_columns (t : TableData) (h : t.Definitions = grantsDefinitions) :
    t.columns = ["user_id", "table_name", "permission"] := by
  unfold TableData.columns
  rw [h]
  rfl

/-! ## Grants and users -/

/-- C13, the code at a grant for a user id no users row carries: on the catalog
`init` leaves on an empty database, `AddPermission 42 "foo" "READ_ALL"` returns
nil and stores the grant although the users catalog is empty. -/
theorem adminStore_AddPermission_unknown_user :
    (adminStore.init eqEngine
      { userStoreDataSource := ":memory:", store := { id := 3, db := [] } }).1 = none ∧
    catalogRows emptyCatalog global_users = [] ∧
    (emptyCatalog.AddPermission eqEngine 42 "foo" "READ_ALL").1 = none ∧
    catalogRows (emptyCatalog.AddPermission eqEngine 42 "foo" "READ_ALL").2
        global_user_table_permission =
      [[("user_id", .int 42), ("table_name", .text "foo"), ("permission", .text "READ_ALL")]] ∧
    catalogRows (emptyCatalog.AddPermission eqEngine 42 "foo" "READ_ALL").2 global_users = [] := by
  decide

/-! ## The tables catalog over a sequence of `CreateTable` calls -/

/-- A column given a non-null value in an `INSERT` carries that value in the
stored row. -/
theorem newRow_lookup_given (t : TableData) (given : List (String × Value)) (c : String)
    (v : Value) (hc : c ∈ t.columns) (hg : given.lookup c = some v) (hv : v ≠ Value.null) :
    (newRow t given).lookup c = some v := by
  unfold newRow
  generalize t.columns = cols at hc
  induction cols with
  | nil => cases hc
  | cons d rest ih =>
    by_cases hd : c = d
    · subst hd
      simp only [List.map_cons, hg]
      have hn : ¬ (t.primaryKey = some c ∧ v = Value.null) := fun h => hv h.2
      rw [if_neg hn]
      simp [List.lookup]
    · have hc1 : c ∈ rest := by
        rcases List.mem_cons.1 hc with h | h
        · exact absurd h hd
        · exact h
      have hb : (c == d) = false := by simpa using hd
      simp only [List.map_cons]
      cases hgd : given.lookup d with
      | none =>
        simp only
        split_ifs <;> (simp only [List.lookup, hb]; exact ih hc1)
      | some w =>
        simp only
        split_ifs <;> (simp only [List.lookup, hb]; exact ih hc1)

/-- A successful `INSERT` appends one row, built by `newRow`, to the table. -/
theorem Engine.insert_ok (db : DB) (table : String) (cols : List String) (vals : List Value)
    (i : Int) (db1 : DB) (h : Engine.insert db table cols vals = .ok (i, db1)) :
    ∃ t, db.lookup table = some t ∧ (∀ c ∈ cols, c ∈ t.columns) ∧
      db1 = db.put table
        { Definitions := t.Definitions, rows := t.rows ++ [newRow t (cols.zip vals)] } := by
  unfold Engine.insert at h
  cases ht : db.lookup table with
  | none => rw [ht] at h; cases h
  | some t =>
    rw [ht] at h
    simp only at h
    cases hf : cols.find? (fun c => !t.columns.contains c) with
    | some c => rw [hf] at h; cases h
    | none =>
      rw [hf] at h
      simp only at h
      have hcols : ∀ c ∈ cols, c ∈ t.columns := by
        intro c hc
        have := (List.find?_eq_none.1 hf) c hc
        simpa using this
      refine ⟨t, rfl, hcols, ?_⟩
      split at h
      · split at h
        · split at h
          · cases h
          · simp only [Except.ok.injEq, Prod.mk.injEq] at h
            exact h.2.symm
        · cases h
      · simp only [Except.ok.injEq, Prod.mk.injEq] at h
        exact h.2.symm

/-- A successful insert-shaped `sqlite3Store.Exec` appends one row to the
table. -/
theorem sqlite3Store.Exec_insert_ok (E : Engine) (s : sqlite3Store) (opts : ExecOptions)
    (hins : opts.Type_ = ExecTypeInsert) (res : ExecResult)
    (h : (s.Exec E opts).1 = .ok res) :
    ∃ t, s.db.lookup opts.TableName = some t ∧ (∀ v ∈ opts.Values, v.Name ∈ t.columns) ∧
      (s.Exec E opts).2.db = s.db.put opts.TableName
        { Definitions := t.Definitions
          rows := t.rows ++ [newRow t ((opts.Values.map (·.Name)).zip
            (opts.Values.map (·.Value)))] } := by
  unfold sqlite3Store.Exec at h ⊢
  cases hv : opts.Validate with
  | some e => rw [hv] at h; cases h
  | none =>
    rw [hv] at h
    simp only [if_pos hins] at h ⊢
    cases hi : Engine.insert s.db opts.TableName (opts.Values.map (·.Name))
        (opts.Values.map (·.Value)) with
    | error e => rw [hi] at h; cases h
    | ok p =>
      obtain ⟨i, db1⟩ := p
      obtain ⟨t, ht, hcols, hdb⟩ := Engine.insert_ok _ _ _ _ i db1 hi
      refine ⟨t, ht, ?_, hdb⟩
      intro v hv1
      exact hcols v.Name (List.mem_map.2 ⟨v, hv1, rfl⟩)

/-- One `CreateTable` call leaves the rows of the tables catalog as they were
or appends one row carrying the requested name. -/
theorem adminStore.CreateTable_tables_rows (E : Engine)
    (sqlOpen : String → Except Error DB) (s : adminStore) (f : userStoreFactory)
    (opts : CreateTableOptions) (now : Int) :
    catalogRows (s.CreateTable E sqlOpen f opts now).as global_tables_table =
        catalogRows s global_tables_table ∨
    ∃ r, r.lookup "name" = some (Value.text opts.TableName) ∧
      catalogRows (s.CreateTable E sqlOpen f opts now).as global_tables_table =
        catalogRows s global_tables_table ++ [r] := by
  rcases hn : userStoreFactory.New sqlOpen f (createOptions s) now with ⟨r, f1⟩
  cases r with
  | error e =>
    rw [adminStore.CreateTable_of_new_error E sqlOpen s f opts now e f1 hn]
    exact Or.inl rfl
  | ok us =>
    rcases hc : us.CreateTable (withCreatedBy opts) with ⟨r, us1⟩
    cases r with
    | some e =>
      rw [adminStore.CreateTable_of_backend_error E sqlOpen s f opts now us f1 hn e us1 hc]
      exact Or.inl rfl
    | none =>
      rw [adminStore.CreateTable_of_backend_ok E sqlOpen s f opts now us f1 hn us1 hc]
      simp only
      cases hx : (s.store.Exec E
            { Type_ := ExecTypeInsert, TableName := global_tables_table,
              Values := [{ Name := "name", Value := .text opts.TableName },
                         { Name := "store_id", Value := .int us.ID }],
              Where := [] }).1 with
      | error e =>
        left
        rw [(sqlite3Store.Exec_error E s.store _ e hx).1]
      | ok res =>
        right
        obtain ⟨t, ht, hcols, hdb⟩ := sqlite3Store.Exec_insert_ok E s.store _ rfl res hx
        refine ⟨newRow t [("name", .text opts.TableName), ("store_id", .int us.ID)], ?_, ?_⟩
        · apply newRow_lookup_given
          · exact hcols { Name := "name", Value := .text opts.TableName } (by simp)
          · simp [List.lookup]
          · intro h; cases h
        · unfold catalogRows
          simp only [hdb]
          rw [DB.lookup_put, if_pos rfl, ht]
          rfl

/-- Over a sequence of `CreateTable` calls the names in the tables catalog are
the names it held, followed by names of the calls, in call order, each call
contributing at most once. -/
theorem runCreateTable_names (E : Engine) (sqlOpen : String → Except Error DB)
    (calls : List (CreateTableOptions × Int)) :
    ∀ (s : adminStore) (f : userStoreFactory),
      ∃ sub, List.Sublist sub (calls.map (fun c => some (Value.text c.1.TableName))) ∧
        (catalogRows (runCreateTable E sqlOpen (s, f) calls).1 global_tables_table).map
            (fun r => r.lookup "name") =
          (catalogRows s global_tables_table).map (fun r => r.lookup "name") ++ sub := by
  induction calls with
  | nil =>
    intro s f
    exact ⟨[], List.Sublist.refl _, by simp [runCreateTable]⟩
  | cons c rest ih =>
    intro s f
    obtain ⟨opts, now⟩ := c
    obtain ⟨sub, hsub, hnames⟩ := ih (s.CreateTable E sqlOpen f opts now).as
      (s.CreateTable E sqlOpen f opts now).usf
    rcases adminStore.CreateTable_tables_rows E sqlOpen s f opts now with h | ⟨r, hr, h⟩
    · refine ⟨sub, List.Sublist.cons _ hsub, ?_⟩
      simp only [runCreateTable]
      rw [hnames, h]
    · refine ⟨some (Value.text opts.TableName) :: sub, List.Sublist.cons₂ _ hsub, ?_⟩
      simp only [runCreateTable]
      rw [hnames, h]
      simp [hr]

theorem filter_name_length_eq (rows : List Row) (x : Option Value) :
    (rows.filter (fun r => decide (r.lookup "name" = x))).length =
      ((rows.map (fun r => r.lookup "name")).filter (fun y => decide (y = x))).length := by
  induction rows with
  | nil => rfl
  | cons r rest ih =>
    by_cases h : r.lookup "name" = x
    · simp [List.filter, h, ih]
    · simp [List.filter, h, ih]

theorem nodup_filter_eq_length_le_one {α : Type} [DecidableEq α] (l : List α) (h : l.Nodup)
    (x : α) : (l.filter (fun y => decide (y = x))).length ≤ 1 := by
  induction l with
  | nil => simp
  | cons a rest ih =>
    obtain ⟨ha, hrest⟩ := List.nodup_cons.1 h
    by_cases hax : a = x
    · subst hax
      have hnil : rest.filter (fun y => decide (y = a)) = [] := by
        rw [List.filter_eq_nil_iff]
        intro y hy hya
        simp only [decide_eq_true_eq] at hya
        subst hya
        exact ha hy
      simp [List.filter, hnil]
    · simp only [List.filter, hax, decide_False]
      exact ih hrest

/-- C14 (amended): starting from a tables catalog without rows, after any
sequence of `CreateTable` calls whose table names are pairwise distinct the
tables catalog holds at most one row for any given name. -/
theorem adminStore_CreateTable_distinct_names (E : Engine)
    (sqlOpen : String → Except Error DB) (s : adminStore) (f : userStoreFactory)
    (calls : List (CreateTableOptions × Int))
    (hempty : catalogRows s global_tables_table = [])
    (hdistinct : (calls.map (fun c => c.1.TableName)).Nodup) (n : String) :
    (tablesNamed (runCreateTable E sqlOpen (s, f) calls).1 n).length ≤ 1 := by
  obtain ⟨sub, hsub, hnames⟩ := runCreateTable_names E sqlOpen calls s f
  rw [hempty] at hnames
  simp only [List.map_nil, List.nil_append] at hnames
  have hinj : Function.Injective (fun m : String => some (Value.text m)) := by
    intro a b hab
    simp only [Option.some.injEq, Value.text.injEq] at hab
    exact hab
  have hnd : (calls.map (fun c => some (Value.text c.1.TableName))).Nodup := by
    have := List.Nodup.map hinj hdistinct
    simpa [List.map_map] using this
  have hsubnd : sub.Nodup := List.Nodup.sublist hsub hnd
  unfold tablesNamed
  rw [filter_name_length_eq, hnames]
  exact nodup_filter_eq_length_le_one sub hsubnd _

/-- C14 on the example: `foo` and `bar` created on the initialised catalog. -/
theorem adminStore_CreateTable_distinct_names_witness :
    (tablesNamed (runCreateTable eqEngine openEmpty (emptyCatalog, NewUserStoreFactory)
      [(fooCreate, 5), ({ fooCreate with TableName := "bar" }, 6)]).1 "foo").length ≤ 1 :=
  adminStore_CreateTable_distinct_names eqEngine openEmpty emptyCatalog NewUserStoreFactory
    [(fooCreate, 5), ({ fooCreate with TableName := "bar" }, 6)] (by decide) (by decide) "foo"

/-- C14, the claim as stated fails: two `CreateTable` calls for `foo` on the
initialised catalog both succeed, each on a backend of its own, and the tables
catalog then holds two rows named `foo`. -/
theorem adminStore_CreateTable_same_name_twice :
    (emptyCatalog.CreateTable eqEngine openEmpty NewUserStoreFactory fooCreate 5).err = none ∧
    ((emptyCatalog.CreateTable eqEngine openEmpty NewUserStoreFactory fooCreate 5).as.CreateTable
      eqEngine openEmpty
      (emptyCatalog.CreateTable eqEngine openEmpty NewUserStoreFactory fooCreate 5).usf
      fooCreate 6).err = none ∧
    tablesNamed (runCreateTable eqEngine openEmpty (emptyCatalog, NewUserStoreFactory)
      [(fooCreate, 5), (fooCreate, 6)]).1 "foo" =
      [[("id", .int 1), ("name", .text "foo"), ("store_id", .int 5)],
       [("id", .int 2), ("name", .text "foo"), ("store_id", .int 6)]] := by
  decide

/-! ## From `CreateTable` to dispatch -/

theorem tables_columns (t : TableData) (h : t.Definitions = tablesDefinitions) :
    t.columns = ["id", "name", "store_id"] := by
  unfold TableData.columns
  rw [h]
  rfl

theorem tables_primaryKey (t : TableData) (h : t.Definitions = tablesDefinitions) :
    t.primaryKey = some "id" := by
  unfold TableData.primaryKey
  rw [h]
  rfl

/-- The lookup of `GetTable`, on an initialised tables catalog. -/
theorem tablesQuery_eq (E : Engine) (s : sqlite3Store) (t : TableData) (w : List String)
    (ht : s.db.lookup global_tables_table = some t)
    (hdefs : t.Definitions = tablesDefinitions) :
    s.Query E { TableName := global_tables_table, IncludeColumns := ["id", "name", "store_id"],
                Where := w, Limit := 1 } =
      .ok (((t.rows.filter (E.satisfies w)).take 1).map
        (project ["id", "name", "store_id"])) := by
  have hne : ¬ global_tables_table = "" := by decide
  have hfind : List.find? (fun c => !t.columns.contains c) ["id", "name", "store_id"] = none := by
    rw [tables_columns t hdefs]
    rfl
  unfold sqlite3Store.Query QueryOptions.Validate
  simp only [hne, if_false]
  unfold Engine.select
  simp only [ht, hfind]
  rfl

/-- The row `CreateTable` inserts into an initialised tables catalog. -/
theorem tables_newRow (t : TableData) (n : String) (storeID : Int)
    (hdefs : t.Definitions = tablesDefinitions) :
    newRow t [("name", Value.text n), ("store_id", Value.int storeID)] =
      [("id", Value.int (nextId t)), ("name", Value.text n),
       ("store_id", Value.int storeID)] := by
  unfold newRow
  rw [tables_columns t hdefs, tables_primaryKey t hdefs]
  simp [List.lookup]

/-- `GetTable` when the lookup finds a well-typed row. -/
theorem adminStore.GetTable_found (E : Engine) (s : adminStore) (n : String)
    (t : TableData) (ht : s.store.db.lookup global_tables_table = some t)
    (hdefs : t.Definitions = tablesDefinitions) (r0 : Row) (rest : List Row)
    (hm : t.rows.filter (E.satisfies [nameEquals n]) = r0 :: rest)
    (id storeID : Int) (name : String)
    (hid : r0.lookup "id" = some (Value.int id))
    (hname : r0.lookup "name" = some (Value.text name))
    (hsid : r0.lookup "store_id" = some (Value.int storeID)) :
    s.GetTable E n = .ok { ID := id, Name := name, StoreID := storeID } := by
  unfold adminStore.GetTable
  rw [tablesQuery_eq E s.store t [nameEquals n] ht hdefs, hm]
  have h1 : (project ["id", "name", "store_id"] r0).lookup "id" = some (Value.int id) := by
    rw [lookup_project _ _ _ (by simp), hid]; rfl
  have h2 : (project ["id", "name", "store_id"] r0).lookup "name" = some (Value.text name) := by
    rw [lookup_project _ _ _ (by simp), hname]; rfl
  have h3 : (project ["id", "name", "store_id"] r0).lookup "store_id" =
      some (Value.int storeID) := by
    rw [lookup_project _ _ _ (by simp), hsid]; rfl
  simp only [List.take_succ_cons, List.take_zero, List.map_cons, List.map_nil, h1, h2, h3]

/-- A backend that has accepted `CreateTable` keeps its id and holds the
table. -/
theorem sqlite3Store.CreateTable_ok (us us1 : sqlite3Store) (opts : CreateTableOptions)
    (h : us.CreateTable opts = (none, us1)) :
    us1.ID = us.ID ∧ ∃ td, us1.db.lookup opts.TableName = some td := by
  unfold sqlite3Store.CreateTable at h
  cases hv : opts.Validate with
  | some e => rw [hv] at h; cases h
  | none =>
    rw [hv] at h
    simp only at h
    unfold Engine.createTable at h
    cases hl : us.db.lookup opts.TableName with
    | some td =>
      rw [hl] at h
      simp only at h
      split_ifs at h
      · simp only [Prod.mk.injEq, true_and] at h
        subst h
        exact ⟨rfl, td, hl⟩
      · cases h
    | none =>
      rw [hl] at h
      simp only [Prod.mk.injEq, true_and] at h
      subst h
      refine ⟨rfl, { Definitions := opts.Definitions, rows := [] }, ?_⟩
      simp only [List.lookup_append, hl, Option.none_or]
      simp [List.lookup]

/-- A cache hit. -/
theorem userStoreFactory.New_of_hit (sqlOpen : String → Except Error DB)
    (f : userStoreFactory) (opts : UserStoreOptions) (now : Int) (us : sqlite3Store)
    (h : mapGet f.stores opts.ID = some us) :
    userStoreFactory.New sqlOpen f opts now = (.ok us, f) := by
  unfold userStoreFactory.New
  rw [h]

/-- The backend `New` returns has, in a well-keyed cache, the id of its cache
entry, and is cached there afterwards. -/
theorem userStoreFactory.New_ok_cached (sqlOpen : String → Except Error DB)
    (f : userStoreFactory) (opts : UserStoreOptions) (now : Int) (us : sqlite3Store)
    (f1 : userStoreFactory) (hwk : WellKeyed f)
    (h : userStoreFactory.New sqlOpen f opts now = (.ok us, f1)) :
    cacheKey f opts.ID us = us.ID ∧ mapGet f1.stores us.ID = some us := by
  unfold userStoreFactory.New at h
  unfold cacheKey
  cases hhit : mapGet f.stores opts.ID with
  | some us0 =>
    rw [hhit] at h
    simp only [Prod.mk.injEq, Except.ok.injEq] at h
    obtain ⟨h1, h2⟩ := h
    subst h1 h2
    have := hwk _ _ hhit
    simp only [Option.isSome_some, if_true]
    exact ⟨this.symm, by rw [this]; exact hhit⟩
  | none =>
    rw [hhit] at h
    simp only at h
    cases hc : NewSQLite3Store sqlOpen opts.DataSource now with
    | error e => rw [hc] at h; cases h
    | ok us0 =>
      rw [hc] at h
      simp only [Prod.mk.injEq, Except.ok.injEq] at h
      obtain ⟨h1, h2⟩ := h
      subst h1 h2
      simp only [Option.isSome_none, Bool.false_eq_true, if_false, true_and]
      rw [mapGet_mapSet, if_pos rfl]

/-- The insert of `CreateTable` on an initialised tables catalog appends the
row and succeeds. -/
theorem tablesInsert_eq (E : Engine) (s : sqlite3Store) (t : TableData) (n : String)
    (storeID : Int) (ht : s.db.lookup global_tables_table = some t)
    (hdefs : t.Definitions = tablesDefinitions) :
    s.Exec E { Type_ := ExecTypeInsert, TableName := global_tables_table,
               Values := [{ Name := "name", Value := .text n },
                          { Name := "store_id", Value := .int storeID }],
               Where := [] } =
      (.ok { LastInsertId := nextId t, RowsAffected := 0 },
       { id := s.id
         db := s.db.put global_tables_table
          { Definitions := t.Definitions
            rows := t.rows ++ [newRow t [("name", .text n), ("store_id", .int storeID)]] } }) := by
  have hfind : List.find? (fun c => !t.columns.contains c) ["name", "store_id"] = none := by
    rw [tables_columns t hdefs]
    rfl
  have hpk := tables_primaryKey t hdefs
  have hrow := tables_newRow t n storeID hdefs
  have hfresh : ¬ nextId t ∈ intValues t.rows "id" := nextId_not_mem t "id" hpk
  have hv : ({ Type_ := ExecTypeInsert, TableName := global_tables_table,
               Values := [{ Name := "name", Value := .text n },
                          { Name := "store_id", Value := .int storeID }],
               Where := [] } : ExecOptions).Validate = none := by
    unfold ExecOptions.Validate
    simp [ExecTypeInsert, ExecTypeUpdate, global_tables_table]
  unfold sqlite3Store.Exec
  rw [hv]
  simp only [if_true, List.map_cons, List.map_nil]
  unfold Engine.insert
  simp only [ht, hfind, List.zip_cons_cons, List.zip_nil_right, hpk]
  rw [hrow]
  simp [List.lookup, hfresh]

/-- An authorized delegated `Query` for a table whose store id is cached runs
on the cached backend and returns its answer; the cache is as it was. -/
theorem delegatedOver_Query_cached (E : Engine) (sqlOpen : String → Except Error DB)
    (now : Int) (as : AdminStore) (token : String) (f : userStoreFactory)
    (q : QueryOptions) (user : User) (table : Table) (tp : List String)
    (us1 : sqlite3Store)
    (hres : (delegatedOver E sqlOpen now as token).Resolves q.TableName user table tp)
    (hr : READ_ALL_PERMISSION ∈ tp ∨ READ_RESTRICTED_PERMISSION ∈ tp)
    (hc : mapGet f.stores table.StoreID = some us1) :
    ((delegatedOver E sqlOpen now as token).Query q f).calls =
        [.New (factoryOptions table), .Query us1.ID (rewriteQuery q tp user.ID)] ∧
    ((delegatedOver E sqlOpen now as token).Query q f).result =
        us1.Query E (rewriteQuery q tp user.ID) ∧
    ((delegatedOver E sqlOpen now as token).Query q f).state = f := by
  have hnew : (delegatedOver E sqlOpen now as token).usf.New (factoryOptions table) f =
      (.ok (sqlite3Store.handle E (cacheKey f table.StoreID us1) us1), f) := by
    have hdef : (delegatedOver E sqlOpen now as token).usf.New (factoryOptions table) f =
        match userStoreFactory.New sqlOpen f (factoryOptions table) now with
        | (.error err, f1) => (.error err, f1)
        | (.ok us, f1) =>
            (.ok (sqlite3Store.handle E (cacheKey f table.StoreID us) us), f1) := rfl
    rw [hdef, userStoreFactory.New_of_hit sqlOpen f (factoryOptions table) now us1 hc]
  rw [delegatedStore.Query_authorized _ q f user table tp hres hr, hnew]
  exact ⟨rfl, rfl, rfl⟩

/-- An authorized delegated `Exec` for a table whose store id is cached runs on
the cached backend and returns its answer; the cache entry takes the backend
as `Exec` leaves it. -/
theorem delegatedOver_Exec_cached (E : Engine) (sqlOpen : String → Except Error DB)
    (now : Int) (as : AdminStore) (token : String) (f : userStoreFactory)
    (x : ExecOptions) (user : User) (table : Table) (tp : List String)
    (us1 : sqlite3Store)
    (hres : (delegatedOver E sqlOpen now as token).Resolves x.TableName user table tp)
    (hw : WRITE_ALL_PERMISSION ∈ tp ∨ WRITE_RESTRICTED_PERMISSION ∈ tp)
    (hc : mapGet f.stores table.StoreID = some us1) :
    ((delegatedOver E sqlOpen now as token).Exec x f).calls =
        [.New (factoryOptions table), .Exec us1.ID (rewriteExec x tp user.ID)] ∧
    ((delegatedOver E sqlOpen now as token).Exec x f).result =
        (us1.Exec E (rewriteExec x tp user.ID)).1 ∧
    ((delegatedOver E sqlOpen now as token).Exec x f).state =
        { stores := mapSet f.stores table.StoreID (us1.Exec E (rewriteExec x tp user.ID)).2 } := by
  have hkey : cacheKey f table.StoreID us1 = table.StoreID := by
    unfold cacheKey
    rw [hc]
    rfl
  have hnew : (delegatedOver E sqlOpen now as token).usf.New (factoryOptions table) f =
      (.ok (sqlite3Store.handle E (cacheKey f table.StoreID us1) us1), f) := by
    have hdef : (delegatedOver E sqlOpen now as token).usf.New (factoryOptions table) f =
        match userStoreFactory.New sqlOpen f (factoryOptions table) now with
        | (.error err, f1) => (.error err, f1)
        | (.ok us, f1) =>
            (.ok (sqlite3Store.handle E (cacheKey f table.StoreID us) us), f1) := rfl
    rw [hdef, userStoreFactory.New_of_hit sqlOpen f (factoryOptions table) now us1 hc]
  rw [delegatedStore.Exec_authorized _ x f user table tp hres hw, hnew, hkey]
  exact ⟨rfl, rfl, rfl⟩

/-- C15 (amended): after a successful `CreateTable` for a name that the tables
catalog did not hold yet and whose lookup text `name = '<name>'` the engine
reads as equality with the name, on the stored rows and on the inserted row;
the catalog is initialised and every cache entry is filed under the id of its
store.  Then the backend `us` the factory returned holds the table; `GetTable`
succeeds with that name and with `StoreID` equal to the backend's id; `New`
with that id returns the backend, as `CreateTable` left it, and leaves the
cache alone; and an authorized delegated `Query` or `Exec` on the name runs on
that backend and returns its answer unchanged. -/
theorem adminStore_CreateTable_then_dispatch (E : Engine)
    (sqlOpen : String → Except Error DB) (s : adminStore) (f : userStoreFactory)
    (opts : CreateTableOptions) (now : Int) (t : TableData) (us : sqlite3Store)
    (f1 : userStoreFactory) (hwk : WellKeyed f)
    (ht : s.store.db.lookup global_tables_table = some t)
    (hdefs : t.Definitions = tablesDefinitions)
    (habsent : ∀ r ∈ t.rows, r.lookup "name" ≠ some (Value.text opts.TableName))
    (hE : ∀ r ∈ t.rows,
      (E.holds ("name = '" ++ opts.TableName ++ "'") r = true ↔
        r.lookup "name" = some (Value.text opts.TableName)))
    (hEnew : E.holds ("name = '" ++ opts.TableName ++ "'")
        (newRow t [("name", .text opts.TableName), ("store_id", .int us.ID)]) = true ↔
      (newRow t [("name", .text opts.TableName), ("store_id", .int us.ID)]).lookup "name" =
        some (Value.text opts.TableName))
    (hnew : userStoreFactory.New sqlOpen f (createOptions s) now = (.ok us, f1))
    (hok : (s.CreateTable E sqlOpen f opts now).err = none) :
    ∃ us1, us.CreateTable (withCreatedBy opts) = (none, us1) ∧
      (∃ td, us1.db.lookup opts.TableName = some td) ∧
      (s.CreateTable E sqlOpen f opts now).as.GetTable E opts.TableName =
        .ok { ID := nextId t, Name := opts.TableName, StoreID := us.ID } ∧
      (∀ (sqlOpen1 : String → Except Error DB) (o : UserStoreOptions) (now1 : Int),
        o.ID = us.ID →
        userStoreFactory.New sqlOpen1 (s.CreateTable E sqlOpen f opts now).usf o now1 =
          (.ok us1, (s.CreateTable E sqlOpen f opts now).usf)) ∧
      (∀ (sqlOpen1 : String → Except Error DB) (now1 : Int) (token : String)
          (q : QueryOptions) (user : User) (table : Table) (perms : List TablePermission),
        q.TableName = opts.TableName →
        (delegatedOver E sqlOpen1 now1
          ((s.CreateTable E sqlOpen f opts now).as.asAdminStore E) token).Finds
            q.TableName user table perms →
        (granted perms q.TableName "READ_ALL" ∨ granted perms q.TableName "READ_RESTRICTED") →
        ∃ fwd : QueryOptions, fwd.TableName = q.TableName ∧
          ((delegatedOver E sqlOpen1 now1
            ((s.CreateTable E sqlOpen f opts now).as.asAdminStore E) token).Query q
              (s.CreateTable E sqlOpen f opts now).usf).calls =
            [.New { DataSource := "", ID := us.ID }, .Query us.ID fwd] ∧
          ((delegatedOver E sqlOpen1 now1
            ((s.CreateTable E sqlOpen f opts now).as.asAdminStore E) token).Query q
              (s.CreateTable E sqlOpen f opts now).usf).result = us1.Query E fwd) ∧
      (∀ (sqlOpen1 : String → Except Error DB) (now1 : Int) (token : String)
          (x : ExecOptions) (user : User) (table : Table) (perms : List TablePermission),
        x.TableName = opts.TableName →
        (delegatedOver E sqlOpen1 now1
          ((s.CreateTable E sqlOpen f opts now).as.asAdminStore E) token).Finds
            x.TableName user table perms →
        (granted perms x.TableName "WRITE_ALL" ∨ granted perms x.TableName "WRITE_RESTRICTED") →
        ∃ fwd : ExecOptions, fwd.TableName = x.TableName ∧
          ((delegatedOver E sqlOpen1 now1
            ((s.CreateTable E sqlOpen f opts now).as.asAdminStore E) token).Exec x
              (s.CreateTable E sqlOpen f opts now).usf).calls =
            [.New { DataSource := "", ID := us.ID }, .Exec us.ID fwd] ∧
          ((delegatedOver E sqlOpen1 now1
            ((s.CreateTable E sqlOpen f opts now).as.asAdminStore E) token).Exec x
              (s.CreateTable E sqlOpen f opts now).usf).result = (us1.Exec E fwd).1) := by
  rcases hc : us.CreateTable (withCreatedBy opts) with ⟨r, us1⟩
  cases r with
  | some e =>
    rw [adminStore.CreateTable_of_backend_error E sqlOpen s f opts now us f1 hnew e us1 hc] at hok
    cases hok
  | none =>
    obtain ⟨hid, td, htd⟩ := sqlite3Store.CreateTable_ok us us1 (withCreatedBy opts) hc
    obtain ⟨hkey, hcached⟩ := userStoreFactory.New_ok_cached sqlOpen f (createOptions s) now us f1
      hwk hnew
    have hkey0 : cacheKey f 0 us = us.ID := hkey
    have hout := adminStore.CreateTable_of_backend_ok E sqlOpen s f opts now us f1 hnew us1 hc
    rw [tablesInsert_eq E s.store t opts.TableName us.ID ht hdefs, hkey0] at hout
    simp only at hout
    -- the catalog after the call
    have hrow := tables_newRow t opts.TableName us.ID hdefs
    have hname : (newRow t [("name", .text opts.TableName), ("store_id", .int us.ID)]).lookup
        "name" = some (Value.text opts.TableName) := by
      rw [hrow]; rfl
    have hholds : E.holds (nameEquals opts.TableName)
        (newRow t [("name", .text opts.TableName), ("store_id", .int us.ID)]) = true :=
      hEnew.2 hname
    have hold : t.rows.filter (E.satisfies [nameEquals opts.TableName]) = [] := by
      rw [List.filter_eq_nil_iff]
      intro r hr hsat
      rw [satisfies_singleton] at hsat
      exact habsent r hr ((hE r hr).1 hsat)
    have hm1 : (t.rows ++ [newRow t [("name", .text opts.TableName),
          ("store_id", .int us.ID)]]).filter (E.satisfies [nameEquals opts.TableName]) =
        [newRow t [("name", .text opts.TableName), ("store_id", .int us.ID)]] := by
      rw [List.filter_append, hold]
      simp [satisfies_singleton, hholds]
    have ht1 : (s.store.db.put global_tables_table
        { Definitions := t.Definitions
          rows := t.rows ++ [newRow t [("name", .text opts.TableName),
            ("store_id", .int us.ID)]] }).lookup global_tables_table =
        some { Definitions := t.Definitions
               rows := t.rows ++ [newRow t [("name", .text opts.TableName),
                 ("store_id", .int us.ID)]] } := by
      rw [DB.lookup_put, if_pos rfl, ht]
      rfl
    have hget : (s.CreateTable E sqlOpen f opts now).as.GetTable E opts.TableName =
        .ok { ID := nextId t, Name := opts.TableName, StoreID := us.ID } := by
      rw [hout]
      exact adminStore.GetTable_found E _ opts.TableName
        { Definitions := t.Definitions
          rows := t.rows ++ [newRow t [("name", .text opts.TableName),
            ("store_id", .int us.ID)]] }
        ht1 hdefs _ [] hm1 (nextId t) us.ID opts.TableName
        (by rw [hrow]; rfl) hname (by rw [hrow]; rfl)
    have hcache : mapGet (s.CreateTable E sqlOpen f opts now).usf.stores us.ID = some us1 := by
      rw [hout]
      simp only
      rw [mapGet_mapSet, if_pos rfl]
    refine ⟨us1, rfl, ⟨td, htd⟩, hget, ?_, ?_, ?_⟩
    · intro sqlOpen1 o now1 ho
      exact userStoreFactory.New_of_hit sqlOpen1 _ o now1 us1 (by rw [ho]; exact hcache)
    · intro sqlOpen1 now1 token q user table perms hq hfinds hg
      have hres := delegatedStore.resolves_of_finds _ q.TableName user table perms hfinds
      have hr : READ_ALL_PERMISSION ∈ tablePermsOf perms q.TableName ∨
          READ_RESTRICTED_PERMISSION ∈ tablePermsOf perms q.TableName := by
        rw [mem_tablePermsOf, mem_tablePermsOf]
        exact hg
      have htab : table = { ID := nextId t, Name := opts.TableName, StoreID := us.ID } := by
        have h1 : (s.CreateTable E sqlOpen f opts now).as.GetTable E q.TableName = .ok table :=
          hres.2.1
        rw [hq, hget] at h1
        exact (Except.ok.inj h1).symm
      have hc1 : mapGet (s.CreateTable E sqlOpen f opts now).usf.stores table.StoreID =
          some us1 := by
        rw [htab]; exact hcache
      obtain ⟨h1, h2, _⟩ := delegatedOver_Query_cached E sqlOpen1 now1 _ token _ q user table _
        us1 hres hr hc1
      refine ⟨_, rewriteQuery_TableName q _ user.ID, ?_, h2⟩
      rw [h1, htab, hid]
      rfl
    · intro sqlOpen1 now1 token x user table perms hx hfinds hg
      have hres := delegatedStore.resolves_of_finds _ x.TableName user table perms hfinds
      have hw : WRITE_ALL_PERMISSION ∈ tablePermsOf perms x.TableName ∨
          WRITE_RESTRICTED_PERMISSION ∈ tablePermsOf perms x.TableName := by
        rw [mem_tablePermsOf, mem_tablePermsOf]
        exact hg
      have htab : table = { ID := nextId t, Name := opts.TableName, StoreID := us.ID } := by
        have h1 : (s.CreateTable E sqlOpen f opts now).as.GetTable E x.TableName = .ok table :=
          hres.2.1
        rw [hx, hget] at h1
        exact (Except.ok.inj h1).symm
      have hc1 : mapGet (s.CreateTable E sqlOpen f opts now).usf.stores table.StoreID =
          some us1 := by
        rw [htab]; exact hcache
      obtain ⟨h1, h2, _⟩ := delegatedOver_Exec_cached E sqlOpen1 now1 _ token _ x user table _
        us1 hres hw hc1
      refine ⟨_, rewriteExec_TableName x _ user.ID, ?_, h2⟩
      rw [h1, htab, hid]
      rfl

/-- The empty cache of `NewUserStoreFactory` is well keyed. -/
theorem wellKeyed_empty : WellKeyed NewUserStoreFactory := by
  intro k us h
  cases h

/-- `New` keeps a cache well keyed: it files a backend under the backend's own
id. -/
theorem userStoreFactory.New_wellKeyed (sqlOpen : String → Except Error DB)
    (f : userStoreFactory) (opts : UserStoreOptions) (now : Int) (hwk : WellKeyed f) :
    WellKeyed (userStoreFactory.New sqlOpen f opts now).2 := by
  unfold userStoreFactory.New
  cases hhit : mapGet f.stores opts.ID with
  | some us0 => exact hwk
  | none =>
    simp only
    cases hc : NewSQLite3Store sqlOpen opts.DataSource now with
    | error e => exact hwk
    | ok us0 =>
      intro k us hk
      simp only at hk
      rw [mapGet_mapSet] at hk
      by_cases hkk : k = us0.ID
      · rw [if_pos hkk] at hk
        cases hk
        exact hkk.symm
      · rw [if_neg hkk] at hk
        exact hwk k us hk

/-- C15 on the example: `foo` created on the initialised catalog at clock
reading 5. -/
theorem adminStore_CreateTable_then_dispatch_witness :
    ∃ us1, ({ id := 5, db := [] } : sqlite3Store).CreateTable (withCreatedBy fooCreate) =
        (none, us1) ∧
      (∃ td, us1.db.lookup fooCreate.TableName = some td) ∧
      (emptyCatalog.CreateTable eqEngine openEmpty NewUserStoreFactory fooCreate 5).as.GetTable
          eqEngine fooCreate.TableName =
        .ok { ID := nextId { Definitions := tablesDefinitions, rows := [] },
              Name := fooCreate.TableName, StoreID := 5 } ∧
      (∀ (sqlOpen1 : String → Except Error DB) (o : UserStoreOptions) (now1 : Int),
        o.ID = 5 →
        userStoreFactory.New sqlOpen1
          (emptyCatalog.CreateTable eqEngine openEmpty NewUserStoreFactory fooCreate 5).usf o
          now1 =
          (.ok us1,
            (emptyCatalog.CreateTable eqEngine openEmpty NewUserStoreFactory fooCreate 5).usf)) := by
  obtain ⟨us1, h1, h2, h3, h4, _⟩ := adminStore_CreateTable_then_dispatch eqEngine openEmpty
    emptyCatalog NewUserStoreFactory fooCreate 5 { Definitions := tablesDefinitions, rows := [] }
    { id := 5, db := [] } { stores := [(5, { id := 5, db := [] })] } wellKeyed_empty
    (by decide) rfl (by decide) (by decide) (by decide) (by decide) (by decide)
  exact ⟨us1, h1, h2, h3, h4⟩

/-- C15, the claim as stated fails, in two ways.  A second successful
`CreateTable` for `foo` creates its table on the backend with id 6, while
`GetTable` keeps answering with the `StoreID` 5 of the first row.  And a
successful `CreateTable` for a quoted name with single quotes inside stores the
name, but its lookup text `name = '"a' OR '1'='2"'` is read as
`name = '"a'` or `'1' = '2"'`, which holds on no row: `GetTable` does not find
the table. -/
theorem adminStore_CreateTable_then_GetTable_fails :
    ((emptyCatalog.CreateTable eqEngine openEmpty NewUserStoreFactory fooCreate 5).as.CreateTable
      eqEngine openEmpty
      (emptyCatalog.CreateTable eqEngine openEmpty NewUserStoreFactory fooCreate 5).usf
      fooCreate 6).err = none ∧
    ((emptyCatalog.CreateTable eqEngine openEmpty NewUserStoreFactory fooCreate 5).as.CreateTable
      eqEngine openEmpty
      (emptyCatalog.CreateTable eqEngine openEmpty NewUserStoreFactory fooCreate 5).usf
      fooCreate 6).calls.take 2 =
      [.New { DataSource := ":memory:", ID := 0 }, .CreateTable 6 (withCreatedBy fooCreate)] ∧
    ((emptyCatalog.CreateTable eqEngine openEmpty NewUserStoreFactory fooCreate 5).as.CreateTable
      eqEngine openEmpty
      (emptyCatalog.CreateTable eqEngine openEmpty NewUserStoreFactory fooCreate 5).usf
      fooCreate 6).as.GetTable eqEngine "foo" =
      .ok { ID := 1, Name := "foo", StoreID := 5 } ∧
    (emptyCatalog.CreateTable eqEngine openEmpty NewUserStoreFactory quotedCreate 5).err = none ∧
    tablesNamed (emptyCatalog.CreateTable eqEngine openEmpty NewUserStoreFactory quotedCreate 5).as
        quotedCreate.TableName =
      [[("id", .int 1), ("name", .text quotedCreate.TableName), ("store_id", .int 5)]] ∧
    nameEquals quotedCreate.TableName = "name = '" ++ doubleQuote ++ "a' OR '1'='2" ++
      doubleQuote ++ "'" ∧
    (emptyCatalog.CreateTable eqEngine openEmpty NewUserStoreFactory quotedCreate 5).as.GetTable
        eqEngine quotedCreate.TableName =
      .error (.errorf ("table with name '" ++ quotedCreate.TableName ++ "' not found")) := by
  decide

/-! ## The grants of a token -/

/-- The unlimited lookup of `GetPermissionsForToken`, on an initialised grant
catalog. -/
theorem grantsQueryAll_eq (E : Engine) (s : sqlite3Store) (t : TableData) (w : List String)
    (ht : s.db.lookup global_user_table_permission = some t)
    (hdefs : t.Definitions = grantsDefinitions) :
    s.Query E { TableName := global_user_table_permission,
                IncludeColumns := ["user_id", "table_name", "permission"],
                Where := w, Limit := 0 } =
      .ok ((t.rows.filter (E.satisfies w)).map
        (project ["user_id", "table_name", "permission"])) := by
  have hne : ¬ global_user_table_permission = "" := by decide
  have hfind : List.find? (fun c => !t.columns.contains c)
      ["user_id", "table_name", "permission"] = none := by
    rw [grants_columns t hdefs]
    rfl
  unfold sqlite3Store.Query QueryOptions.Validate
  simp only [hne, if_false]
  unfold Engine.select
  simp only [ht, hfind]
  rfl

/-- A cell that is a string, spelled out. -/
theorem textAt_iff (r : Row) (c : String) :
    textAt r c = true ↔ ∃ v, r.lookup c = some (Value.text v) := by
  unfold textAt
  cases h : r.lookup c with
  | none => simp
  | some v =>
    cases v with
    | int i => simp
    | text v => simp
    | null => simp

/-- The loop of `GetPermissionsForToken` over rows whose table name and
permission are strings: one pair for each row, carrying the row's values. -/
theorem toTablePermissions_typed (rows : List Row)
    (h : ∀ r ∈ rows, textAt r "table_name" = true ∧ textAt r "permission" = true) :
    ∃ perms, toTablePermissions
        (rows.map (project ["user_id", "table_name", "permission"])) = .ok perms ∧
      perms.length = rows.length ∧
      ∀ tp, tp ∈ perms ↔ ∃ r ∈ rows, carries r tp := by
  induction rows with
  | nil =>
    refine ⟨[], rfl, rfl, ?_⟩
    intro tp
    simp
  | cons r rest ih =>
    obtain ⟨perms, h1, h2, h3⟩ := ih (fun x hx => h x (List.mem_cons_of_mem _ hx))
    obtain ⟨ht, hp⟩ := h r (List.mem_cons_self _ _)
    obtain ⟨tn, htn⟩ := (textAt_iff r "table_name").1 ht
    obtain ⟨pn, hpn⟩ := (textAt_iff r "permission").1 hp
    have e1 : (project ["user_id", "table_name", "permission"] r).lookup "table_name" =
        some (Value.text tn) := by
      rw [lookup_project _ _ _ (by decide), htn]
      rfl
    have e2 : (project ["user_id", "table_name", "permission"] r).lookup "permission" =
        some (Value.text pn) := by
      rw [lookup_project _ _ _ (by decide), hpn]
      rfl
    refine ⟨{ TableName := tn, Permission := pn } :: perms, ?_, ?_, ?_⟩
    · rw [List.map_cons]
      unfold toTablePermissions
      simp only [e1, e2, h1]
    · simp [h2]
    · intro tp
      simp only [List.mem_cons, h3]
      constructor
      · rintro (h | ⟨x, hx, hc⟩)
        · refine ⟨r, Or.inl rfl, ?_⟩
          subst h
          exact ⟨htn, hpn⟩
        · exact ⟨x, Or.inr hx, hc⟩
      · rintro ⟨x, hx | hx, hc⟩
        · left
          subst hx
          obtain ⟨c1, c2⟩ := hc
          rw [htn] at c1
          rw [hpn] at c2
          simp only [Option.some.injEq, Value.text.injEq] at c1 c2
          cases tp
          simp only at c1 c2
          subst c1 c2
          rfl
        · exact Or.inr ⟨x, hx, hc⟩

/-- C21: a token that `GetUser` resolves to `user`, on an initialised grant
catalog whose rows for that user carry strings as table name and permission:
`GetPermissionsForToken` returns a nil error and one pair for each grant row
whose `user_id` is the user's id, whatever its table; a pair is returned
exactly when one of these rows carries it.  A token that `GetUser` resolves to
no user gets the error of `GetUser`.  The engine reads `user_id = <id>` as
equality on the `user_id` column of the stored rows. -/
theorem adminStore_GetPermissionsForToken_exact (E : Engine) (s : adminStore)
    (token : String) (user : User) (t : TableData)
    (hu : s.GetUser E token = .ok user)
    (ht : s.store.db.lookup global_user_table_permission = some t)
    (hdefs : t.Definitions = grantsDefinitions)
    (hE : ∀ r ∈ t.rows,
      E.holds (userIdEquals user.ID) r = decide (r.lookup "user_id" = some (Value.int user.ID)))
    (htyped : ∀ r ∈ grantsOfUser s user.ID,
      textAt r "table_name" = true ∧ textAt r "permission" = true) :
    (∃ perms, s.GetPermissionsForToken E token = .ok perms ∧
      perms.length = (grantsOfUser s user.ID).length ∧
      ∀ tp, tp ∈ perms ↔ ∃ r ∈ grantsOfUser s user.ID, carries r tp) ∧
    (∀ token1, (∀ user1, s.GetUser E token1 ≠ .ok user1) →
      ∃ err, s.GetUser E token1 = .error err ∧
        s.GetPermissionsForToken E token1 = .error err) := by
  have hg : grantsOfUser s user.ID =
      t.rows.filter (E.satisfies [userIdEquals user.ID]) := by
    unfold grantsOfUser catalogRows
    rw [ht]
    apply List.filter_congr
    intro r hr
    rw [satisfies_singleton, hE r hr]
  constructor
  · obtain ⟨perms, h1, h2, h3⟩ := toTablePermissions_typed (grantsOfUser s user.ID) htyped
    refine ⟨perms, ?_, h2, h3⟩
    unfold adminStore.GetPermissionsForToken
    rw [hu]
    simp only
    rw [grantsQueryAll_eq E s.store t _ ht hdefs, ← hg]
    exact h1
  · intro token1 hno
    cases hu1 : s.GetUser E token1 with
    | ok user1 => exact absurd hu1 (hno user1)
    | error err =>
      refine ⟨err, rfl, ?_⟩
      unfold adminStore.GetPermissionsForToken
      rw [hu1]

/-- C21 on the example: token `t1` is user 1, whose grants are on `foo` and on
`bar`; token `nobody` is no user. -/
theorem adminStore_GetPermissionsForToken_exact_witness :
    ((∃ perms, mixedCatalog.GetPermissionsForToken eqEngine "t1" = .ok perms ∧
        perms.length = (grantsOfUser mixedCatalog 1).length ∧
        ∀ tp, tp ∈ perms ↔ ∃ r ∈ grantsOfUser mixedCatalog 1, carries r tp) ∧
      (∀ token1, (∀ user1, mixedCatalog.GetUser eqEngine token1 ≠ .ok user1) →
        ∃ err, mixedCatalog.GetUser eqEngine token1 = .error err ∧
          mixedCatalog.GetPermissionsForToken eqEngine token1 = .error err)) ∧
    mixedCatalog.GetPermissionsForToken eqEngine "t1" =
      .ok [{ TableName := "foo", Permission := "READ_ALL" },
           { TableName := "bar", Permission := "WRITE_RESTRICTED" }] ∧
    mixedCatalog.GetPermissionsForToken eqEngine "nobody" =
      .error (.errorf "user with token 'nobody' not found") :=
  ⟨adminStore_GetPermissionsForToken_exact eqEngine mixedCatalog "t1"
      { ID := 1, UserName := "u1" }
      { Definitions := grantsDefinitions
        rows := [[("user_id", .int 1), ("table_name", .text "foo"),
                  ("permission", .text "READ_ALL")],
                 [("user_id", .int 2), ("table_name", .text "foo"),
                  ("permission", .text "WRITE_ALL")],
                 [("user_id", .int 1), ("table_name", .text "bar"),
                  ("permission", .text "WRITE_RESTRICTED")]] }
      (by decide) (by decide) rfl (by decide) (by decide),
    by decide, by decide⟩

/-! ## `init` run again -/

theorem DB.put_self (db : DB) (n : String) (t : TableData) (h : db.lookup n = some t) :
    db.put n t = db := by
  induction db with
  | nil => rfl
  | cons hd tl ih =>
    obtain ⟨m, u⟩ := hd
    unfold DB.put
    by_cases hm : m = n
    · rw [if_pos hm]
      subst hm
      simp only [List.lookup, beq_self_eq_true] at h
      cases h
      rfl
    · rw [if_neg hm]
      have hne : (n == m) = false := by
        rw [beq_eq_false_iff_ne]
        exact fun h1 => hm h1.symm
      simp only [List.lookup, hne] at h
      rw [ih h]

theorem DB.put_cons (m : String) (u : TableData) (tl : DB) (n : String) (t1 : TableData) :
    DB.put ((m, u) :: tl) n t1 =
      if m = n then (m, t1) :: tl else (m, u) :: DB.put tl n t1 := rfl

theorem DB.put_put (db : DB) (n : String) (t1 t2 : TableData) :
    (db.put n t1).put n t2 = db.put n t2 := by
  induction db with
  | nil => rfl
  | cons hd tl ih =>
    obtain ⟨m, u⟩ := hd
    by_cases hm : m = n
    · rw [DB.put_cons, DB.put_cons, if_pos hm, if_pos hm, DB.put_cons, if_pos hm]
    · rw [DB.put_cons, DB.put_cons, if_neg hm, if_neg hm, DB.put_cons, if_neg hm, ih]

/-- The table found under a name after `CREATE TABLE IF NOT EXISTS`. -/
theorem DB.lookup_ensure (db : DB) (n : String) (d : List (List String)) (m : String) :
    (db.ensure n d).lookup m =
      if m = n then some ((db.lookup n).getD { Definitions := d, rows := [] })
      else db.lookup m := by
  unfold DB.ensure
  cases h : db.lookup n with
  | some t =>
    simp only [Option.getD_some]
    by_cases hm : m = n
    · rw [if_pos hm, hm, h]
    · rw [if_neg hm]
  | none =>
    simp only [Option.getD_none]
    rw [List.lookup_append]
    by_cases hm : m = n
    · rw [if_pos hm, hm, h]
      simp [List.lookup]
    · rw [if_neg hm]
      have hne : (m == n) = false := by
        rw [beq_eq_false_iff_ne]
        exact hm
      simp [List.lookup, hne]

theorem DB.ensure_of_lookup (db : DB) (n : String) (d : List (List String)) (t : TableData)
    (h : db.lookup n = some t) : db.ensure n d = db := by
  unfold DB.ensure
  rw [h]

/-- `CreateTable` with `IfNotExists` set and a name given succeeds. -/
theorem sqlite3Store.CreateTable_ensure (st : sqlite3Store) (n : String)
    (d : List (List String)) (hn : n ≠ "") :
    st.CreateTable { TableName := n, Definitions := d, IfNotExists := true } =
      (none, { id := st.id, db := st.db.ensure n d }) := by
  unfold sqlite3Store.CreateTable CreateTableOptions.Validate Engine.createTable DB.ensure
  simp only [hn, if_false]
  cases st.db.lookup n <;> rfl

theorem permissions_columns (t : TableData) (h : t.Definitions = permissionsDefinitions) :
    t.columns = ["name"] := by
  unfold TableData.columns
  rw [h]
  rfl

theorem permissions_primaryKey (t : TableData) (h : t.Definitions = permissionsDefinitions) :
    t.primaryKey = none := by
  unfold TableData.primaryKey
  rw [h]
  rfl

/-- The lookup of the seeding loop, on a permissions catalog as `init` defines
it. -/
theorem permissionsQuery_eq (E : Engine) (st : sqlite3Store) (t : TableData) (w : List String)
    (ht : st.db.lookup global_permissions = some t)
    (hdefs : t.Definitions = permissionsDefinitions) :
    st.Query E { TableName := global_permissions, IncludeColumns := ["name"],
                 Where := w, Limit := 1 } =
      .ok (((t.rows.filter (E.satisfies w)).take 1).map (project ["name"])) := by
  have hne : ¬ global_permissions = "" := by decide
  have hfind : List.find? (fun c => !t.columns.contains c) ["name"] = none := by
    rw [permissions_columns t hdefs]
    rfl
  unfold sqlite3Store.Query QueryOptions.Validate
  simp only [hne, if_false]
  unfold Engine.select
  simp only [ht, hfind]
  rfl

/-- The insert of the seeding loop appends the seed row and succeeds. -/
theorem permissionsInsert_eq (E : Engine) (st : sqlite3Store) (t : TableData) (p : String)
    (ht : st.db.lookup global_permissions = some t)
    (hdefs : t.Definitions = permissionsDefinitions) :
    st.Exec E { Type_ := ExecTypeInsert, TableName := global_permissions,
                Values := [{ Name := "name", Value := .text p }], Where := [] } =
      (.ok { LastInsertId := rowIdOf t (seedRow p), RowsAffected := 0 },
       { id := st.id
         db := st.db.put global_permissions
          { Definitions := t.Definitions, rows := t.rows ++ [seedRow p] } }) := by
  have hfind : List.find? (fun c => !t.columns.contains c) ["name"] = none := by
    rw [permissions_columns t hdefs]
    rfl
  have hpk := permissions_primaryKey t hdefs
  have hrow : newRow t [("name", Value.text p)] = seedRow p := by
    unfold newRow
    rw [permissions_columns t hdefs, hpk]
    simp [List.lookup, seedRow]
  have hv : ({ Type_ := ExecTypeInsert, TableName := global_permissions,
               Values := [{ Name := "name", Value := .text p }],
               Where := [] } : ExecOptions).Validate = none := by
    unfold ExecOptions.Validate
    simp [ExecTypeInsert, ExecTypeUpdate, global_permissions]
  unfold sqlite3Store.Exec
  rw [hv]
  simp only [if_true, List.map_cons, List.map_nil]
  unfold Engine.insert
  simp only [ht, hfind, List.zip_cons_cons, List.zip_nil_right, hpk]
  rw [hrow]

/-- A name the lookup finds is passed over by the seeding loop. -/
theorem seedPermissions_cons_present (E : Engine) (st : sqlite3Store) (t : TableData)
    (p : String) (rest : List String)
    (ht : st.db.lookup global_permissions = some t)
    (hdefs : t.Definitions = permissionsDefinitions)
    (hm : t.rows.filter (E.satisfies [nameEquals p]) ≠ []) :
    seedPermissions E st (p :: rest) = seedPermissions E st rest := by
  have hlen : (((t.rows.filter (E.satisfies [nameEquals p])).take 1).map
      (project ["name"])).length = 1 := by
    cases hf : t.rows.filter (E.satisfies [nameEquals p]) with
    | nil => exact absurd hf hm
    | cons a l => rfl
  conv_lhs => unfold seedPermissions
  rw [permissionsQuery_eq E st t _ ht hdefs]
  simp only [hlen, if_true]

/-- A name the lookup does not find is inserted by the seeding loop. -/
theorem seedPermissions_cons_absent (E : Engine) (st : sqlite3Store) (t : TableData)
    (p : String) (rest : List String)
    (ht : st.db.lookup global_permissions = some t)
    (hdefs : t.Definitions = permissionsDefinitions)
    (hm : t.rows.filter (E.satisfies [nameEquals p]) = []) :
    seedPermissions E st (p :: rest) =
      seedPermissions E
        { id := st.id
          db := st.db.put global_permissions
            { Definitions := t.Definitions, rows := t.rows ++ [seedRow p] } } rest := by
  conv_lhs => unfold seedPermissions
  rw [permissionsQuery_eq E st t _ ht hdefs, hm, permissionsInsert_eq E st t p ht hdefs]
  simp

/-- With every name of the list found by the lookup, the seeding loop returns
nil and leaves the store as it was. -/
theorem seedPermissions_present (E : Engine) (st : sqlite3Store) (t : TableData)
    (ht : st.db.lookup global_permissions = some t)
    (hdefs : t.Definitions = permissionsDefinitions) (ps : List String)
    (hm : ∀ p ∈ ps, t.rows.filter (E.satisfies [nameEquals p]) ≠ []) :
    seedPermissions E st ps = (none, st) := by
  induction ps with
  | nil => rfl
  | cons p rest ih =>
    rw [seedPermissions_cons_present E st t p rest ht hdefs (hm p (List.mem_cons_self _ _))]
    exact ih (fun q hq => hm q (List.mem_cons_of_mem _ hq))

/-- Under the engine's reading of `name = '<p>'`, the rows the lookup of the
seeding loop finds are the rows named `p`. -/
theorem filter_nameEquals (E : Engine) (p : String) (rows : List Row)
    (hE : ∀ r ∈ rows,
      E.holds (nameEquals p) r = decide (r.lookup "name" = some (Value.text p))) :
    rows.filter (E.satisfies [nameEquals p]) =
      rows.filter (fun r => decide (r.lookup "name" = some (Value.text p))) := by
  apply List.filter_congr
  intro r hr
  rw [satisfies_singleton, hE r hr]

/-- The rows named `q` among the single seed row of `p`. -/
theorem filter_seedRow (p q : String) :
    ([seedRow p].filter (fun r => decide (r.lookup "name" = some (Value.text q)))).length =
      if q = p then 1 else 0 := by
  by_cases h : q = p
  · subst h
    simp [seedRow, List.lookup]
  · have h1 : ¬ p = q := fun e => h e.symm
    simp [seedRow, List.lookup, h, h1]

/-- The seeding loop on a permissions catalog as `init` defines it: it returns
nil, the catalog keeps its rows and gains one seed row for each listed name it
held no row of. -/
theorem seedPermissions_spec (E : Engine) (ps : List String) :
    ∀ (st : sqlite3Store) (t : TableData),
      st.db.lookup global_permissions = some t →
      t.Definitions = permissionsDefinitions →
      (∀ p ∈ ps, ∀ r ∈ t.rows ++ ps.map seedRow,
        E.holds (nameEquals p) r = decide (r.lookup "name" = some (Value.text p))) →
      ∃ rows1,
        seedPermissions E st ps =
          (none, { id := st.id
                   db := st.db.put global_permissions
                     { Definitions := t.Definitions, rows := rows1 } }) ∧
        (∀ r ∈ rows1, r ∈ t.rows ++ ps.map seedRow) ∧
        ∀ q, (rows1.filter (fun r => decide (r.lookup "name" = some (Value.text q)))).length =
          if q ∈ ps ∧
              (t.rows.filter
                (fun r => decide (r.lookup "name" = some (Value.text q)))).length = 0
          then 1
          else (t.rows.filter
                (fun r => decide (r.lookup "name" = some (Value.text q)))).length := by
  induction ps with
  | nil =>
    intro st t ht _ _
    refine ⟨t.rows, ?_, ?_, ?_⟩
    · have hput : st.db.put global_permissions
          { Definitions := t.Definitions, rows := t.rows } = st.db :=
        DB.put_self st.db global_permissions t ht
      rw [hput]
      rfl
    · intro r hr
      simpa using hr
    · intro q
      simp
  | cons p rest ih =>
    intro st t ht hdefs hE
    have hfc := filter_nameEquals E p t.rows (fun r hr =>
      hE p (List.mem_cons_self _ _) r (List.mem_append_left _ hr))
    by_cases hm : t.rows.filter (E.satisfies [nameEquals p]) = []
    · -- the name is missing: one row is added
      have ht1 : (st.db.put global_permissions
          { Definitions := t.Definitions, rows := t.rows ++ [seedRow p] }).lookup
            global_permissions =
          some { Definitions := t.Definitions, rows := t.rows ++ [seedRow p] } := by
        rw [DB.lookup_put, if_pos rfl, ht]
        rfl
      obtain ⟨rows1, h1, h2, h3⟩ := ih
        { id := st.id
          db := st.db.put global_permissions
            { Definitions := t.Definitions, rows := t.rows ++ [seedRow p] } }
        { Definitions := t.Definitions, rows := t.rows ++ [seedRow p] } ht1 hdefs
        (by
          intro q hq r hr
          apply hE q (List.mem_cons_of_mem _ hq) r
          simp only [List.mem_append, List.map_cons, List.mem_cons, List.not_mem_nil, or_false] at hr ⊢
          rcases hr with (h | h) | h
          · exact Or.inl h
          · exact Or.inr (Or.inl h)
          · exact Or.inr (Or.inr h))
      refine ⟨rows1, ?_, ?_, ?_⟩
      · rw [seedPermissions_cons_absent E st t p rest ht hdefs hm, h1, DB.put_put]
      · intro r hr
        have := h2 r hr
        simp only [List.mem_append, List.map_cons, List.mem_cons, List.not_mem_nil, or_false] at this ⊢
        rcases this with (h | h) | h
        · exact Or.inl h
        · exact Or.inr (Or.inl h)
        · exact Or.inr (Or.inr h)
      · intro q
        have hq := h3 q
        simp only [List.filter_append, List.length_append, filter_seedRow] at hq
        rw [hq]
        have hp0 : (t.rows.filter
            (fun r => decide (r.lookup "name" = some (Value.text p)))).length = 0 := by
          rw [← hfc, hm]
          rfl
        by_cases hqp : q = p
        · subst hqp
          simp [hp0]
        · simp [hqp]
    · -- the name is there: nothing is added
      obtain ⟨rows1, h1, h2, h3⟩ := ih st t ht hdefs
        (by
          intro q hq r hr
          apply hE q (List.mem_cons_of_mem _ hq) r
          simp only [List.mem_append, List.map_cons, List.mem_cons] at hr ⊢
          rcases hr with h | h
          · exact Or.inl h
          · exact Or.inr (Or.inr h))
      refine ⟨rows1, ?_, ?_, ?_⟩
      · rw [seedPermissions_cons_present E st t p rest ht hdefs hm, h1]
      · intro r hr
        have := h2 r hr
        simp only [List.mem_append, List.map_cons, List.mem_cons] at this ⊢
        rcases this with h | h
        · exact Or.inl h
        · exact Or.inr (Or.inr h)
      · intro q
        rw [h3 q]
        have hp0 : (t.rows.filter
            (fun r => decide (r.lookup "name" = some (Value.text p)))).length ≠ 0 := by
          rw [← hfc]
          intro h0
          exact hm (List.length_eq_zero.1 h0)
        by_cases hqp : q = p
        · subst hqp
          simp [hp0]
        · simp [hqp]

/-- `init` in three steps: the tables and permissions catalogs are made sure
of, the seeding loop runs, the users and grant catalogs are made sure of. -/
theorem adminStore.init_eq (E : Engine) (s : adminStore) :
    s.init E =
      match seedPermissions E
          { id := s.store.id
            db := (s.store.db.ensure global_tables_table tablesDefinitions).ensure
              global_permissions permissionsDefinitions } defaultPermissions with
      | (some err, st) =>
          (some err, { userStoreDataSource := s.userStoreDataSource, store := st })
      | (none, st3) =>
          (none, { userStoreDataSource := s.userStoreDataSource
                   store :=
                    { id := st3.id
                      db := (st3.db.ensure global_users usersDefinitions).ensure
                        global_user_table_permission grantsDefinitions } }) := by
  have hT := fun (st : sqlite3Store) (d : List (List String)) =>
    sqlite3Store.CreateTable_ensure st global_tables_table d (by decide)
  have hP := fun (st : sqlite3Store) (d : List (List String)) =>
    sqlite3Store.CreateTable_ensure st global_permissions d (by decide)
  have hU := fun (st : sqlite3Store) (d : List (List String)) =>
    sqlite3Store.CreateTable_ensure st global_users d (by decide)
  have hG := fun (st : sqlite3Store) (d : List (List String)) =>
    sqlite3Store.CreateTable_ensure st global_user_table_permission d (by decide)
  unfold adminStore.init
  simp only [hT, hP, hU, hG]
  rfl

/-- C22: `init` on a catalog store in which the permissions catalog, if there,
is defined as `init` defines it and holds each of the four permission names at
most once (its primary key): `init` returns nil; afterwards the four catalog
tables are there and the permissions catalog holds each of the four names
exactly once; and `init` run again returns nil and leaves the store exactly as
the first run left it.  Which of the four tables and of the four names the
store holds beforehand is free.  The engine reads `name = '<p>'` as equality on
the name column, on the stored permission rows and on the seed rows. -/
theorem adminStore_init_idempotent (E : Engine) (s : adminStore)
    (hperm : ∀ t, s.store.db.lookup global_permissions = some t →
      t.Definitions = permissionsDefinitions)
    (hE : ∀ p ∈ defaultPermissions,
      ∀ r ∈ catalogRows s global_permissions ++ defaultPermissions.map seedRow,
        E.holds (nameEquals p) r = decide (r.lookup "name" = some (Value.text p)))
    (huniq : ∀ p ∈ defaultPermissions, (permissionsNamed s p).length ≤ 1) :
    (s.init E).1 = none ∧
    (∀ n ∈ [global_tables_table, global_permissions, global_users,
        global_user_table_permission], ((s.init E).2.store.db.lookup n).isSome = true) ∧
    (∀ p ∈ defaultPermissions, (permissionsNamed (s.init E).2 p).length = 1) ∧
    (s.init E).2.init E = (none, (s.init E).2) := by
  -- the permissions catalog the seeding loop starts from
  have hl2 : ((s.store.db.ensure global_tables_table tablesDefinitions).ensure
      global_permissions permissionsDefinitions).lookup global_permissions =
      some ((s.store.db.lookup global_permissions).getD
        { Definitions := permissionsDefinitions, rows := [] }) := by
    rw [DB.lookup_ensure, if_pos rfl, DB.lookup_ensure, if_neg (by decide)]
  have hd2 : ((s.store.db.lookup global_permissions).getD
      { Definitions := permissionsDefinitions, rows := [] }).Definitions =
        permissionsDefinitions := by
    cases h : s.store.db.lookup global_permissions with
    | none => rfl
    | some t => exact hperm t h
  have hr2 : ((s.store.db.lookup global_permissions).getD
      { Definitions := permissionsDefinitions, rows := [] }).rows =
        catalogRows s global_permissions := by
    unfold catalogRows
    cases h : s.store.db.lookup global_permissions <;> rfl
  obtain ⟨rows1, hseed, hsub, hcount⟩ := seedPermissions_spec E defaultPermissions
    { id := s.store.id
      db := (s.store.db.ensure global_tables_table tablesDefinitions).ensure
        global_permissions permissionsDefinitions }
    _ hl2 hd2 (by rw [hr2]; exact hE)
  rw [hr2] at hsub hcount
  rw [hd2] at hseed
  have hinit : s.init E =
      (none, { userStoreDataSource := s.userStoreDataSource
               store :=
                { id := s.store.id
                  db := (((((s.store.db.ensure global_tables_table tablesDefinitions).ensure
                    global_permissions permissionsDefinitions).put global_permissions
                      { Definitions := permissionsDefinitions, rows := rows1 }).ensure
                    global_users usersDefinitions).ensure
                    global_user_table_permission grantsDefinitions) } }) := by
    rw [adminStore.init_eq, hseed]
  -- the four catalog tables after the run
  have hlP : (((((s.store.db.ensure global_tables_table tablesDefinitions).ensure
      global_permissions permissionsDefinitions).put global_permissions
        { Definitions := permissionsDefinitions, rows := rows1 }).ensure
      global_users usersDefinitions).ensure
      global_user_table_permission grantsDefinitions).lookup global_permissions =
      some { Definitions := permissionsDefinitions, rows := rows1 } := by
    rw [DB.lookup_ensure, if_neg (by decide), DB.lookup_ensure, if_neg (by decide),
      DB.lookup_put, if_pos rfl, hl2]
    rfl
  have hlT : ∃ td, (((((s.store.db.ensure global_tables_table tablesDefinitions).ensure
      global_permissions permissionsDefinitions).put global_permissions
        { Definitions := permissionsDefinitions, rows := rows1 }).ensure
      global_users usersDefinitions).ensure
      global_user_table_permission grantsDefinitions).lookup global_tables_table =
      some td := by
    rw [DB.lookup_ensure, if_neg (by decide), DB.lookup_ensure, if_neg (by decide),
      DB.lookup_put, if_neg (by decide), DB.lookup_ensure, if_neg (by decide),
      DB.lookup_ensure, if_pos rfl]
    exact ⟨_, rfl⟩
  have hlU : ∃ td, (((((s.store.db.ensure global_tables_table tablesDefinitions).ensure
      global_permissions permissionsDefinitions).put global_permissions
        { Definitions := permissionsDefinitions, rows := rows1 }).ensure
      global_users usersDefinitions).ensure
      global_user_table_permission grantsDefinitions).lookup global_users = some td := by
    rw [DB.lookup_ensure, if_neg (by decide), DB.lookup_ensure, if_pos rfl]
    exact ⟨_, rfl⟩
  have hlG : ∃ td, (((((s.store.db.ensure global_tables_table tablesDefinitions).ensure
      global_permissions permissionsDefinitions).put global_permissions
        { Definitions := permissionsDefinitions, rows := rows1 }).ensure
      global_users usersDefinitions).ensure
      global_user_table_permission grantsDefinitions).lookup
        global_user_table_permission = some td := by
    rw [DB.lookup_ensure, if_pos rfl]
    exact ⟨_, rfl⟩
  -- each name once
  have hone : ∀ p ∈ defaultPermissions,
      (rows1.filter (fun r => decide (r.lookup "name" = some (Value.text p)))).length = 1 := by
    intro p hp
    rw [hcount p]
    have hu := huniq p hp
    unfold permissionsNamed at hu
    split_ifs with hc
    · rfl
    · have : ¬ ((catalogRows s global_permissions).filter
          (fun r => decide (r.lookup "name" = some (Value.text p)))).length = 0 :=
        fun h0 => hc ⟨hp, h0⟩
      omega
  rw [hinit]
  refine ⟨rfl, ?_, ?_, ?_⟩
  · intro n hn
    simp only [List.mem_cons, List.mem_singleton, List.not_mem_nil, or_false] at hn
    obtain ⟨td, hT⟩ := hlT
    obtain ⟨tu, hU⟩ := hlU
    obtain ⟨tg, hG⟩ := hlG
    rcases hn with h | h | h | h <;> subst h
    · simp only [hT, Option.isSome_some]
    · simp only [hlP, Option.isSome_some]
    · simp only [hU, Option.isSome_some]
    · simp only [hG, Option.isSome_some]
  · intro p hp
    unfold permissionsNamed catalogRows
    simp only [hlP]
    exact hone p hp
  · obtain ⟨td, hT⟩ := hlT
    obtain ⟨tu, hU⟩ := hlU
    obtain ⟨tg, hG⟩ := hlG
    have hpres : ∀ p ∈ defaultPermissions,
        rows1.filter (E.satisfies [nameEquals p]) ≠ [] := by
      intro p hp
      rw [filter_nameEquals E p rows1 (fun r hr => hE p hp r (hsub r hr))]
      intro h0
      have := hone p hp
      rw [h0] at this
      cases this
    rw [adminStore.init_eq]
    simp only [DB.ensure_of_lookup _ _ _ _ hT, DB.ensure_of_lookup _ _ _ _ hlP]
    rw [seedPermissions_present E _ _ hlP rfl defaultPermissions hpres]
    simp only [DB.ensure_of_lookup _ _ _ _ hU, DB.ensure_of_lookup _ _ _ _ hG]

/-- C22 on the example: the store an interrupted `init` left, holding two of
the four tables and two of the four names. -/
theorem adminStore_init_idempotent_witness :
    (halfCatalog.init eqEngine).1 = none ∧
    (∀ n ∈ [global_tables_table, global_permissions, global_users,
        global_user_table_permission],
      ((halfCatalog.init eqEngine).2.store.db.lookup n).isSome = true) ∧
    (∀ p ∈ defaultPermissions,
      (permissionsNamed (halfCatalog.init eqEngine).2 p).length = 1) ∧
    (halfCatalog.init eqEngine).2.init eqEngine = (none, (halfCatalog.init eqEngine).2) :=
  adminStore_init_idempotent eqEngine halfCatalog
    (fun t h => by
      have h1 : halfCatalog.store.db.lookup global_permissions =
          some { Definitions := permissionsDefinitions
                 rows := [seedRow READ_ALL_PERMISSION, seedRow WRITE_ALL_PERMISSION] } := by
        decide
      rw [h1] at h
      cases h
      rfl)
    (by decide) (by decide)

/-! ## `New` on a cache miss -/

/-- On a miss with the backend created, `New` returns the backend and files it
under the clock reading. -/
theorem userStoreFactory.New_of_miss (sqlOpen : String → Except Error DB)
    (f : userStoreFactory) (opts : UserStoreOptions) (now : Int) (us : sqlite3Store)
    (hmiss : mapGet f.stores opts.ID = none)
    (hnew : NewSQLite3Store sqlOpen opts.DataSource now = .ok us) :
    userStoreFactory.New sqlOpen f opts now = (.ok us, { stores := mapSet f.stores now us }) ∧
      us.ID = now := by
  have hid : us.ID = now := by
    unfold NewSQLite3Store at hnew
    cases ho : sqlOpen opts.DataSource with
    | error e => rw [ho] at hnew; cases hnew
    | ok db =>
      rw [ho] at hnew
      simp only [Except.ok.injEq] at hnew
      rw [← hnew]
      rfl
  refine ⟨?_, hid⟩
  unfold userStoreFactory.New
  rw [hmiss]
  simp only [hnew, hid]

/-- C23: when `opts.ID` is not a key of the cache and `sql.Open` hands out a
database for `opts.DataSource` (with the driver registered it does so for every
data source), `New` returns a new backend with a nil error and files it under
the clock reading `now`, which is the backend's id; when the clock reading
differs from `opts.ID` the backend's id differs from the requested id and the
requested id is still absent from the cache.  For a table whose recorded store
id is the missing id, the factory is asked with an empty data source, and an
authorized delegated `Query` or `Exec` is run on the new backend, whose answer
is returned. -/
theorem userStoreFactory_New_miss (E : Engine) (sqlOpen : String → Except Error DB)
    (f : userStoreFactory) (opts : UserStoreOptions) (now : Int) (db : DB)
    (hmiss : mapGet f.stores opts.ID = none)
    (hopen : sqlOpen opts.DataSource = .ok db) :
    userStoreFactory.New sqlOpen f opts now =
      (.ok { id := now, db := db },
        { stores := mapSet f.stores now { id := now, db := db } }) ∧
    ({ id := now, db := db } : sqlite3Store).ID = now ∧
    mapGet (mapSet f.stores now { id := now, db := db }) now = some { id := now, db := db } ∧
    (now ≠ opts.ID →
      ({ id := now, db := db } : sqlite3Store).ID ≠ opts.ID ∧
      mapGet (mapSet f.stores now { id := now, db := db }) opts.ID = none) ∧
    (∀ (as : AdminStore) (token : String) (q : QueryOptions) (user : User) (table : Table)
        (perms : List TablePermission),
      opts = { DataSource := "", ID := table.StoreID } →
      (delegatedOver E sqlOpen now as token).Finds q.TableName user table perms →
      (granted perms q.TableName "READ_ALL" ∨ granted perms q.TableName "READ_RESTRICTED") →
      ∃ fwd : QueryOptions, fwd.TableName = q.TableName ∧
        ((delegatedOver E sqlOpen now as token).Query q f).calls =
          [.New { DataSource := "", ID := table.StoreID }, .Query now fwd] ∧
        ((delegatedOver E sqlOpen now as token).Query q f).result =
          ({ id := now, db := db } : sqlite3Store).Query E fwd ∧
        ((delegatedOver E sqlOpen now as token).Query q f).state =
          { stores := mapSet f.stores now { id := now, db := db } }) ∧
    (∀ (as : AdminStore) (token : String) (x : ExecOptions) (user : User) (table : Table)
        (perms : List TablePermission),
      opts = { DataSource := "", ID := table.StoreID } →
      (delegatedOver E sqlOpen now as token).Finds x.TableName user table perms →
      (granted perms x.TableName "WRITE_ALL" ∨ granted perms x.TableName "WRITE_RESTRICTED") →
      ∃ fwd : ExecOptions, fwd.TableName = x.TableName ∧
        ((delegatedOver E sqlOpen now as token).Exec x f).calls =
          [.New { DataSource := "", ID := table.StoreID }, .Exec now fwd] ∧
        ((delegatedOver E sqlOpen now as token).Exec x f).result =
          (({ id := now, db := db } : sqlite3Store).Exec E fwd).1 ∧
        ((delegatedOver E sqlOpen now as token).Exec x f).state =
          { stores := mapSet (mapSet f.stores now { id := now, db := db }) now
              (({ id := now, db := db } : sqlite3Store).Exec E fwd).2 }) := by
  have hnew : NewSQLite3Store sqlOpen opts.DataSource now = .ok { id := now, db := db } := by
    unfold NewSQLite3Store
    rw [hopen]
  obtain ⟨hN, hid⟩ := userStoreFactory.New_of_miss sqlOpen f opts now _ hmiss hnew
  have hkey : cacheKey f opts.ID { id := now, db := db } = now := by
    unfold cacheKey
    rw [hmiss]
    rfl
  have hdisp : ∀ (as : AdminStore) (token : String) (table : Table),
      opts = { DataSource := "", ID := table.StoreID } →
      (delegatedOver E sqlOpen now as token).usf.New (factoryOptions table) f =
        (.ok (sqlite3Store.handle E now { id := now, db := db }),
          { stores := mapSet f.stores now { id := now, db := db } }) := by
    intro as token table ho
    have hdef : (delegatedOver E sqlOpen now as token).usf.New (factoryOptions table) f =
        match userStoreFactory.New sqlOpen f (factoryOptions table) now with
        | (.error err, f1) => (.error err, f1)
        | (.ok us, f1) =>
            (.ok (sqlite3Store.handle E (cacheKey f table.StoreID us) us), f1) := rfl
    have ho1 : factoryOptions table = opts := ho.symm
    have hsid : table.StoreID = opts.ID := by rw [ho]
    rw [hdef, ho1, hN, hsid]
    simp only [hkey]
  refine ⟨hN, rfl, ?_, ?_, ?_, ?_⟩
  · rw [mapGet_mapSet, if_pos rfl]
  · intro hne
    refine ⟨hne, ?_⟩
    rw [mapGet_mapSet, if_neg (fun h => hne h.symm)]
    exact hmiss
  · intro as token q user table perms ho hfinds hg
    have hres := delegatedStore.resolves_of_finds _ q.TableName user table perms hfinds
    have hr : READ_ALL_PERMISSION ∈ tablePermsOf perms q.TableName ∨
        READ_RESTRICTED_PERMISSION ∈ tablePermsOf perms q.TableName := by
      rw [mem_tablePermsOf, mem_tablePermsOf]
      exact hg
    rw [delegatedStore.Query_authorized _ q f user table _ hres hr, hdisp as token table ho]
    exact ⟨_, rewriteQuery_TableName q _ user.ID, rfl, rfl, rfl⟩
  · intro as token x user table perms ho hfinds hg
    have hres := delegatedStore.resolves_of_finds _ x.TableName user table perms hfinds
    have hw : WRITE_ALL_PERMISSION ∈ tablePermsOf perms x.TableName ∨
        WRITE_RESTRICTED_PERMISSION ∈ tablePermsOf perms x.TableName := by
      rw [mem_tablePermsOf, mem_tablePermsOf]
      exact hg
    rw [delegatedStore.Exec_authorized _ x f user table _ hres hw, hdisp as token table ho]
    exact ⟨_, rewriteExec_TableName x _ user.ID, rfl, rfl, rfl⟩

/-- C23 on the example: table `foo` is recorded on store 7, the cache is empty
and the clock reads 99.  `New` returns a backend with id 99, filed under 99;
id 7 stays absent.  The query of user 2 is run on that backend, which is a
database without tables, and its answer is what the caller gets. -/
theorem userStoreFactory_New_miss_witness :
    userStoreFactory.New openEmpty NewUserStoreFactory { DataSource := "", ID := 7 } 99 =
      (.ok { id := 99, db := [] }, { stores := [(99, { id := 99, db := [] })] }) ∧
    mapGet [((99 : Int), ({ id := 99, db := [] } : sqlite3Store))] 7 = none ∧
    (∃ fwd : QueryOptions, fwd.TableName = fooSelect.TableName ∧
      ((fooDelegated "t2").Query fooSelect NewUserStoreFactory).calls =
        [.New { DataSource := "", ID := 7 }, .Query 99 fwd] ∧
      ((fooDelegated "t2").Query fooSelect NewUserStoreFactory).result =
        ({ id := 99, db := [] } : sqlite3Store).Query eqEngine fwd ∧
      ((fooDelegated "t2").Query fooSelect NewUserStoreFactory).state =
        { stores := [(99, { id := 99, db := [] })] }) ∧
    ((fooDelegated "t2").Query fooSelect NewUserStoreFactory).calls =
      [.New { DataSource := "", ID := 7 }, .Query 99 fooSelect] ∧
    ((fooDelegated "t2").Query fooSelect NewUserStoreFactory).result =
      .error (.engine "no such table: foo") := by
  have h := userStoreFactory_New_miss eqEngine openEmpty NewUserStoreFactory
    { DataSource := "", ID := 7 } 99 [] (by decide) rfl
  exact ⟨h.1, (h.2.2.2.1 (by decide)).2,
    h.2.2.2.2.1 (fooCatalog.asAdminStore eqEngine) "t2" fooSelect
      { ID := 2, UserName := "u2" } { ID := 1, Name := "foo", StoreID := 7 }
      [{ TableName := "foo", Permission := "WRITE_ALL" },
       { TableName := "foo", Permission := "READ_ALL" }]
      rfl ⟨by decide, by decide, by decide⟩ (Or.inl (by decide)),
    by decide, by decide⟩

end Store
